import Mathlib

/-!
# LD2450 radar frame processor

A shallow embedding of `zone.h` and `ld2450_processor.h`.

Conventions of the embedding.

* `uint8_t` is `Fin 256`; `int16_t` values are `Int`, every store into an
  `int16_t` object going through `toInt16` (reduction modulo `2^16` into
  `[-32768, 32767]`); `unsigned long` is `Nat` reduced modulo `2^32`.
* `std::vector::operator[]` is `List.get?`-style indexing: an out-of-range
  read makes the enclosing function return `none`.
* `float` values that are only added, multiplied, divided and compared are
  exact rationals.  The floats that flow through `sqrt`, `cos`, `sin`,
  `acos` and `atan2` live in a carrier `F` with a `FloatOps F` structure; the
  instance on `ℝ` gives the reading over the real numbers.
-/

namespace LD2450

/-! ## Machine integers -/

/-- A `uint8_t`. -/
abbrev Byte := Fin 256

/-- Conversion of an integer value to `int16_t` (two's complement, modulo `2^16`). -/
def toInt16 (v : Int) : Int := (v + 32768) % 65536 - 32768

/-- Conversion of an integer value to `uint16_t`. -/
def toUInt16 (v : Nat) : Nat := v % 65536

/-- The modulus of `unsigned long` arithmetic (32 bits on the ESP targets). -/
def ULONG_MOD : Nat := 2 ^ 32

/-- Unsigned subtraction `a - b` on `unsigned long`. -/
def usub (a b : Nat) : Nat := (a % ULONG_MOD + ULONG_MOD - b % ULONG_MOD) % ULONG_MOD

/-- Unsigned addition `a + b` on `unsigned long`. -/
def uadd (a b : Nat) : Nat := (a + b) % ULONG_MOD

/-! ## `ld2450_processor.h`, lines 96-134: field decoding -/

/-- The test `(hi & 0x80) >> 7` of lines 101, 110 and 118. -/
def signBit (hi : Byte) : Bool := (hi.val &&& 0x80) >>> 7 != 0

/-- Lines 100-106: the X coordinate from its low and high byte. -/
def parseX (lo hi : Byte) : Int :=
  let x := toInt16 (toUInt16 ((hi.val <<< 8) ||| lo.val))
  let x := if signBit hi then toInt16 (x - 32768) else toInt16 (0 - x)
  toInt16 (x * -1)

/-- Lines 109-114: the Y coordinate from its low and high byte. -/
def parseY (lo hi : Byte) : Int :=
  let y := toInt16 (toUInt16 ((hi.val <<< 8) ||| lo.val))
  if signBit hi then toInt16 (y - 32768) else toInt16 (0 - y)

/-- Lines 117-122: the speed from its low and high byte (no `uint16_t` cast). -/
def parseSpeed (lo hi : Byte) : Int :=
  let speed := toInt16 ((hi.val <<< 8) ||| lo.val : Nat)
  if signBit hi then toInt16 (speed - 32768) else toInt16 (0 - speed)

/-- Line 125: the distance resolution, stored in the `int16_t` field of `Position`. -/
def parseResolution (lo hi : Byte) : Int :=
  toInt16 (toUInt16 ((hi.val <<< 8) ||| lo.val))

/-! ## Floating point -/

/-- The floating-point operations used by `zone.h`.  `lt a b` is `a < b`,
`le a b` is `a <= b`, `atan2 y x` is `std::atan2(y, x)` and `pi` is `M_PI`. -/
class FloatOps (F : Type) where
  add : F → F → F
  sub : F → F → F
  mul : F → F → F
  div : F → F → F
  ofInt : Int → F
  ofRat : ℚ → F
  lt : F → F → Bool
  le : F → F → Bool
  sqrt : F → F
  cos : F → F
  sin : F → F
  acos : F → F
  atan2 : F → F → F
  pi : F

/-- The notation `a + b` for `FloatOps.add`. -/
instance (priority := low) floatAdd {F : Type} [FloatOps F] : Add F := ⟨FloatOps.add⟩
/-- The notation `a - b` for `FloatOps.sub`. -/
instance (priority := low) floatSub {F : Type} [FloatOps F] : Sub F := ⟨FloatOps.sub⟩
/-- The notation `a * b` for `FloatOps.mul`. -/
instance (priority := low) floatMul {F : Type} [FloatOps F] : Mul F := ⟨FloatOps.mul⟩
/-- The notation `a / b` for `FloatOps.div`. -/
instance (priority := low) floatDiv {F : Type} [FloatOps F] : Div F := ⟨FloatOps.div⟩

/-- The reading of the floating-point operations over the real numbers. -/
noncomputable instance realOps : FloatOps ℝ where
  add := fun a b => a + b
  sub := fun a b => a - b
  mul := fun a b => a * b
  div := fun a b => a / b
  ofInt := fun n => (n : ℝ)
  ofRat := fun q => (q : ℝ)
  lt := fun a b => decide (a < b)
  le := fun a b => decide (a ≤ b)
  sqrt := Real.sqrt
  cos := Real.cos
  sin := Real.sin
  acos := Real.arccos
  atan2 := fun y x => Complex.arg ⟨x, y⟩
  pi := Real.pi

/-- Conversion of a `float` to `int16_t`: truncation toward zero (the value
is then reduced like any other `int16_t` store). -/
def floatToInt16 (q : ℚ) : Int := toInt16 (if 0 ≤ q then ⌊q⌋ else ⌈q⌉)

/-! ## `zone.h` -/

/-- The constant `ZoneConstants::MAX_COORDINATE`. -/
def MAX_COORDINATE : Int := 4000
/-- The constant `ZoneConstants::MAX_DISTANCE`. -/
def MAX_DISTANCE : Int := 8000
/-- The constant `ZoneConstants::MIN_Y`. -/
def MIN_Y : Int := -500

section
variable {F : Type} [FloatOps F]

/-- The constant `ZoneConstants::TAU = 2.0f * M_PI`. -/
def TAU : F := FloatOps.ofRat 2 * FloatOps.pi
/-- The constant `ZoneConstants::EPSILON = 1e-6f`. -/
def EPSILON : F := FloatOps.ofRat (1 / 1000000)

end

/-- The `struct Position`: one detected target. -/
structure Position (F : Type) where
  x : Int
  y : Int
  speed : Int
  distance_resolution : Int
  valid : Bool
  zone_ex_enter : Bool
  angle : F
  position : String
  direction : String

/-- The `struct Zone`. -/
structure Zone where
  x : Int := 0
  y : Int := 0
  height : Int := 0
  width : Int := 0
  target_count : Int := 0
  outside_target_count : Int := 0
  has_target : Bool := false
  has_target_outside : Bool := false

/-- The method `Zone::isValid`. -/
def Zone.isValid (z : Zone) : Bool :=
  decide (z.width > 0) && decide (z.height > 0) &&
    decide (z.x ≥ -MAX_COORDINATE) && decide (z.x ≤ MAX_COORDINATE) &&
    decide (z.y ≥ MIN_Y) && decide (z.y ≤ MAX_DISTANCE)

/-- The method `Zone::resetCounts`. -/
def Zone.resetCounts (z : Zone) : Zone :=
  { z with target_count := 0, outside_target_count := 0,
           has_target := false, has_target_outside := false }

/-- The method `Zone::isConfigured`. -/
def Zone.isConfigured (z : Zone) : Bool :=
  decide (z.width ≠ 0) || decide (z.height ≠ 0)

/-- The `struct Pxy`. -/
structure Pxy (F : Type) where
  x : F
  y : F

section
variable {F : Type} [FloatOps F]

/-- The method `Pxy::distanceTo(const Pxy&)`. -/
def Pxy.distanceTo (p other : Pxy F) : F :=
  let dx := p.x - other.x
  let dy := p.y - other.y
  FloatOps.sqrt (dx * dx + dy * dy)

/-- The function `toRadians`. -/
def toRadians (degrees : F) : F :=
  degrees * FloatOps.pi / FloatOps.ofRat 180

/-- The function `toDegrees`. -/
def toDegrees (radians : F) : F :=
  radians * FloatOps.ofRat 180 / FloatOps.pi

/-- The function `safeAcos`. -/
def safeAcos (value : F) : F :=
  if FloatOps.lt (FloatOps.ofRat 1) value then FloatOps.ofRat 0
  else if FloatOps.lt value (FloatOps.ofRat (-1)) then FloatOps.pi
  else FloatOps.acos value

/-- The `struct ZoneCorners`. -/
structure ZoneCorners (F : Type) where
  p1 : Pxy F
  p2 : Pxy F
  p3 : Pxy F
  p4 : Pxy F

/-- The constructor `ZoneCorners::ZoneCorners(const Zone&, float)`. -/
def ZoneCorners.build (z : Zone) (angle_deg : F) : ZoneCorners F :=
  let angle_rad := toRadians angle_deg
  let cos_angle := FloatOps.cos angle_rad
  let sin_angle := FloatOps.sin angle_rad
  let cos_angle_90 := FloatOps.cos (toRadians (angle_deg - FloatOps.ofRat 90))
  let sin_angle_90 := FloatOps.sin (toRadians (angle_deg + FloatOps.ofRat 90))
  let zx : F := FloatOps.ofInt z.x
  let zy : F := FloatOps.ofInt z.y
  let w : F := FloatOps.ofInt z.width
  let h : F := FloatOps.ofInt z.height
  { p1 := ⟨zx, zy⟩
    p2 := ⟨zx - w * cos_angle, zy + w * sin_angle⟩
    p3 := ⟨zx - w * cos_angle + h * cos_angle_90, zy + w * sin_angle + h * sin_angle_90⟩
    p4 := ⟨zx + h * cos_angle_90, zy + h * sin_angle_90⟩ }

/-- The function `check_targets_in_zone`: the sum-of-angles containment test. -/
def check_targets_in_zone (z : Zone) (t : Position F) (angle : F) : Bool :=
  if !z.isValid || !t.valid then false
  else if t.zone_ex_enter then false
  else
    let corners := ZoneCorners.build z angle
    let target : Pxy F := ⟨FloatOps.ofInt t.x, FloatOps.ofInt t.y⟩
    let d15 := corners.p1.distanceTo target
    let d25 := corners.p2.distanceTo target
    let d35 := corners.p3.distanceTo target
    let d45 := corners.p4.distanceTo target
    let max_zone_diagonal : F :=
      FloatOps.sqrt (FloatOps.ofInt (z.width * z.width + z.height * z.height))
    if FloatOps.lt max_zone_diagonal d15 && FloatOps.lt max_zone_diagonal d25 &&
        FloatOps.lt max_zone_diagonal d35 && FloatOps.lt max_zone_diagonal d45 then false
    else
      let d12 := corners.p1.distanceTo corners.p2
      let d14 := corners.p1.distanceTo corners.p4
      let d23 := corners.p2.distanceTo corners.p3
      let d34 := corners.p3.distanceTo corners.p4
      if FloatOps.lt d15 EPSILON || FloatOps.lt d25 EPSILON ||
          FloatOps.lt d35 EPSILON || FloatOps.lt d45 EPSILON then true
      else
        let two : F := FloatOps.ofRat 2
        let cos_a152 := (d15 * d15 + d25 * d25 - d12 * d12) / (two * d15 * d25)
        let cos_a154 := (d15 * d15 + d45 * d45 - d14 * d14) / (two * d15 * d45)
        let cos_a253 := (d25 * d25 + d35 * d35 - d23 * d23) / (two * d25 * d35)
        let cos_a354 := (d35 * d35 + d45 * d45 - d34 * d34) / (two * d35 * d45)
        let a152 := safeAcos cos_a152
        let a154 := safeAcos cos_a154
        let a253 := safeAcos cos_a253
        let a354 := safeAcos cos_a354
        let a_sum := a152 + a154 + a253 + a354
        FloatOps.le (TAU - FloatOps.ofRat (1 / 100)) a_sum

/-- The function `check_targets_in_rect_zone`: the axis-aligned test. -/
def check_targets_in_rect_zone (z : Zone) (t : Position F) : Bool :=
  if !z.isValid || !t.valid || t.zone_ex_enter then false
  else
    let x_min := min z.x (toInt16 (z.x - z.width))
    let x_max := max z.x (toInt16 (z.x - z.width))
    let y_min := z.y
    let y_max := toInt16 (z.y + z.height)
    decide (t.x ≥ x_min) && decide (t.x ≤ x_max) && decide (t.y ≥ y_min) && decide (t.y ≤ y_max)

/-- The function `calculate_target_angle`: the bearing from the Y axis, in degrees. -/
def calculate_target_angle (x y : Int) : F :=
  if y = 0 then FloatOps.ofRat 0
  else toDegrees (FloatOps.atan2 (FloatOps.ofInt x) (FloatOps.ofInt y))

end

/-- The function `calculate_target_position`: the movement state from the speed. -/
def calculate_target_position (speed : Int) (speed_threshold : ℚ) : String :=
  let speed_ms : ℚ := (speed : ℚ) / 100
  if speed_ms > speed_threshold then "Moving away"
  else if speed_ms < -speed_threshold then "Approaching"
  else "Static"

/-- The function `calculate_target_direction`; the threshold is an `int16_t` parameter. -/
def calculate_target_direction (x y : Int) (threshold : Int) : String :=
  if x > threshold then "Right"
  else if x < -threshold then "Left"
  else if y > 0 then "Center"
  else "None"

/-! ## `ld2450_processor.h` -/

/-- The constant `NUM_ZONES`. -/
def NUM_ZONES : Nat := 3
/-- The constant `NUM_ZONES_EX`. -/
def NUM_ZONES_EX : Nat := 1
/-- The constant `NUM_TARGETS`. -/
def NUM_TARGETS : Nat := 3
/-- The constant `MIN_PACKET_SIZE`. -/
def MIN_PACKET_SIZE : Nat := 30
/-- The constant `FULL_PACKET_SIZE` (and `EXPECTED_PACKET_SIZE`). -/
def FULL_PACKET_SIZE : Nat := 48

/-- The configuration entities read by `process_ld2450_data` (the `state`
of each number and switch); arrays are functions of the index. -/
structure Config (F : Type) where
  update_interval_ms : ℚ
  position_threshold : ℚ
  speed_threshold : ℚ
  wall_angle : F
  zone_fn_enable : Bool
  target_fn_enable : Bool
  debug_mode : Bool
  zone_x : Nat → ℚ
  zone_y : Nat → ℚ
  zone_height : Nat → ℚ
  zone_width : Nat → ℚ
  zone_ex_enable : Nat → Bool
  zone_ex_x : Nat → ℚ
  zone_ex_y : Nat → ℚ
  zone_ex_height : Nat → ℚ
  zone_ex_width : Nat → ℚ

/-- What persists between invocations: the static `packet_buffer`, the
reference parameters, and the `state` of every sink the function reads back
(each sink holds the last value published to it). -/
structure State where
  packet_buffer : List Byte
  last_update : Nat
  update_counter : Nat
  last_rate_calc : Nat
  packet_error_count : Nat
  init_zone_publish : Bool
  all_target_count : ℚ
  any_target_exist : Bool
  zone_target_count : Nat → ℚ
  zone_target_exist : Nat → Bool
  zone_ex_target_count : Nat → ℚ
  zone_ex_target_exist : Nat → Bool

/-- One `publish_state` call: the sink (with its array index) and the value. -/
inductive Pub (F : Type) where
  | update_rate (v : ℚ)
  | packet_errors (v : Nat)
  | radar_status (v : String)
  | target_x (i : Nat) (v : Int)
  | target_y (i : Nat) (v : Int)
  | target_speed (i : Nat) (v : ℚ)
  | target_resolution (i : Nat) (v : Int)
  | target_angle (i : Nat) (v : F)
  | target_position (i : Nat) (v : String)
  | target_direction (i : Nat) (v : String)
  | all_target_count (v : Int)
  | any_target_exist (v : Bool)
  | zone_target_count (i : Nat) (v : Int)
  | zone_target_exist (i : Nat) (v : Bool)
  | zone_ex_target_count (i : Nat) (v : Int)
  | zone_ex_target_exist (i : Nat) (v : Bool)
  deriving DecidableEq

/-- The values computed for one frame (the locals `p`, `zone_ex`, `zone`,
`all_target_counts` and `has_target_in_zone_all`). -/
structure Frame (F : Type) where
  p : List (Position F)
  zone_ex : List Zone
  zone : List Zone
  all_target_counts : Int
  has_target_in_zone_all : Bool

section
variable {F : Type} [FloatOps F]

/-- Lines 99-133: the body of the parse loop for the block at offset `b`. -/
def parseTarget (bytes : List Byte) (b : Nat) : Option (Position F) := do
  let b4 ← bytes[b + 4]?
  let b5 ← bytes[b + 5]?
  let b6 ← bytes[b + 6]?
  let b7 ← bytes[b + 7]?
  let b8 ← bytes[b + 8]?
  let b9 ← bytes[b + 9]?
  let b10 ← bytes[b + 10]?
  let b11 ← bytes[b + 11]?
  let x := parseX b4 b5
  let y := parseY b6 b7
  pure { x := x
         y := y
         speed := parseSpeed b8 b9
         distance_resolution := parseResolution b10 b11
         valid := decide (x ≠ 0) || decide (y > 0)
         zone_ex_enter := false
         angle := FloatOps.ofRat 0
         position := "Static"
         direction := "None" }

/-- Lines 97-134: the parse loop, `n` targets left, the next block at `b`. -/
def parseTargets (bytes : List Byte) : Nat → Nat → Option (List (Position F))
  | 0, _ => some []
  | n + 1, b => do
    let t ← parseTarget bytes b
    let ts ← parseTargets bytes n (b + 8)
    pure (t :: ts)

/-- Lines 145-154: the targets of one exclusion zone; returns the zone with
its tallies and the targets with their `zone_ex_enter` flags. -/
def exclusionTargets (angle : F) : Zone → List (Position F) → Zone × List (Position F)
  | z, [] => (z, [])
  | z, t :: ts =>
    if t.valid then
      if check_targets_in_zone z t angle then
        let r := exclusionTargets angle { z with target_count := z.target_count + 1 } ts
        (r.1, { t with zone_ex_enter := true } :: r.2)
      else
        let r := exclusionTargets angle
          { z with outside_target_count := z.outside_target_count + 1 } ts
        (r.1, t :: r.2)
    else
      let r := exclusionTargets angle z ts
      (r.1, t :: r.2)

/-- Lines 138-142: exclusion zone `i` as loaded from the configuration, its
counts reset. -/
def loadZoneEx (cfg : Config F) (i : Nat) : Zone :=
  Zone.resetCounts
    { x := floatToInt16 (cfg.zone_ex_x i)
      y := floatToInt16 (cfg.zone_ex_y i)
      width := floatToInt16 (cfg.zone_ex_width i)
      height := floatToInt16 (cfg.zone_ex_height i) }

/-- Lines 172-176: inclusion zone `i` as loaded from the configuration, its
counts reset. -/
def loadZone (cfg : Config F) (i : Nat) : Zone :=
  Zone.resetCounts
    { x := floatToInt16 (cfg.zone_x i)
      y := floatToInt16 (cfg.zone_y i)
      width := floatToInt16 (cfg.zone_width i)
      height := floatToInt16 (cfg.zone_height i) }

/-- Lines 137-158: the loop over the exclusion zones with the given indices. -/
def exclusionZones (cfg : Config F) (angle : F) :
    List Nat → List (Position F) → List Zone × List (Position F)
  | [], p => ([], p)
  | i :: is, p =>
    let z := loadZoneEx cfg i
    let r := if cfg.zone_ex_enable i && z.isConfigured then exclusionTargets angle z p
             else (z, p)
    let z := { r.1 with has_target := decide (r.1.target_count > 0)
                        has_target_outside := decide (r.1.outside_target_count > 0) }
    let rest := exclusionZones cfg angle is r.2
    (z :: rest.1, rest.2)

/-- Lines 161-166: the count of the valid, non-excluded targets. -/
def countAllTargets (p : List (Position F)) : Int :=
  p.foldl (fun all_target_counts t =>
    if t.valid && !t.zone_ex_enter then all_target_counts + 1 else all_target_counts) 0

/-- Lines 179-187: the targets of one inclusion zone. -/
def inclusionTargets (angle : F) (z : Zone) (p : List (Position F)) : Zone :=
  p.foldl (fun z t =>
    if t.valid && !t.zone_ex_enter then
      if check_targets_in_zone z t angle then { z with target_count := z.target_count + 1 }
      else { z with outside_target_count := z.outside_target_count + 1 }
    else z) z

/-- Lines 172-190: the body of the inclusion loop for zone `i`. -/
def inclusionZone (cfg : Config F) (angle : F) (p : List (Position F)) (i : Nat) : Zone :=
  let z := loadZone cfg i
  let z := if z.isConfigured then inclusionTargets angle z p else z
  { z with has_target := decide (z.target_count > 0)
           has_target_outside := decide (z.outside_target_count > 0) }

/-- Lines 170-192: the inclusion zones; with the zone function switched off
the array `zone` keeps its default-initialised elements. -/
def inclusionZones (cfg : Config F) (angle : F) (p : List (Position F)) : List Zone :=
  if cfg.zone_fn_enable then (List.range NUM_ZONES).map (inclusionZone cfg angle p)
  else List.replicate NUM_ZONES {}

/-- Lines 196-200: the body of the attribute loop. -/
def targetAttribute (speed_thresh : ℚ) (t : Position F) : Position F :=
  if t.valid then
    { t with angle := calculate_target_angle t.x t.y
             position := calculate_target_position t.speed speed_thresh
             direction := calculate_target_direction t.x t.y 100 }
  else t

/-- Lines 195-201: angle, movement state and direction of the valid targets. -/
def targetAttributes (speed_thresh : ℚ) (p : List (Position F)) : List (Position F) :=
  p.map (targetAttribute speed_thresh)

/-- Lines 89-91 and 137-201: everything computed from the parsed targets and
the configuration, before anything is published. -/
def classifyTargets (cfg : Config F) (p : List (Position F)) : Frame F :=
  let angle := cfg.wall_angle
  let _pos_threshold := cfg.position_threshold
  let speed_thresh := cfg.speed_threshold
  let ex := exclusionZones cfg angle (List.range NUM_ZONES_EX) p
  let p := ex.2
  let all_target_counts := countAllTargets p
  let has_target_in_zone_all := decide (all_target_counts > 0)
  let zone := inclusionZones cfg angle p
  let p := targetAttributes speed_thresh p
  { p := p, zone_ex := ex.1, zone := zone, all_target_counts := all_target_counts,
    has_target_in_zone_all := has_target_in_zone_all }

/-- Lines 89-201: the parse loop followed by the classification. -/
def classifyFrame (cfg : Config F) (bytes : List Byte) : Option (Frame F) := do
  let p ← parseTargets bytes NUM_TARGETS 0
  pure (classifyTargets cfg p)

/-- Lines 206-224: what is published for target `i`. -/
def publishTarget (i : Nat) (t : Position F) : List (Pub F) :=
  if t.valid then
    [ Pub.target_x i t.x, Pub.target_y i t.y, Pub.target_speed i ((t.speed : ℚ) / 100),
      Pub.target_resolution i t.distance_resolution, Pub.target_angle i t.angle,
      Pub.target_position i t.position, Pub.target_direction i t.direction ]
  else
    [ Pub.target_x i 0, Pub.target_y i 0, Pub.target_speed i 0,
      Pub.target_angle i (FloatOps.ofInt 0) ]

/-- Lines 205-225: the loop over the targets, the first one having index `i`. -/
def publishTargets : Nat → List (Position F) → List (Pub F)
  | _, [] => []
  | i, t :: ts => publishTarget i t ++ publishTargets (i + 1) ts

/-- Lines 204-226: the target data, published when the target function is on. -/
def publishTargetData (cfg : Config F) (p : List (Position F)) : List (Pub F) :=
  if cfg.target_fn_enable then publishTargets 0 p else []

/-- Lines 233-238: the aggregate count and presence flag, published on change. -/
def publishOverall (all_target_counts : Int) (has_target_in_zone_all : Bool) (s : State) :
    State × List (Pub F) :=
  if s.all_target_count ≠ (all_target_counts : ℚ) then
    ({ s with all_target_count := (all_target_counts : ℚ)
              any_target_exist := has_target_in_zone_all },
     [Pub.all_target_count all_target_counts, Pub.any_target_exist has_target_in_zone_all])
  else if s.any_target_exist ≠ has_target_in_zone_all then
    ({ s with any_target_exist := has_target_in_zone_all },
     [Pub.any_target_exist has_target_in_zone_all])
  else (s, [])

/-- Lines 241-246: the inclusion zones, the first one having index `i`. -/
def publishZones : Nat → List Zone → State → State × List (Pub F)
  | _, [], s => (s, [])
  | i, z :: zs, s =>
    if s.zone_target_count i ≠ (z.target_count : ℚ) then
      let r := publishZones (i + 1) zs
        { s with zone_target_count := Function.update s.zone_target_count i (z.target_count : ℚ)
                 zone_target_exist := Function.update s.zone_target_exist i z.has_target }
      (r.1, [Pub.zone_target_count i z.target_count, Pub.zone_target_exist i z.has_target] ++ r.2)
    else publishZones (i + 1) zs s

/-- Lines 249-256: the exclusion zones, the first one having index `i`. -/
def publishZonesEx : Nat → List Zone → State → State × List (Pub F)
  | _, [], s => (s, [])
  | i, z :: zs, s =>
    let c := if s.zone_ex_target_count i ≠ (z.target_count : ℚ) then
        ({ s with zone_ex_target_count :=
                    Function.update s.zone_ex_target_count i (z.target_count : ℚ) },
         [Pub.zone_ex_target_count i z.target_count])
      else (s, [])
    let e := if c.1.zone_ex_target_exist i ≠ z.has_target then
        ({ c.1 with zone_ex_target_exist :=
                      Function.update c.1.zone_ex_target_exist i z.has_target },
         [Pub.zone_ex_target_exist i z.has_target])
      else (c.1, [])
    let r := publishZonesEx (i + 1) zs e.1
    (r.1, c.2 ++ e.2 ++ r.2)

/-- Lines 259-263: the initialisation latch. -/
def publishReady (s : State) : State × List (Pub F) :=
  if !s.init_zone_publish then
    ({ s with init_zone_publish := true }, [Pub.radar_status "Ready"])
  else (s, [])

/-- Lines 204-263: everything published for a classified frame. -/
def publishFrame (cfg : Config F) (fr : Frame F) (s : State) : State × List (Pub F) :=
  let targets := publishTargetData cfg fr.p
  let o := publishOverall fr.all_target_counts fr.has_target_in_zone_all s
  let z := publishZones 0 fr.zone o.1
  let e := publishZonesEx 0 fr.zone_ex z.1
  let r := publishReady e.1
  (r.1, targets ++ o.2 ++ z.2 ++ e.2 ++ r.2)

/-- Lines 73-79: the update counter and the rate reporter. -/
def rateReporter (current_time : Nat) (s : State) : State × List (Pub F) :=
  let s := { s with update_counter := uadd s.update_counter 1 }
  if usub current_time s.last_rate_calc ≥ 1000 then
    let rate : ℚ := (s.update_counter : ℚ) * 1000 / (usub current_time s.last_rate_calc : ℚ)
    ({ s with update_counter := 0, last_rate_calc := current_time }, [Pub.update_rate rate])
  else (s, [])

/-- The function `process_ld2450_data`: one invocation with the input chunk
`bytes` at time `current_time = millis()`.  The result is the new state and
the publish calls in order; `none` stands for a read outside `bytes`. -/
def process_ld2450_data (cfg : Config F) (current_time : Nat) (bytes : List Byte) (s : State) :
    Option (State × List (Pub F)) :=
  let packet_buffer := s.packet_buffer ++ bytes
  if packet_buffer.length < FULL_PACKET_SIZE then
    some ({ s with packet_buffer := packet_buffer }, [])
  else
    let _packet := packet_buffer.take FULL_PACKET_SIZE
    let s := { s with packet_buffer := packet_buffer.drop FULL_PACKET_SIZE }
    if (usub current_time s.last_update : ℚ) ≤ cfg.update_interval_ms then some (s, [])
    else
      let s := { s with last_update := current_time }
      let r := rateReporter current_time s
      if bytes.length < MIN_PACKET_SIZE then
        let s := { r.1 with packet_error_count := uadd r.1.packet_error_count 1 }
        some (s, r.2 ++ [Pub.packet_errors s.packet_error_count, Pub.radar_status "Packet Error"])
      else
        match classifyFrame cfg bytes with
        | none => none
        | some fr =>
          let f := publishFrame cfg fr r.1
          some (f.1, r.2 ++ f.2)

end

/-! ## Definitions used to state the properties -/

/-- The byte of `bytes` at index `k` as a number (0 when `k` is out of range). -/
def byteAt (bytes : List Byte) (k : Nat) : Nat := (bytes.getD k 0).val

/-- The sign rule in the words of the specification: with bit 7 of the high
byte set the value is `raw - 32768`, with it clear the value is `-raw`, where
`raw = lo + 256 * hi`. -/
def signRule_spec (lo hi : Nat) : Int :=
  if hi.testBit 7 then ((lo + 256 * hi : Nat) : Int) - 32768 else -((lo + 256 * hi : Nat) : Int)

/-- The decoder's Y (and speed) value of the raw 16-bit number `r`, whose low
byte is `r % 256` and whose high byte is `r / 256`. -/
def decodeRaw (r : Nat) : Int := parseY (Fin.ofNat (r % 256)) (Fin.ofNat (r / 256))

/-- The inverse of the sign rule in the words of the specification: a
non-negative value `v` is encoded as `v + 32768` (high bit set), a negative
value as its magnitude `-v` (high bit clear). -/
def reencode_spec (v : Int) : Int := if 0 ≤ v then v + 32768 else -v

/-- The target record that the parse loop builds from the block at offset
`b` when every byte of the block is in range. -/
def targetAt {F : Type} [FloatOps F] (bytes : List Byte) (b : Nat) : Position F :=
  { x := parseX (bytes.getD (b + 4) 0) (bytes.getD (b + 5) 0)
    y := parseY (bytes.getD (b + 6) 0) (bytes.getD (b + 7) 0)
    speed := parseSpeed (bytes.getD (b + 8) 0) (bytes.getD (b + 9) 0)
    distance_resolution := parseResolution (bytes.getD (b + 10) 0) (bytes.getD (b + 11) 0)
    valid := decide (parseX (bytes.getD (b + 4) 0) (bytes.getD (b + 5) 0) ≠ 0) ||
      decide (parseY (bytes.getD (b + 6) 0) (bytes.getD (b + 7) 0) > 0)
    zone_ex_enter := false
    angle := FloatOps.ofRat 0
    position := "Static"
    direction := "None" }

/-- The publish call with its floating-point payload (a bearing angle)
mapped by `f`; with `f` into `Unit` the calls of a run can be compared by
evaluation. -/
def Pub.mapAngle {F G : Type} (f : F → G) : Pub F → Pub G
  | .update_rate v => .update_rate v
  | .packet_errors v => .packet_errors v
  | .radar_status v => .radar_status v
  | .target_x i v => .target_x i v
  | .target_y i v => .target_y i v
  | .target_speed i v => .target_speed i v
  | .target_resolution i v => .target_resolution i v
  | .target_angle i v => .target_angle i (f v)
  | .target_position i v => .target_position i v
  | .target_direction i v => .target_direction i v
  | .all_target_count v => .all_target_count v
  | .any_target_exist v => .any_target_exist v
  | .zone_target_count i v => .zone_target_count i v
  | .zone_target_exist i v => .zone_target_exist i v
  | .zone_ex_target_count i v => .zone_ex_target_count i v
  | .zone_ex_target_exist i v => .zone_ex_target_exist i v

/-- The publish calls of a run with the bearing angles blanked. -/
def calls {F : Type} (out : List (Pub F)) : List (Pub Unit) := out.map (Pub.mapAngle fun _ => ())

/-- A 30-byte chunk: header, one target block (raw X `0x030E`, raw Y `0x86B1`,
raw speed `0x0010`, resolution `0x0140`), two empty blocks, trailer. -/
def sampleChunk : List Byte :=
  [0xAA, 0xFF, 0x03, 0x00,
   0x0E, 0x03, 0xB1, 0x86, 0x10, 0x00, 0x40, 0x01,
   0x00, 0x00, 0x00, 0x00, 0x00, 0x00, 0x00, 0x00,
   0x00, 0x00, 0x00, 0x00, 0x00, 0x00, 0x00, 0x00,
   0x55, 0xCC]

/-- The chunk `sampleChunk` with the resolution bytes of the first block
replaced by `0x00, 0x80` (raw resolution 32768). -/
def resolutionChunk : List Byte :=
  [0xAA, 0xFF, 0x03, 0x00,
   0x0E, 0x03, 0xB1, 0x86, 0x10, 0x00, 0x00, 0x80,
   0x00, 0x00, 0x00, 0x00, 0x00, 0x00, 0x00, 0x00,
   0x00, 0x00, 0x00, 0x00, 0x00, 0x00, 0x00, 0x00,
   0x55, 0xCC]

/-- A 48-byte frame: `sampleChunk` followed by 18 further bytes. -/
def sampleFrame : List Byte :=
  sampleChunk ++
  [0xAA, 0xFF, 0x03, 0x00,
   0x0E, 0x03, 0xB1, 0x86, 0x10, 0x00, 0x40, 0x01,
   0x00, 0x00, 0x00, 0x00, 0x00, 0x00]

/-- A configuration over the reals: interval 100 ms, target publishing on,
the zone function and the exclusion zone off. -/
def sampleConfig : Config ℝ :=
  { update_interval_ms := 100
    position_threshold := 0
    speed_threshold := 5 / 100
    wall_angle := 0
    zone_fn_enable := false
    target_fn_enable := true
    debug_mode := false
    zone_x := fun _ => 0
    zone_y := fun _ => 0
    zone_height := fun _ => 0
    zone_width := fun _ => 0
    zone_ex_enable := fun _ => false
    zone_ex_x := fun _ => 0
    zone_ex_y := fun _ => 0
    zone_ex_height := fun _ => 0
    zone_ex_width := fun _ => 0 }

/-- A start state: empty buffer, zero counters and timers, nothing published. -/
def initialState : State :=
  { packet_buffer := []
    last_update := 0
    update_counter := 0
    last_rate_calc := 0
    packet_error_count := 0
    init_zone_publish := false
    all_target_count := -1
    any_target_exist := false
    zone_target_count := fun _ => -1
    zone_target_exist := fun _ => false
    zone_ex_target_count := fun _ => -1
    zone_ex_target_exist := fun _ => false }

/-- The zone of the containment example: origin (0, 0), width 1000, height 1000. -/
def squareZone : Zone := { x := 0, y := 0, width := 1000, height := 1000 }

/-- A zone with origin (100, 200), width 1000 and height 500. -/
def offsetZone : Zone := { x := 100, y := 200, width := 1000, height := 500 }

/-- A zone of width 0. -/
def flatZone : Zone := { x := 0, y := 0, width := 0, height := 1000 }

/-- A valid, non-excluded target at the point `(x, y)`. -/
def targetPoint (x y : Int) : Position ℝ :=
  { x := x, y := y, speed := 0, distance_resolution := 0, valid := true,
    zone_ex_enter := false, angle := 0, position := "Static", direction := "None" }

/-- A 30-byte chunk whose first block holds raw X `0x81F4` and raw Y `0x81F4`:
a target at `x = -500`, `y = 500`. -/
def exclusionChunk : List Byte :=
  [0xAA, 0xFF, 0x03, 0x00,
   0xF4, 0x81, 0xF4, 0x81, 0x10, 0x00, 0x40, 0x01,
   0x00, 0x00, 0x00, 0x00, 0x00, 0x00, 0x00, 0x00,
   0x00, 0x00, 0x00, 0x00, 0x00, 0x00, 0x00, 0x00,
   0x55, 0xCC]

/-- The configuration `sampleConfig` with the zone function on, the exclusion
zone switched on, and every zone at (0, 0) with width 1000 and height 1000. -/
def exclusionConfig : Config ℝ :=
  { sampleConfig with
    zone_fn_enable := true
    zone_height := fun _ => 1000
    zone_width := fun _ => 1000
    zone_ex_enable := fun _ => true
    zone_ex_height := fun _ => 1000
    zone_ex_width := fun _ => 1000 }

/-- The sinks of `process_ld2450_data`; an array of sinks goes under one name. -/
inductive Sink where
  | update_rate
  | packet_errors
  | radar_status
  | target_x
  | target_y
  | target_speed
  | target_resolution
  | target_angle
  | target_position
  | target_direction
  | all_target_count
  | any_target_exist
  | zone_target_count
  | zone_target_exist
  | zone_ex_target_count
  | zone_ex_target_exist
  deriving DecidableEq

/-- The sink a publish call goes to. -/
def Pub.sink {F : Type} : Pub F → Sink
  | .update_rate _ => .update_rate
  | .packet_errors _ => .packet_errors
  | .radar_status _ => .radar_status
  | .target_x _ _ => .target_x
  | .target_y _ _ => .target_y
  | .target_speed _ _ => .target_speed
  | .target_resolution _ _ => .target_resolution
  | .target_angle _ _ => .target_angle
  | .target_position _ _ => .target_position
  | .target_direction _ _ => .target_direction
  | .all_target_count _ => .all_target_count
  | .any_target_exist _ => .any_target_exist
  | .zone_target_count _ _ => .zone_target_count
  | .zone_target_exist _ _ => .zone_target_exist
  | .zone_ex_target_count _ _ => .zone_ex_target_count
  | .zone_ex_target_exist _ _ => .zone_ex_target_exist

/-- The number of publish calls of a run that go to the sink `k`. -/
def publishCount {F : Type} (k : Sink) (out : List (Pub F)) : Nat :=
  out.countP (fun e => decide (e.sink = k))

/-- One invocation: the configuration at that moment, the value of `millis()`
and the input chunk. -/
structure Call (F : Type) where
  cfg : Config F
  current_time : Nat
  bytes : List Byte

/-- A sequence of invocations of `process_ld2450_data`, the state threaded
through and the publish calls concatenated. -/
def runCalls {F : Type} [FloatOps F] : List (Call F) → State → Option (State × List (Pub F))
  | [], s => some (s, [])
  | c :: cs, s =>
    match process_ld2450_data c.cfg c.current_time c.bytes s with
    | none => none
    | some r =>
      match runCalls cs r.1 with
      | none => none
      | some r' => some (r'.1, r.2 ++ r'.2)

/-- The configuration `sampleConfig` with the zone function and the exclusion
zone switched on and every zone of width 1000 and height 0: configured, but
not valid. -/
def misconfiguredConfig : Config ℝ :=
  { sampleConfig with
    zone_fn_enable := true
    zone_width := fun _ => 1000
    zone_ex_enable := fun _ => true
    zone_ex_width := fun _ => 1000 }

set_option maxRecDepth 100000 in
theorem signBit_iff (hi : Byte) : signBit hi = true ↔ 128 ≤ hi.val := by
  revert hi; decide

theorem shl_or (lo hi : Byte) : (hi.val <<< 8) ||| lo.val = 256 * hi.val + lo.val := by
  have h := Nat.mul_add_lt_is_or (i := 8) (b := lo.val) lo.isLt hi.val
  rw [Nat.shiftLeft_eq, Nat.mul_comm, ← h]


set_option maxRecDepth 100000 in
theorem testBit7_iff (hi : Byte) : hi.val.testBit 7 = true ↔ 128 ≤ hi.val := by
  revert hi; decide

theorem parseY_eq (lo hi : Byte) : parseY lo hi = signRule_spec lo.val hi.val := by
  have hl := lo.isLt
  have hh := hi.isLt
  unfold parseY signRule_spec
  rw [shl_or]
  by_cases h : 128 ≤ hi.val
  · rw [if_pos ((signBit_iff hi).2 h), if_pos ((testBit7_iff hi).2 h)]
    simp only [toInt16, toUInt16]
    omega
  · rw [if_neg (fun c => h ((signBit_iff hi).1 c)), if_neg (fun c => h ((testBit7_iff hi).1 c))]
    simp only [toInt16, toUInt16]
    omega

theorem parseSpeed_eq (lo hi : Byte) : parseSpeed lo hi = signRule_spec lo.val hi.val := by
  have hl := lo.isLt
  have hh := hi.isLt
  unfold parseSpeed signRule_spec
  rw [shl_or]
  by_cases h : 128 ≤ hi.val
  · rw [if_pos ((signBit_iff hi).2 h), if_pos ((testBit7_iff hi).2 h)]
    simp only [toInt16]
    omega
  · rw [if_neg (fun c => h ((signBit_iff hi).1 c)), if_neg (fun c => h ((testBit7_iff hi).1 c))]
    simp only [toInt16]
    omega

theorem parseX_eq (lo hi : Byte) : parseX lo hi = -signRule_spec lo.val hi.val := by
  have hl := lo.isLt
  have hh := hi.isLt
  by_cases h : 128 ≤ hi.val
  · have hs := (signBit_iff hi).2 h
    have ht := (testBit7_iff hi).2 h
    simp only [parseX, signRule_spec, shl_or, hs, ht, if_true, toInt16, toUInt16]
    omega
  · have hs : signBit hi = false := by
      cases hb : signBit hi
      · rfl
      · exact absurd ((signBit_iff hi).1 hb) h
    have ht : hi.val.testBit 7 = false := by
      cases hb : hi.val.testBit 7
      · rfl
      · exact absurd ((testBit7_iff hi).1 hb) h
    simp only [parseX, signRule_spec, shl_or, hs, ht, toInt16, toUInt16]
    simp only [Bool.false_eq_true, if_false]
    omega

theorem signRule_spec_bounds (lo hi : Byte) :
    -32767 ≤ signRule_spec lo.val hi.val ∧ signRule_spec lo.val hi.val ≤ 32767 := by
  have hl := lo.isLt
  have hh := hi.isLt
  unfold signRule_spec
  by_cases h : 128 ≤ hi.val
  · rw [if_pos ((testBit7_iff hi).2 h)]
    omega
  · rw [if_neg (fun c => h ((testBit7_iff hi).1 c))]
    omega

theorem parseResolution_eq (lo hi : Byte) :
    parseResolution lo hi =
      if hi.val < 128 then (lo.val + 256 * hi.val : Int) else (lo.val + 256 * hi.val : Int) - 65536 := by
  have hl := lo.isLt
  have hh := hi.isLt
  unfold parseResolution
  rw [shl_or]
  simp only [toInt16, toUInt16]
  split <;> omega

theorem getElem?_getD (bytes : List Byte) (k : Nat) (h : k < bytes.length) :
    bytes[k]? = some (bytes.getD k 0) := by
  simp [List.getD, List.getElem?_eq_getElem h]

section
variable {F : Type} [FloatOps F]

theorem parseTarget_eq (bytes : List Byte) (b : Nat) (h : b + 11 < bytes.length) :
    parseTarget (F := F) bytes b = some (targetAt bytes b) := by
  unfold parseTarget targetAt
  rw [getElem?_getD bytes (b + 4) (by omega), getElem?_getD bytes (b + 5) (by omega),
    getElem?_getD bytes (b + 6) (by omega), getElem?_getD bytes (b + 7) (by omega),
    getElem?_getD bytes (b + 8) (by omega), getElem?_getD bytes (b + 9) (by omega),
    getElem?_getD bytes (b + 10) (by omega), getElem?_getD bytes (b + 11) (by omega)]
  rfl

theorem parseTargets_eq (bytes : List Byte) (h : MIN_PACKET_SIZE ≤ bytes.length) :
    parseTargets (F := F) bytes NUM_TARGETS 0 =
      some [targetAt bytes 0, targetAt bytes 8, targetAt bytes 16] := by
  have h30 : 30 ≤ bytes.length := h
  simp only [NUM_TARGETS, parseTargets]
  rw [parseTarget_eq bytes 0 (by omega), parseTarget_eq bytes (0 + 8) (by omega),
    parseTarget_eq bytes (0 + 8 + 8) (by omega)]
  rfl

end

/-! ## Claims on the decoder -/

/-- C3: for every input of at least 30 bytes and every target index `i < 3`
the parse loop succeeds and its `i`-th record has `y` and `speed` equal to the
sign rule applied to the bytes at `6+8i, 7+8i` and `8+8i, 9+8i`, and `x` equal
to the negated sign rule of the bytes at `4+8i, 5+8i`; all three lie in
`[-32767, 32767]`, so the reductions to `int16_t` leave the values intact. -/
theorem decoded_fields_follow_sign_rule {F : Type} [FloatOps F] (bytes : List Byte)
    (h : 30 ≤ bytes.length) (i : Nat) (hi : i < 3) :
    ∃ p t, parseTargets (F := F) bytes NUM_TARGETS 0 = some p ∧ p[i]? = some t ∧
      t.y = signRule_spec (byteAt bytes (6 + 8 * i)) (byteAt bytes (7 + 8 * i)) ∧
      t.speed = signRule_spec (byteAt bytes (8 + 8 * i)) (byteAt bytes (9 + 8 * i)) ∧
      t.x = -signRule_spec (byteAt bytes (4 + 8 * i)) (byteAt bytes (5 + 8 * i)) ∧
      (-32767 ≤ t.x ∧ t.x ≤ 32767) ∧ (-32767 ≤ t.y ∧ t.y ≤ 32767) ∧
      (-32767 ≤ t.speed ∧ t.speed ≤ 32767) := by
  refine ⟨_, targetAt bytes (8 * i), parseTargets_eq bytes h, ?_, ?_⟩
  · interval_cases i <;> rfl
  · have e4 : 4 + 8 * i = 8 * i + 4 := by omega
    have e5 : 5 + 8 * i = 8 * i + 5 := by omega
    have e6 : 6 + 8 * i = 8 * i + 6 := by omega
    have e7 : 7 + 8 * i = 8 * i + 7 := by omega
    have e8 : 8 + 8 * i = 8 * i + 8 := by omega
    have e9 : 9 + 8 * i = 8 * i + 9 := by omega
    simp only [targetAt, byteAt, parseX_eq, parseY_eq, parseSpeed_eq, e4, e5, e6, e7, e8, e9,
      true_and]
    have bx := signRule_spec_bounds (bytes.getD (8 * i + 4) 0) (bytes.getD (8 * i + 5) 0)
    have bY := signRule_spec_bounds (bytes.getD (8 * i + 6) 0) (bytes.getD (8 * i + 7) 0)
    have bs := signRule_spec_bounds (bytes.getD (8 * i + 8) 0) (bytes.getD (8 * i + 9) 0)
    omega

/-- Witness of C3 on `sampleChunk`, first target. -/
theorem decoded_fields_follow_sign_rule_witness :
    30 ≤ sampleChunk.length ∧ 0 < 3 ∧
    ∃ p t, parseTargets (F := ℝ) sampleChunk NUM_TARGETS 0 = some p ∧ p[0]? = some t ∧
      t.y = signRule_spec (byteAt sampleChunk (6 + 8 * 0)) (byteAt sampleChunk (7 + 8 * 0)) ∧
      t.speed = signRule_spec (byteAt sampleChunk (8 + 8 * 0)) (byteAt sampleChunk (9 + 8 * 0)) ∧
      t.x = -signRule_spec (byteAt sampleChunk (4 + 8 * 0)) (byteAt sampleChunk (5 + 8 * 0)) ∧
      (-32767 ≤ t.x ∧ t.x ≤ 32767) ∧ (-32767 ≤ t.y ∧ t.y ≤ 32767) ∧
      (-32767 ≤ t.speed ∧ t.speed ≤ 32767) :=
  ⟨by decide, by decide, decoded_fields_follow_sign_rule sampleChunk (by decide) 0 (by decide)⟩

/-- C4, as stated, fails: the raw values 0 and 32768 both decode to 0, so the
decode is not injective on `0..65535` and no re-encoding rule whatsoever
reproduces every raw value. -/
theorem sign_decode_not_injective :
    decodeRaw 0 = 0 ∧ decodeRaw 32768 = 0 ∧
    ¬ (∀ r₁ r₂ : Nat, r₁ < 65536 → r₂ < 65536 → decodeRaw r₁ = decodeRaw r₂ → r₁ = r₂) ∧
    ¬ (∃ enc : Int → Int, ∀ r : Nat, r < 65536 → enc (decodeRaw r) = r) := by
  have h0 : decodeRaw 0 = 0 := by decide
  have h1 : decodeRaw 32768 = 0 := by decide
  refine ⟨h0, h1, ?_, ?_⟩
  · intro h
    have := h 0 32768 (by decide) (by decide) (by rw [h0, h1])
    omega
  · rintro ⟨enc, h⟩
    have a := h 0 (by decide)
    have b := h 32768 (by decide)
    rw [h0] at a
    rw [h1] at b
    rw [a] at b
    omega

/-- C4, amended: for every raw value `r` in `1..65535` re-encoding the
decoded value by the inverse rule reproduces `r`; hence the decode is
injective on `1..65535`. -/
theorem sign_decode_roundtrip_nonzero (r : Nat) (h0 : 0 < r) (h : r < 65536) :
    reencode_spec (decodeRaw r) = r ∧
    ∀ r' : Nat, 0 < r' → r' < 65536 → decodeRaw r' = decodeRaw r → r' = r := by
  have key : ∀ q : Nat, 0 < q → q < 65536 → reencode_spec (decodeRaw q) = q := by
    intro q hq0 hq
    have hlo : (Fin.ofNat (q % 256) : Byte).val = q % 256 := by
      show (q % 256) % 256 = q % 256
      omega
    have hhi : (Fin.ofNat (q / 256) : Byte).val = q / 256 := by
      show (q / 256) % 256 = q / 256
      omega
    unfold decodeRaw reencode_spec
    rw [parseY_eq, hlo, hhi]
    unfold signRule_spec
    have ht := testBit7_iff (Fin.ofNat (q / 256) : Byte)
    rw [hhi] at ht
    by_cases hb : 128 ≤ q / 256
    · rw [if_pos (ht.2 hb)]
      split <;> omega
    · rw [if_neg (fun c => hb (ht.1 c))]
      split <;> omega
  refine ⟨key r h0 h, ?_⟩
  intro r' h0' h' e
  have a := key r h0 h
  have b := key r' h0' h'
  rw [e, a] at b
  exact_mod_cast b.symm

/-- Witness of the amended C4 at the raw value `0x86B1`. -/
theorem sign_decode_roundtrip_nonzero_witness :
    0 < 0x86B1 ∧ 0x86B1 < 65536 ∧ reencode_spec (decodeRaw 0x86B1) = (0x86B1 : Nat) ∧
    ∀ r' : Nat, 0 < r' → r' < 65536 → decodeRaw r' = decodeRaw 0x86B1 → r' = 0x86B1 :=
  ⟨by decide, by decide, sign_decode_roundtrip_nonzero 0x86B1 (by decide) (by decide)⟩

/-- C5, the code at the failing input `resolutionChunk` (resolution bytes
`0x00, 0x80`, unsigned value 32768): the decoder stores -32768 in the
`int16_t` field, and an accepted invocation on that chunk publishes -32768 as
the resolution of target 0. -/
theorem resolution_wraps_negative :
    byteAt resolutionChunk 10 + 256 * byteAt resolutionChunk 11 = 32768 ∧
    (parseTargets (F := ℝ) resolutionChunk NUM_TARGETS 0).map
      (fun p => p.map Position.distance_resolution) = some [-32768, 0, 0] ∧
    (process_ld2450_data sampleConfig 2000 resolutionChunk
      { initialState with packet_buffer := List.replicate 18 0 }).map
      (fun r => (calls r.2).filter
        (fun e => match e with | .target_resolution _ _ => true | _ => false)) =
      some [Pub.target_resolution 0 (-32768)] := by
  refine ⟨by decide, by decide, by decide⟩

/-! ## The operations over the reals -/

theorem real_add (a b : ℝ) : @HAdd.hAdd ℝ ℝ ℝ (@instHAdd ℝ floatAdd) a b = a + b := rfl
theorem real_sub (a b : ℝ) : @HSub.hSub ℝ ℝ ℝ (@instHSub ℝ floatSub) a b = a - b := rfl
theorem real_mul (a b : ℝ) : @HMul.hMul ℝ ℝ ℝ (@instHMul ℝ floatMul) a b = a * b := rfl
theorem real_div (a b : ℝ) : @HDiv.hDiv ℝ ℝ ℝ (@instHDiv ℝ floatDiv) a b = a / b := rfl
theorem real_lt (a b : ℝ) : FloatOps.lt a b = decide (a < b) := rfl
theorem real_le (a b : ℝ) : FloatOps.le a b = decide (a ≤ b) := rfl
theorem real_sqrt (a : ℝ) : FloatOps.sqrt a = Real.sqrt a := rfl
theorem real_cos (a : ℝ) : FloatOps.cos a = Real.cos a := rfl
theorem real_sin (a : ℝ) : FloatOps.sin a = Real.sin a := rfl
theorem real_acos (a : ℝ) : FloatOps.acos a = Real.arccos a := rfl
theorem real_pi : (FloatOps.pi : ℝ) = Real.pi := rfl
theorem real_ofInt (n : Int) : (FloatOps.ofInt n : ℝ) = (n : ℝ) := rfl
theorem real_ofRat (q : ℚ) : (FloatOps.ofRat q : ℝ) = (q : ℝ) := rfl

/-! ## Zone geometry -/

theorem isValid_iff (z : Zone) :
    z.isValid = true ↔
      (z.width > 0 ∧ z.height > 0 ∧ -4000 ≤ z.x ∧ z.x ≤ 4000 ∧ -500 ≤ z.y ∧ z.y ≤ 8000) := by
  simp only [Zone.isValid, MAX_COORDINATE, MIN_Y, MAX_DISTANCE, Bool.and_eq_true,
    decide_eq_true_eq, ge_iff_le, gt_iff_lt]
  tauto

theorem check_false_of_not_valid {F : Type} [FloatOps F] (z : Zone) (hz : z.isValid = false)
    (t : Position F) (angle : F) : check_targets_in_zone z t angle = false := by
  unfold check_targets_in_zone
  simp [hz]

theorem diagonal_ge_one (z : Zone) (hz : z.isValid = true) :
    (1 : ℝ) ≤ Real.sqrt ((z.width * z.width + z.height * z.height : Int) : ℝ) := by
  obtain ⟨hw, hh, -⟩ := (isValid_iff z).1 hz
  have h2 : (1 : Int) ≤ z.width * z.width + z.height * z.height := by nlinarith
  have h3 : (1 : ℝ) ≤ ((z.width * z.width + z.height * z.height : Int) : ℝ) := by exact_mod_cast h2
  rw [Real.one_le_sqrt]
  exact h3

theorem epsilon_lt_one : (EPSILON : ℝ) < 1 := by
  simp only [EPSILON, real_ofRat]
  norm_num

theorem epsilon_le_sqrt (a : ℝ) (h : 1 ≤ a) : (EPSILON : ℝ) ≤ Real.sqrt a :=
  le_trans (le_of_lt epsilon_lt_one) (Real.one_le_sqrt.2 h)

theorem corners_zero (z : Zone) :
    ZoneCorners.build z (0 : ℝ) =
      { p1 := ⟨z.x, z.y⟩
        p2 := ⟨z.x - z.width, z.y⟩
        p3 := ⟨z.x - z.width, z.y + z.height⟩
        p4 := ⟨z.x, z.y + z.height⟩ } := by
  have e1 : -(90 * Real.pi) / 180 = -(Real.pi / 2) := by ring
  have e2 : 90 * Real.pi / 180 = Real.pi / 2 := by ring
  simp only [ZoneCorners.build, toRadians, real_add, real_sub, real_mul, real_div, real_ofInt,
    real_ofRat, real_cos, real_sin, real_pi]
  norm_num
  rw [e1, e2]
  simp

theorem distanceTo_real (a b c d : ℝ) :
    Pxy.distanceTo (⟨a, b⟩ : Pxy ℝ) ⟨c, d⟩ =
      Real.sqrt ((a - c) * (a - c) + (b - d) * (b - d)) := rfl

theorem safeAcos_real (v : ℝ) :
    safeAcos v = if 1 < v then 0 else if v < -1 then Real.pi else Real.arccos v := by
  simp only [safeAcos, real_lt, real_ofRat, real_pi, real_acos, decide_eq_true_eq]
  norm_num

theorem safeAcos_le_pi_div_two (v : ℝ) (h : 0 ≤ v) : safeAcos v ≤ Real.pi / 2 := by
  rw [safeAcos_real]
  have hp := Real.pi_pos
  split_ifs with h1 h2
  · linarith
  · linarith
  · exact Real.arccos_le_pi_div_two.2 h

theorem safeAcos_le_pi_div_three (v : ℝ) (h : 1 / 2 ≤ v) : safeAcos v ≤ Real.pi / 3 := by
  rw [safeAcos_real]
  have hp := Real.pi_pos
  split_ifs with h1 h2
  · linarith
  · linarith
  · have e : Real.arccos (1 / 2) = Real.pi / 3 := by
      rw [← Real.cos_pi_div_three]
      exact Real.arccos_cos (by linarith) (by linarith)
    rw [← e]
    exact Real.strictAntiOn_arccos.antitoneOn ⟨by linarith, by linarith⟩
      ⟨by linarith, by linarith⟩ h

theorem safeAcos_zero : safeAcos (0 : ℝ) = Real.pi / 2 := by
  rw [safeAcos_real]
  norm_num

/-- The quick reject: all four corner distances exceed the diagonal. -/
theorem square_far_right_outside :
    check_targets_in_zone squareZone (targetPoint 1500 500) (0 : ℝ) = false := by
  unfold check_targets_in_zone
  rw [corners_zero]
  simp only [squareZone, targetPoint, distanceTo_real, real_lt, real_ofInt, real_sqrt]
  norm_num [Zone.isValid, MAX_COORDINATE, MIN_Y, MAX_DISTANCE]

/-- The centre of the square `[-1000, 0] × [0, 1000]`: four right angles. -/
theorem square_centre_inside :
    check_targets_in_zone squareZone (targetPoint (-500) 500) (0 : ℝ) = true := by
  unfold check_targets_in_zone
  rw [corners_zero]
  simp only [squareZone, targetPoint, distanceTo_real, real_lt, real_le, real_ofInt, real_sqrt,
    real_add, real_sub, real_mul, real_div]
  norm_num [Zone.isValid, MAX_COORDINATE, MIN_Y, MAX_DISTANCE]
  right
  rw [safeAcos_zero]
  simp only [TAU, real_ofRat, real_mul, real_pi]
  push_cast
  linarith [Real.pi_pos]

/-- The point (500, 500) lies to the right of the square `[-1000, 0] × [0, 1000]`:
the four subtended angles sum to at most `11π/6`. -/
theorem square_mirror_outside :
    check_targets_in_zone squareZone (targetPoint 500 500) (0 : ℝ) = false := by
  unfold check_targets_in_zone
  rw [corners_zero]
  simp only [squareZone, targetPoint, distanceTo_real, real_lt, real_le, real_ofInt, real_sqrt,
    real_add, real_sub, real_mul, real_div]
  norm_num [Zone.isValid, MAX_COORDINATE, MIN_Y, MAX_DISTANCE]
  refine ⟨⟨⟨epsilon_le_sqrt _ (by norm_num), epsilon_le_sqrt _ (by norm_num)⟩,
    epsilon_le_sqrt _ (by norm_num)⟩, ?_⟩
  have s1 : (0 : ℝ) < Real.sqrt 500000 := Real.sqrt_pos.2 (by norm_num)
  have s2 : (0 : ℝ) < Real.sqrt 2500000 := Real.sqrt_pos.2 (by norm_num)
  have m2 : Real.sqrt 2500000 * Real.sqrt 2500000 = 2500000 := Real.mul_self_sqrt (by norm_num)
  have two : (FloatOps.ofRat 2 : ℝ) = 2 := by simp [real_ofRat]
  have a1 := safeAcos_le_pi_div_two (2000000 / (FloatOps.ofRat 2 * √500000 * √2500000))
    (by rw [two]; positivity)
  have a2 := safeAcos_le_pi_div_two (0 : ℝ) le_rfl
  have a3 := safeAcos_le_pi_div_three (4000000 / (FloatOps.ofRat 2 * √2500000 * √2500000))
    (by rw [two, mul_assoc, m2]; norm_num)
  have a4 := safeAcos_le_pi_div_two (2000000 / (FloatOps.ofRat 2 * √2500000 * √500000))
    (by rw [two]; positivity)
  have hp := Real.pi_gt_three
  rw [two] at a1 a3 a4
  simp only [TAU, real_ofRat, real_mul, real_pi]
  push_cast
  linarith

/-- C6, as stated, fails: with rotation angle 0 and the zone at (0, 0) of
width 1000 and height 1000, the valid, non-excluded target at (500, 500) is
reported outside. -/
theorem square_500_500_is_outside :
    check_targets_in_zone squareZone (targetPoint 500 500) (0 : ℝ) = false ∧
    (targetPoint 500 500).valid = true ∧ (targetPoint 500 500).zone_ex_enter = false :=
  ⟨square_mirror_outside, rfl, rfl⟩

/-- C6, amended: with rotation angle 0 the corners of the zone at (0, 0) of
width 1000 and height 1000 are (0, 0), (-1000, 0), (-1000, 1000), (0, 1000);
the valid, non-excluded target at (-500, 500) is reported inside and the one
at (1500, 500) outside. -/
theorem square_containment :
    ZoneCorners.build squareZone (0 : ℝ) =
      { p1 := ⟨0, 0⟩, p2 := ⟨-1000, 0⟩, p3 := ⟨-1000, 1000⟩, p4 := ⟨0, 1000⟩ } ∧
    check_targets_in_zone squareZone (targetPoint (-500) 500) (0 : ℝ) = true ∧
    check_targets_in_zone squareZone (targetPoint 1500 500) (0 : ℝ) = false := by
  refine ⟨?_, square_centre_inside, square_far_right_outside⟩
  rw [corners_zero]
  norm_num [squareZone]

/-- C7: over the reals, for every zone that passes `isValid`, every rotation
angle and every valid, non-excluded target whose distance to one of the four
corners is below `EPSILON`, the quick reject does not fire (not all four
distances exceed the diagonal) and `check_targets_in_zone` returns true. -/
theorem corner_target_is_inside (z : Zone) (angle : ℝ) (t : Position ℝ)
    (hz : z.isValid = true) (hv : t.valid = true) (he : t.zone_ex_enter = false)
    (h : Pxy.distanceTo (ZoneCorners.build z angle).p1 ⟨(t.x : ℝ), (t.y : ℝ)⟩ < EPSILON ∨
         Pxy.distanceTo (ZoneCorners.build z angle).p2 ⟨(t.x : ℝ), (t.y : ℝ)⟩ < EPSILON ∨
         Pxy.distanceTo (ZoneCorners.build z angle).p3 ⟨(t.x : ℝ), (t.y : ℝ)⟩ < EPSILON ∨
         Pxy.distanceTo (ZoneCorners.build z angle).p4 ⟨(t.x : ℝ), (t.y : ℝ)⟩ < EPSILON) :
    check_targets_in_zone z t angle = true ∧
    ¬ (Real.sqrt ((z.width * z.width + z.height * z.height : Int) : ℝ) <
          Pxy.distanceTo (ZoneCorners.build z angle).p1 ⟨(t.x : ℝ), (t.y : ℝ)⟩ ∧
       Real.sqrt ((z.width * z.width + z.height * z.height : Int) : ℝ) <
          Pxy.distanceTo (ZoneCorners.build z angle).p2 ⟨(t.x : ℝ), (t.y : ℝ)⟩ ∧
       Real.sqrt ((z.width * z.width + z.height * z.height : Int) : ℝ) <
          Pxy.distanceTo (ZoneCorners.build z angle).p3 ⟨(t.x : ℝ), (t.y : ℝ)⟩ ∧
       Real.sqrt ((z.width * z.width + z.height * z.height : Int) : ℝ) <
          Pxy.distanceTo (ZoneCorners.build z angle).p4 ⟨(t.x : ℝ), (t.y : ℝ)⟩) := by
  have hd := diagonal_ge_one z hz
  have hε := epsilon_lt_one
  have hq : ¬ (Real.sqrt ((z.width * z.width + z.height * z.height : Int) : ℝ) <
          Pxy.distanceTo (ZoneCorners.build z angle).p1 ⟨(t.x : ℝ), (t.y : ℝ)⟩ ∧
       Real.sqrt ((z.width * z.width + z.height * z.height : Int) : ℝ) <
          Pxy.distanceTo (ZoneCorners.build z angle).p2 ⟨(t.x : ℝ), (t.y : ℝ)⟩ ∧
       Real.sqrt ((z.width * z.width + z.height * z.height : Int) : ℝ) <
          Pxy.distanceTo (ZoneCorners.build z angle).p3 ⟨(t.x : ℝ), (t.y : ℝ)⟩ ∧
       Real.sqrt ((z.width * z.width + z.height * z.height : Int) : ℝ) <
          Pxy.distanceTo (ZoneCorners.build z angle).p4 ⟨(t.x : ℝ), (t.y : ℝ)⟩) := by
    rintro ⟨h1, h2, h3, h4⟩
    rcases h with h | h | h | h <;> linarith
  refine ⟨?_, hq⟩
  unfold check_targets_in_zone
  simp only [hz, hv, he, Bool.not_true, Bool.or_self, Bool.false_eq_true, if_false, real_lt,
    real_ofInt, real_sqrt, Bool.and_eq_true, Bool.or_eq_true, decide_eq_true_eq]
  split_ifs with hq' hdg
  · exact absurd (by tauto) hq
  · rfl
  · exact absurd (by tauto) hdg

theorem origin_distance_zero (z : Zone) (angle : ℝ) :
    Pxy.distanceTo (ZoneCorners.build z angle).p1 ⟨(z.x : ℝ), (z.y : ℝ)⟩ = 0 := by
  simp [ZoneCorners.build, Pxy.distanceTo, real_sub, real_mul, real_add, real_sqrt, real_ofInt]

/-- Witness of C7: the zone `offsetZone`, rotated by 30 degrees, and a target
on its origin (100, 200). -/
theorem corner_target_is_inside_witness :
    offsetZone.isValid = true ∧
    check_targets_in_zone offsetZone (targetPoint 100 200) (30 : ℝ) = true :=
  ⟨by decide,
   (corner_target_is_inside offsetZone 30 (targetPoint 100 200) (by decide) rfl rfl
      (Or.inl (by
        rw [show ((targetPoint 100 200).x : ℝ) = (offsetZone.x : ℝ) by norm_num [targetPoint, offsetZone],
          show ((targetPoint 100 200).y : ℝ) = (offsetZone.y : ℝ) by norm_num [targetPoint, offsetZone],
          origin_distance_zero]
        simp only [EPSILON, real_ofRat]
        norm_num))).1⟩

/-- C8: `Zone::isValid` holds exactly when `width > 0`, `height > 0`,
`-4000 <= x <= 4000` and `-500 <= y <= 8000`; and for a zone with
`width <= 0`, `height <= 0`, `x` outside `[-4000, 4000]` or `y` outside
`[-500, 8000]`, `check_targets_in_zone` returns false for every target and
every rotation angle. -/
theorem invalid_zone_contains_nothing {F : Type} [FloatOps F] (z : Zone)
    (t : Position F) (angle : F) :
    (z.isValid = true ↔
      (z.width > 0 ∧ z.height > 0 ∧ -4000 ≤ z.x ∧ z.x ≤ 4000 ∧ -500 ≤ z.y ∧ z.y ≤ 8000)) ∧
    ((z.width ≤ 0 ∨ z.height ≤ 0 ∨ z.x < -4000 ∨ 4000 < z.x ∨ z.y < -500 ∨ 8000 < z.y) →
      check_targets_in_zone z t angle = false) := by
  refine ⟨isValid_iff z, fun h => check_false_of_not_valid z ?_ t angle⟩
  cases hv : z.isValid
  · rfl
  · have := (isValid_iff z).1 hv
    omega

/-- Witness of C8: the zone `flatZone` of width 0 does not contain the
target at (0, 500). -/
theorem invalid_zone_contains_nothing_witness :
    flatZone.width ≤ 0 ∧ check_targets_in_zone flatZone (targetPoint 0 500) (0 : ℝ) = false :=
  ⟨by decide,
   (invalid_zone_contains_nothing flatZone (targetPoint 0 500) (0 : ℝ)).2 (Or.inl (by decide))⟩

/-! ## Classification -/

section
variable {F : Type} [FloatOps F]

/-- The containment test reads the zone's geometry only. -/
theorem check_zone_congr (z z' : Zone) (t : Position F) (angle : F)
    (hx : z.x = z'.x) (hy : z.y = z'.y) (hw : z.width = z'.width) (hh : z.height = z'.height) :
    check_targets_in_zone z t angle = check_targets_in_zone z' t angle := by
  simp only [check_targets_in_zone, Zone.isValid, ZoneCorners.build, hx, hy, hw, hh]

/-- The containment test reads the target's position and flags only. -/
theorem check_target_congr (z : Zone) (t t' : Position F) (angle : F)
    (hx : t.x = t'.x) (hy : t.y = t'.y) (hv : t.valid = t'.valid)
    (he : t.zone_ex_enter = t'.zone_ex_enter) :
    check_targets_in_zone z t angle = check_targets_in_zone z t' angle := by
  simp only [check_targets_in_zone, hx, hy, hv, he]

/-- The flags after the exclusion pass of zone `z`. -/
theorem exclusionTargets_snd (angle : F) (z : Zone) (p : List (Position F)) :
    (exclusionTargets angle z p).2 =
      p.map (fun t => if t.valid && check_targets_in_zone z t angle
        then { t with zone_ex_enter := true } else t) := by
  induction p generalizing z with
  | nil => rfl
  | cons t ts ih =>
    unfold exclusionTargets
    by_cases hv : t.valid = true
    · by_cases hc : check_targets_in_zone z t angle = true
      · simp only [hv, hc, if_true, Bool.and_self, List.map_cons, ih]
        rfl
      · simp only [hv, hc, if_true, Bool.false_eq_true, if_false, Bool.and_false, List.map_cons, ih]
        rfl
    · simp only [hv, Bool.false_eq_true, if_false, Bool.false_and, List.map_cons, ih]

/-- The tallies after the exclusion pass of zone `z`. -/
theorem exclusionTargets_fst (angle : F) (z : Zone) (p : List (Position F)) :
    (exclusionTargets angle z p).1 =
      { z with
        target_count := z.target_count +
          p.countP (fun t => t.valid && check_targets_in_zone z t angle)
        outside_target_count := z.outside_target_count +
          p.countP (fun t => t.valid && !check_targets_in_zone z t angle) } := by
  induction p generalizing z with
  | nil => simp [exclusionTargets]
  | cons t ts ih =>
    unfold exclusionTargets
    have e1 : ∀ c : Int, (fun u : Position F => u.valid &&
        check_targets_in_zone { z with target_count := c } u angle) =
        (fun u => u.valid && check_targets_in_zone z u angle) := fun _ => rfl
    have e2 : ∀ c : Int, (fun u : Position F => u.valid &&
        !check_targets_in_zone { z with target_count := c } u angle) =
        (fun u => u.valid && !check_targets_in_zone z u angle) := fun _ => rfl
    have e3 : ∀ c : Int, (fun u : Position F => u.valid &&
        check_targets_in_zone { z with outside_target_count := c } u angle) =
        (fun u => u.valid && check_targets_in_zone z u angle) := fun _ => rfl
    have e4 : ∀ c : Int, (fun u : Position F => u.valid &&
        !check_targets_in_zone { z with outside_target_count := c } u angle) =
        (fun u => u.valid && !check_targets_in_zone z u angle) := fun _ => rfl
    by_cases hv : t.valid = true
    · by_cases hc : check_targets_in_zone z t angle = true
      · simp only [hv, hc, if_true, ih, e1, e2, List.countP_cons, Bool.and_self, Bool.not_true,
          Bool.and_false, Bool.false_eq_true, if_false, Nat.add_zero]
        congr 1
        push_cast
        ring
      · simp only [hv, hc, if_true, ih, e3, e4, List.countP_cons, Bool.and_false, Bool.not_false,
          Bool.and_self, Bool.false_eq_true, if_false, Nat.add_zero]
        congr 1
        push_cast
        ring
    · simp only [hv, ih, List.countP_cons, Bool.false_and, Bool.false_eq_true, if_false,
        Nat.add_zero]



/-- The tallies after the inclusion pass of zone `z`. -/
theorem inclusionTargets_eq (angle : F) (z : Zone) (p : List (Position F)) :
    inclusionTargets angle z p =
      { z with
        target_count := z.target_count +
          p.countP (fun t => t.valid && !t.zone_ex_enter && check_targets_in_zone z t angle)
        outside_target_count := z.outside_target_count +
          p.countP (fun t => t.valid && !t.zone_ex_enter && !check_targets_in_zone z t angle) } := by
  induction p generalizing z with
  | nil => simp [inclusionTargets]
  | cons t ts ih =>
    unfold inclusionTargets at ih ⊢
    rw [List.foldl_cons]
    have e1 : ∀ c : Int, (fun u : Position F => u.valid && !u.zone_ex_enter &&
        check_targets_in_zone { z with target_count := c } u angle) =
        (fun u => u.valid && !u.zone_ex_enter && check_targets_in_zone z u angle) := fun _ => rfl
    have e2 : ∀ c : Int, (fun u : Position F => u.valid && !u.zone_ex_enter &&
        !check_targets_in_zone { z with target_count := c } u angle) =
        (fun u => u.valid && !u.zone_ex_enter && !check_targets_in_zone z u angle) := fun _ => rfl
    have e3 : ∀ c : Int, (fun u : Position F => u.valid && !u.zone_ex_enter &&
        check_targets_in_zone { z with outside_target_count := c } u angle) =
        (fun u => u.valid && !u.zone_ex_enter && check_targets_in_zone z u angle) := fun _ => rfl
    have e4 : ∀ c : Int, (fun u : Position F => u.valid && !u.zone_ex_enter &&
        !check_targets_in_zone { z with outside_target_count := c } u angle) =
        (fun u => u.valid && !u.zone_ex_enter && !check_targets_in_zone z u angle) := fun _ => rfl
    by_cases hv : (t.valid && !t.zone_ex_enter) = true
    · by_cases hc : check_targets_in_zone z t angle = true
      · simp only [hv, hc, if_true, ih, e1, e2, List.countP_cons, Bool.and_self, Bool.not_true,
          Bool.and_false, Bool.false_eq_true, if_false, Nat.add_zero]
        congr 1
        push_cast
        ring
      · simp only [hv, hc, if_true, ih, e3, e4, List.countP_cons, Bool.and_false, Bool.not_false,
          Bool.and_self, Bool.false_eq_true, if_false, Nat.add_zero, Bool.true_and]
        congr 1
        push_cast
        ring
    · simp only [hv, ih, List.countP_cons, Bool.false_and, Bool.false_eq_true, if_false,
        Nat.add_zero]

omit [FloatOps F] in
theorem countAll_foldl (p : List (Position F)) (c : Int) :
    p.foldl (fun all_target_counts t =>
      if t.valid && !t.zone_ex_enter then all_target_counts + 1 else all_target_counts) c =
      c + p.countP (fun t => t.valid && !t.zone_ex_enter) := by
  induction p generalizing c with
  | nil => simp
  | cons t ts ih =>
    rw [List.foldl_cons, ih, List.countP_cons]
    split
    · simp_all
      ring
    · simp_all

omit [FloatOps F] in
/-- The aggregate count is the number of valid, non-excluded targets. -/
theorem countAllTargets_eq (p : List (Position F)) :
    countAllTargets p = p.countP (fun t => t.valid && !t.zone_ex_enter) := by
  unfold countAllTargets
  rw [countAll_foldl]
  simp



/-- The one exclusion zone: `List.range NUM_ZONES_EX` is `[0]`. -/
theorem exclusionZones_range (cfg : Config F) (angle : F) (p : List (Position F)) :
    exclusionZones cfg angle (List.range NUM_ZONES_EX) p =
      (let r := if cfg.zone_ex_enable 0 && (loadZoneEx cfg 0).isConfigured
          then exclusionTargets angle (loadZoneEx cfg 0) p else (loadZoneEx cfg 0, p)
       ([{ r.1 with has_target := decide (r.1.target_count > 0)
                    has_target_outside := decide (r.1.outside_target_count > 0) }], r.2)) := rfl

/-- The targets after the exclusion pass. -/
theorem exclusionZones_snd (cfg : Config F) (angle : F) (p : List (Position F)) :
    (exclusionZones cfg angle (List.range NUM_ZONES_EX) p).2 =
      p.map (fun t => if cfg.zone_ex_enable 0 && (loadZoneEx cfg 0).isConfigured &&
          t.valid && check_targets_in_zone (loadZoneEx cfg 0) t angle
        then { t with zone_ex_enter := true } else t) := by
  rw [exclusionZones_range]
  by_cases h : (cfg.zone_ex_enable 0 && (loadZoneEx cfg 0).isConfigured) = true
  · simp only [h, if_true, exclusionTargets_snd, Bool.true_and]
  · simp only [h, Bool.false_eq_true, if_false, Bool.false_and]
    simp

/-- The attribute pass keeps position, speed, resolution and flags, and sets
the attributes of a valid target from its position and speed. -/
theorem targetAttribute_fields (q : ℚ) (t : Position F) :
    (targetAttribute q t).x = t.x ∧ (targetAttribute q t).y = t.y ∧
    (targetAttribute q t).speed = t.speed ∧
    (targetAttribute q t).distance_resolution = t.distance_resolution ∧
    (targetAttribute q t).valid = t.valid ∧
    (targetAttribute q t).zone_ex_enter = t.zone_ex_enter ∧
    (t.valid = true → (targetAttribute q t).angle = calculate_target_angle t.x t.y ∧
      (targetAttribute q t).position = calculate_target_position t.speed q ∧
      (targetAttribute q t).direction = calculate_target_direction t.x t.y 100) := by
  unfold targetAttribute
  by_cases h : t.valid = true
  · simp [h]
  · simp [h]

omit [FloatOps F] in
/-- Setting the exclusion flag keeps every other field. -/
theorem mark_fields (c : Bool) (t : Position F) :
    (if c then { t with zone_ex_enter := true } else t).x = t.x ∧
    (if c then { t with zone_ex_enter := true } else t).y = t.y ∧
    (if c then { t with zone_ex_enter := true } else t).speed = t.speed ∧
    (if c then { t with zone_ex_enter := true } else t).distance_resolution =
      t.distance_resolution ∧
    (if c then { t with zone_ex_enter := true } else t).valid = t.valid ∧
    (if c then { t with zone_ex_enter := true } else t).zone_ex_enter =
      (if c then true else t.zone_ex_enter) := by
  cases c <;> simp

theorem classifyTargets_p (cfg : Config F) (p : List (Position F)) :
    (classifyTargets cfg p).p = targetAttributes cfg.speed_threshold
      (exclusionZones cfg cfg.wall_angle (List.range NUM_ZONES_EX) p).2 := rfl

theorem classifyTargets_count (cfg : Config F) (p : List (Position F)) :
    (classifyTargets cfg p).all_target_counts =
      (classifyTargets cfg p).p.countP (fun t => t.valid && !t.zone_ex_enter) := by
  rw [classifyTargets_p]
  unfold targetAttributes
  rw [List.countP_map]
  show countAllTargets _ = _
  rw [countAllTargets_eq]
  congr 1
  apply List.countP_congr
  intro t _
  obtain ⟨-, -, -, -, hv, he, -⟩ := targetAttribute_fields cfg.speed_threshold t
  simp only [Function.comp, hv, he]

/-- What the classification does to the target parsed at index `j`. -/
theorem classify_getElem (cfg : Config F) (p : List (Position F)) (j : Nat) (t0 : Position F)
    (h : p[j]? = some t0) :
    ∃ t, (classifyTargets cfg p).p[j]? = some t ∧ t.x = t0.x ∧ t.y = t0.y ∧
      t.speed = t0.speed ∧ t.distance_resolution = t0.distance_resolution ∧
      t.valid = t0.valid ∧
      t.zone_ex_enter = (if cfg.zone_ex_enable 0 && (loadZoneEx cfg 0).isConfigured &&
          t0.valid && check_targets_in_zone (loadZoneEx cfg 0) t0 cfg.wall_angle
        then true else t0.zone_ex_enter) ∧
      (t.valid = true → t.angle = calculate_target_angle t.x t.y ∧
        t.position = calculate_target_position t.speed cfg.speed_threshold ∧
        t.direction = calculate_target_direction t.x t.y 100) := by
  rw [classifyTargets_p, exclusionZones_snd]
  unfold targetAttributes
  simp only [List.getElem?_map, h, Option.map_some']
  refine ⟨_, rfl, ?_⟩
  obtain ⟨m1, m2, m3, m4, m5, m6⟩ := mark_fields (cfg.zone_ex_enable 0 &&
    (loadZoneEx cfg 0).isConfigured && t0.valid &&
    check_targets_in_zone (loadZoneEx cfg 0) t0 cfg.wall_angle) t0
  obtain ⟨a1, a2, a3, a4, a5, a6, a7⟩ := targetAttribute_fields cfg.speed_threshold
    (if (cfg.zone_ex_enable 0 && (loadZoneEx cfg 0).isConfigured && t0.valid &&
      check_targets_in_zone (loadZoneEx cfg 0) t0 cfg.wall_angle) = true
      then { t0 with zone_ex_enter := true } else t0)
  refine ⟨a1.trans m1, a2.trans m2, a3.trans m3, a4.trans m4, a5.trans m5, a6.trans m6, ?_⟩
  intro hv
  rw [a5] at hv
  rw [a1, a2, a3]
  exact a7 hv

/-- Every classified target comes from a parsed one. -/
theorem classify_mem (cfg : Config F) (p : List (Position F)) (t : Position F)
    (h : t ∈ (classifyTargets cfg p).p) :
    ∃ t0 ∈ p, t.x = t0.x ∧ t.y = t0.y ∧ t.valid = t0.valid ∧
      t.zone_ex_enter = (if cfg.zone_ex_enable 0 && (loadZoneEx cfg 0).isConfigured &&
          t0.valid && check_targets_in_zone (loadZoneEx cfg 0) t0 cfg.wall_angle
        then true else t0.zone_ex_enter) := by
  obtain ⟨j, hj⟩ := List.mem_iff_getElem?.1 h
  have hlen : (classifyTargets cfg p).p.length = p.length := by
    rw [classifyTargets_p, exclusionZones_snd]
    simp [targetAttributes]
  have hjlt : j < p.length := by
    rw [← hlen]
    by_contra hc
    rw [List.getElem?_eq_none (by omega)] at hj
    cases hj
  obtain ⟨t', h1, hx, hy, -, -, hv, he, -⟩ :=
    classify_getElem cfg p j p[j] (List.getElem?_eq_getElem hjlt)
  rw [hj] at h1
  cases h1
  exact ⟨p[j], List.getElem_mem hjlt, hx, hy, hv, he⟩

theorem classifyFrame_eq (cfg : Config F) (bytes : List Byte)
    (h : MIN_PACKET_SIZE ≤ bytes.length) :
    classifyFrame cfg bytes =
      some (classifyTargets cfg [targetAt bytes 0, targetAt bytes 8, targetAt bytes 16]) := by
  unfold classifyFrame
  rw [parseTargets_eq bytes h]
  rfl

theorem targetAt_valid (bytes : List Byte) (b : Nat) :
    (targetAt (F := F) bytes b).valid =
      (decide ((targetAt (F := F) bytes b).x ≠ 0) || decide ((targetAt (F := F) bytes b).y > 0)) :=
  rfl

theorem not_configured_iff (z : Zone) : z.isConfigured = false ↔ (z.width = 0 ∧ z.height = 0) := by
  simp [Zone.isConfigured]



/-- C10: for every input of at least 30 bytes the frame is classified, it has
three targets, each with `valid = (x != 0 || y > 0)`; the aggregate count is
the number of targets with `valid` and not `zone_ex_enter`, the aggregate
presence flag is `count > 0`; and when the exclusion zone is switched off or
has width = height = 0 no target is excluded and the aggregate count is the
number of valid targets. -/
theorem aggregate_count_valid_not_excluded (cfg : Config F) (bytes : List Byte)
    (h : 30 ≤ bytes.length) :
    ∃ fr, classifyFrame cfg bytes = some fr ∧ fr.p.length = 3 ∧
      (∀ t ∈ fr.p, t.valid = (decide (t.x ≠ 0) || decide (t.y > 0))) ∧
      fr.all_target_counts = fr.p.countP (fun t => t.valid && !t.zone_ex_enter) ∧
      fr.has_target_in_zone_all = decide (fr.all_target_counts > 0) ∧
      ((cfg.zone_ex_enable 0 = false ∨
          ((loadZoneEx cfg 0).width = 0 ∧ (loadZoneEx cfg 0).height = 0)) →
        (∀ t ∈ fr.p, t.zone_ex_enter = false) ∧
        fr.all_target_counts = fr.p.countP (fun t => t.valid)) := by
  have hmem : ∀ t0 ∈ [targetAt (F := F) bytes 0, targetAt bytes 8, targetAt bytes 16],
      t0.valid = (decide (t0.x ≠ 0) || decide (t0.y > 0)) ∧ t0.zone_ex_enter = false := by
    intro t0 ht0
    simp only [List.mem_cons, List.mem_singleton, List.not_mem_nil, or_false] at ht0
    rcases ht0 with rfl | rfl | rfl <;> exact ⟨targetAt_valid _ _, rfl⟩
  refine ⟨_, classifyFrame_eq cfg bytes h, ?_, ?_, classifyTargets_count cfg _, rfl, ?_⟩
  · rw [classifyTargets_p, exclusionZones_snd]
    simp [targetAttributes]
  · intro t ht
    obtain ⟨t0, ht0, hx, hy, hv, -⟩ := classify_mem cfg _ t ht
    rw [hx, hy, hv]
    exact (hmem t0 ht0).1
  · intro hoff
    have hc : (cfg.zone_ex_enable 0 && (loadZoneEx cfg 0).isConfigured) = false := by
      rcases hoff with h1 | h2
      · simp [h1]
      · simp [(not_configured_iff _).2 h2]
    have hex : ∀ t ∈ (classifyTargets cfg
        [targetAt (F := F) bytes 0, targetAt bytes 8, targetAt bytes 16]).p,
        t.zone_ex_enter = false := by
      intro t ht
      obtain ⟨t0, ht0, -, -, -, he⟩ := classify_mem cfg _ t ht
      rw [he, hc]
      simpa using (hmem t0 ht0).2
    refine ⟨hex, ?_⟩
    rw [classifyTargets_count]
    congr 1
    apply List.countP_congr
    intro t ht
    simp [hex t ht]

end

/-- Witness of C10: `sampleChunk` under `sampleConfig`, whose exclusion zone
is switched off. -/
theorem aggregate_count_valid_not_excluded_witness :
    30 ≤ sampleChunk.length ∧ sampleConfig.zone_ex_enable 0 = false ∧
    ∃ fr, classifyFrame sampleConfig sampleChunk = some fr ∧
      fr.all_target_counts = fr.p.countP (fun t => t.valid && !t.zone_ex_enter) ∧
      (∀ t ∈ fr.p, t.zone_ex_enter = false) ∧
      fr.all_target_counts = fr.p.countP (fun t => t.valid) := by
  refine ⟨by decide, rfl, ?_⟩
  obtain ⟨fr, h1, -, -, h4, -, h6⟩ :=
    aggregate_count_valid_not_excluded sampleConfig sampleChunk (by decide)
  exact ⟨fr, h1, h4, (h6 (Or.inl rfl)).1, (h6 (Or.inl rfl)).2⟩



/-! ## The frame buffer -/

section
variable {F : Type} [FloatOps F]

omit [FloatOps F] in
theorem rateReporter_buffer (now : Nat) (s : State) :
    (rateReporter (F := F) now s).1.packet_buffer = s.packet_buffer := by
  unfold rateReporter
  simp only []
  split <;> rfl

omit [FloatOps F] in
theorem publishOverall_buffer (c : Int) (b : Bool) (s : State) :
    (publishOverall (F := F) c b s).1.packet_buffer = s.packet_buffer := by
  unfold publishOverall
  split
  · rfl
  · split <;> rfl

omit [FloatOps F] in
theorem publishZones_buffer (i : Nat) (zs : List Zone) (s : State) :
    (publishZones (F := F) i zs s).1.packet_buffer = s.packet_buffer := by
  induction zs generalizing i s with
  | nil => rfl
  | cons z zs ih =>
    unfold publishZones
    split
    · simp only [ih]
    · exact ih _ _

omit [FloatOps F] in
theorem publishZonesEx_buffer (i : Nat) (zs : List Zone) (s : State) :
    (publishZonesEx (F := F) i zs s).1.packet_buffer = s.packet_buffer := by
  induction zs generalizing i s with
  | nil => rfl
  | cons z zs ih =>
    unfold publishZonesEx
    simp only [ih]
    split <;> split <;> rfl

omit [FloatOps F] in
theorem publishReady_buffer (s : State) :
    (publishReady (F := F) s).1.packet_buffer = s.packet_buffer := by
  unfold publishReady
  split <;> rfl

theorem publishFrame_buffer (cfg : Config F) (fr : Frame F) (s : State) :
    (publishFrame cfg fr s).1.packet_buffer = s.packet_buffer := by
  unfold publishFrame
  simp only [publishReady_buffer, publishZonesEx_buffer, publishZones_buffer,
    publishOverall_buffer]

/-- The accepted path: a full buffer, an open interval gate and an input
chunk of at least `MIN_PACKET_SIZE` bytes. -/
theorem process_accepted (cfg : Config F) (now : Nat) (bytes : List Byte) (s : State)
    (h48 : FULL_PACKET_SIZE ≤ (s.packet_buffer ++ bytes).length)
    (hgate : ¬ ((usub now s.last_update : ℚ) ≤ cfg.update_interval_ms))
    (h30 : MIN_PACKET_SIZE ≤ bytes.length) :
    process_ld2450_data cfg now bytes s =
      some ((publishFrame cfg
              (classifyTargets cfg [targetAt bytes 0, targetAt bytes 8, targetAt bytes 16])
              (rateReporter (F := F) now
                { s with packet_buffer := (s.packet_buffer ++ bytes).drop FULL_PACKET_SIZE
                         last_update := now }).1).1,
            (rateReporter (F := F) now
                { s with packet_buffer := (s.packet_buffer ++ bytes).drop FULL_PACKET_SIZE
                         last_update := now }).2 ++
            (publishFrame cfg
              (classifyTargets cfg [targetAt bytes 0, targetAt bytes 8, targetAt bytes 16])
              (rateReporter (F := F) now
                { s with packet_buffer := (s.packet_buffer ++ bytes).drop FULL_PACKET_SIZE
                         last_update := now }).1).2) := by
  unfold process_ld2450_data
  simp only [if_neg (Nat.not_lt.2 h48), if_neg hgate, if_neg (Nat.not_lt.2 h30),
    classifyFrame_eq cfg bytes h30]

/-- C2: with fewer than 48 bytes buffered after the append, the call returns
the state with the buffer `B ++ c` and nothing else changed, and publishes
nothing; otherwise the call returns, and the buffer afterwards is `B ++ c`
without its first 48 bytes (those 48 bytes followed by the new buffer are
`B ++ c` again). -/
theorem buffer_after_call (cfg : Config F) (now : Nat) (c : List Byte) (s : State) :
    ((s.packet_buffer ++ c).length < 48 →
      process_ld2450_data cfg now c s =
        some ({ s with packet_buffer := s.packet_buffer ++ c }, [])) ∧
    (48 ≤ (s.packet_buffer ++ c).length →
      ∃ s' out, process_ld2450_data cfg now c s = some (s', out) ∧
        s'.packet_buffer = (s.packet_buffer ++ c).drop 48 ∧
        (s.packet_buffer ++ c).take 48 ++ s'.packet_buffer = s.packet_buffer ++ c) := by
  constructor
  · intro h
    unfold process_ld2450_data
    simp only [FULL_PACKET_SIZE, if_pos h]
  · intro h
    have hb : ∀ s' : State, s'.packet_buffer = (s.packet_buffer ++ c).drop 48 →
        s'.packet_buffer = (s.packet_buffer ++ c).drop 48 ∧
        (s.packet_buffer ++ c).take 48 ++ s'.packet_buffer = s.packet_buffer ++ c := by
      intro s' e
      exact ⟨e, by rw [e, List.take_append_drop]⟩
    by_cases hgate : ((usub now s.last_update : ℚ) ≤ cfg.update_interval_ms)
    · unfold process_ld2450_data
      simp only [FULL_PACKET_SIZE, if_neg (Nat.not_lt.2 h), if_pos hgate]
      exact ⟨_, _, rfl, hb _ rfl⟩
    · by_cases h30 : c.length < MIN_PACKET_SIZE
      · unfold process_ld2450_data
        simp only [FULL_PACKET_SIZE, if_neg (Nat.not_lt.2 h), if_neg hgate, if_pos h30]
        exact ⟨_, _, rfl, hb _ (by simp only [rateReporter_buffer])⟩
      · rw [process_accepted cfg now c s h hgate (Nat.not_lt.1 h30)]
        exact ⟨_, _, rfl, hb _ (by simp only [publishFrame_buffer, rateReporter_buffer]; rfl)⟩

end

/-- Witness of C2: 10 buffered bytes and a 30-byte chunk (40 bytes, nothing
extracted); 70 buffered bytes and a 30-byte chunk (100 bytes, 48 extracted). -/
theorem buffer_after_call_witness :
    (({ initialState with packet_buffer := List.replicate 10 0 }).packet_buffer ++
        sampleChunk).length < 48 ∧
    process_ld2450_data sampleConfig 2000 sampleChunk
        { initialState with packet_buffer := List.replicate 10 0 } =
      some ({ initialState with packet_buffer := List.replicate 10 0 ++ sampleChunk }, []) ∧
    48 ≤ (({ initialState with packet_buffer := List.replicate 70 0 }).packet_buffer ++
        sampleChunk).length ∧
    ∃ s' out, process_ld2450_data sampleConfig 2000 sampleChunk
        { initialState with packet_buffer := List.replicate 70 0 } = some (s', out) ∧
      s'.packet_buffer = (List.replicate 70 0 ++ sampleChunk).drop 48 ∧
      (List.replicate 70 0 ++ sampleChunk).take 48 ++ s'.packet_buffer =
        List.replicate 70 0 ++ sampleChunk :=
  ⟨by decide,
   (buffer_after_call sampleConfig 2000 sampleChunk
      { initialState with packet_buffer := List.replicate 10 0 }).1 (by decide),
   by decide,
   (buffer_after_call sampleConfig 2000 sampleChunk
      { initialState with packet_buffer := List.replicate 70 0 }).2 (by decide)⟩

/-! ## Exclusion precedence -/

section
variable {F : Type} [FloatOps F]

theorem publishTargets_mem (p : List (Position F)) (i j : Nat) (t : Position F)
    (h : p[j]? = some t) (e : Pub F) (he : e ∈ publishTarget (i + j) t) :
    e ∈ publishTargets i p := by
  induction p generalizing i j with
  | nil => simp at h
  | cons u us ih =>
    unfold publishTargets
    cases j with
    | zero =>
      simp only [List.getElem?_cons_zero, Option.some.injEq] at h
      subst h
      exact List.mem_append_left _ he
    | succ k =>
      simp only [List.getElem?_cons_succ] at h
      refine List.mem_append_right _ (ih (i + 1) k h ?_)
      rw [show i + 1 + k = i + (k + 1) by omega]
      exact he

theorem default_zone_not_valid : ({} : Zone).isValid = false := by decide

/-- Every inclusion zone counts the valid, non-excluded targets that the
containment test places inside it. -/
theorem inclusionZones_count (cfg : Config F) (p : List (Position F)) (z : Zone)
    (hz : z ∈ inclusionZones cfg cfg.wall_angle p) :
    z.target_count = p.countP (fun u => u.valid && !u.zone_ex_enter &&
      check_targets_in_zone z u cfg.wall_angle) := by
  unfold inclusionZones at hz
  by_cases hen : cfg.zone_fn_enable = true
  · rw [if_pos hen] at hz
    obtain ⟨i, -, rfl⟩ := List.mem_map.1 hz
    unfold inclusionZone
    by_cases hc : (loadZone cfg i).isConfigured = true
    · simp only [hc, if_true, inclusionTargets_eq]
      show (0 : Int) + _ = _
      rw [zero_add]
      rfl
    · simp only [hc, Bool.false_eq_true, if_false]
      have hv : (loadZone cfg i).isValid = false := by
        have := (not_configured_iff _).1 (by simpa using hc)
        cases hval : (loadZone cfg i).isValid
        · rfl
        · have := (isValid_iff _).1 hval
          omega
      symm
      show ((List.countP _ p : Nat) : Int) = 0
      rw [Nat.cast_eq_zero, List.countP_eq_zero]
      intro u _
      have : check_targets_in_zone (loadZone cfg i) u cfg.wall_angle = false :=
        check_false_of_not_valid _ hv u _
      have e := check_zone_congr
        { (loadZone cfg i) with
          has_target := decide ((loadZone cfg i).target_count > 0)
          has_target_outside := decide ((loadZone cfg i).outside_target_count > 0) }
        (loadZone cfg i) u cfg.wall_angle rfl rfl rfl rfl
      rw [e, this]
      simp
  · rw [if_neg hen] at hz
    have hz' := List.eq_of_mem_replicate hz
    subst hz'
    symm
    show ((List.countP _ p : Nat) : Int) = 0
    rw [Nat.cast_eq_zero, List.countP_eq_zero]
    intro u _
    rw [check_false_of_not_valid _ default_zone_not_valid u _]
    simp


/-- The tally of the exclusion zone when it is switched on and configured. -/
theorem classifyTargets_zone_ex (cfg : Config F) (p : List (Position F))
    (hen : cfg.zone_ex_enable 0 = true) (hconf : (loadZoneEx cfg 0).isConfigured = true) :
    ∃ zx, (classifyTargets cfg p).zone_ex = [zx] ∧
      zx.target_count = p.countP (fun u => u.valid &&
        check_targets_in_zone (loadZoneEx cfg 0) u cfg.wall_angle) := by
  have h : (classifyTargets cfg p).zone_ex =
      (exclusionZones cfg cfg.wall_angle (List.range NUM_ZONES_EX) p).1 := rfl
  rw [h, exclusionZones_range]
  simp only [hen, hconf, Bool.and_self, if_true, exclusionTargets_fst]
  refine ⟨_, rfl, ?_⟩
  show (0 : Int) + _ = _
  rw [zero_add]

/-- The inclusion tallies in terms of the classified targets. -/
theorem classifyTargets_zone_count (cfg : Config F) (p : List (Position F)) (z : Zone)
    (hz : z ∈ (classifyTargets cfg p).zone) :
    z.target_count = (classifyTargets cfg p).p.countP (fun u => u.valid && !u.zone_ex_enter &&
      check_targets_in_zone z u cfg.wall_angle) := by
  have h := inclusionZones_count cfg
    (exclusionZones cfg cfg.wall_angle (List.range NUM_ZONES_EX) p).2 z hz
  rw [h, classifyTargets_p]
  unfold targetAttributes
  rw [List.countP_map]
  congr 1
  apply List.countP_congr
  intro u _
  obtain ⟨a1, a2, -, -, a5, a6, -⟩ := targetAttribute_fields cfg.speed_threshold u
  simp only [Function.comp, a5, a6]
  rw [check_target_congr z (targetAttribute cfg.speed_threshold u) u cfg.wall_angle a1 a2 a5 a6]

/-- C9: in a frame whose exclusion zone is switched on and configured, a valid
parsed target `t0` (index `j`) that the containment test places inside the
exclusion zone is counted by the exclusion zone's `target_count`; its
classified record `t` is flagged excluded, so the predicate counted by every
inclusion zone's `target_count` and the one counted by the aggregate count
are false on it; and with target publishing on, an accepted invocation
publishes its x, y, speed, resolution, angle, movement state and direction. -/
theorem exclusion_precedence (cfg : Config F) (bytes : List Byte) (p0 : List (Position F))
    (j : Nat) (t0 : Position F)
    (hp : parseTargets bytes NUM_TARGETS 0 = some p0)
    (hen : cfg.zone_ex_enable 0 = true) (hconf : (loadZoneEx cfg 0).isConfigured = true)
    (hj : p0[j]? = some t0) (hv : t0.valid = true)
    (hin : check_targets_in_zone (loadZoneEx cfg 0) t0 cfg.wall_angle = true) :
    ∃ fr t zx, classifyFrame cfg bytes = some fr ∧ fr.p[j]? = some t ∧ fr.zone_ex = [zx] ∧
      (t.valid = true ∧ t.zone_ex_enter = true ∧ t.x = t0.x ∧ t.y = t0.y ∧
        t.speed = t0.speed ∧ t.distance_resolution = t0.distance_resolution) ∧
      (zx.target_count = p0.countP (fun u => u.valid &&
          check_targets_in_zone (loadZoneEx cfg 0) u cfg.wall_angle) ∧
        (t0.valid && check_targets_in_zone (loadZoneEx cfg 0) t0 cfg.wall_angle) = true) ∧
      (∀ z ∈ fr.zone,
        z.target_count = fr.p.countP (fun u => u.valid && !u.zone_ex_enter &&
          check_targets_in_zone z u cfg.wall_angle) ∧
        (t.valid && !t.zone_ex_enter && check_targets_in_zone z t cfg.wall_angle) = false) ∧
      (fr.all_target_counts = fr.p.countP (fun u => u.valid && !u.zone_ex_enter) ∧
        (t.valid && !t.zone_ex_enter) = false) ∧
      (cfg.target_fn_enable = true → ∀ (now : Nat) (s : State),
        FULL_PACKET_SIZE ≤ (s.packet_buffer ++ bytes).length →
        ¬ ((usub now s.last_update : ℚ) ≤ cfg.update_interval_ms) →
        MIN_PACKET_SIZE ≤ bytes.length →
        ∃ s' out, process_ld2450_data cfg now bytes s = some (s', out) ∧
          ∀ e ∈ [Pub.target_x j t.x, Pub.target_y j t.y,
                 Pub.target_speed j ((t.speed : ℚ) / 100),
                 Pub.target_resolution j t.distance_resolution,
                 Pub.target_angle j (calculate_target_angle t.x t.y),
                 Pub.target_position j (calculate_target_position t.speed cfg.speed_threshold),
                 Pub.target_direction j (calculate_target_direction t.x t.y 100)],
            e ∈ out) := by
  obtain ⟨t, ht, hx, hy, hs, hr, hval, hex, hattr⟩ := classify_getElem cfg p0 j t0 hj
  obtain ⟨zx, hzx, hcount⟩ := classifyTargets_zone_ex cfg p0 hen hconf
  have hfr : classifyFrame cfg bytes = some (classifyTargets cfg p0) := by
    unfold classifyFrame
    rw [hp]
    rfl
  have htv : t.valid = true := by rw [hval, hv]
  have hte : t.zone_ex_enter = true := by
    rw [hex]
    simp [hen, hconf, hv, hin]
  refine ⟨_, t, zx, hfr, ht, hzx, ⟨htv, hte, hx, hy, hs, hr⟩, ⟨hcount, by simp [hv, hin]⟩,
    ?_, ⟨classifyTargets_count cfg p0, by simp [hte]⟩, ?_⟩
  · intro z hz
    exact ⟨classifyTargets_zone_count cfg p0 z hz, by simp [hte]⟩
  · intro hpub now s h48 hgate h30
    have hp' := parseTargets_eq (F := F) bytes h30
    rw [hp] at hp'
    cases hp'
    rw [process_accepted cfg now bytes s h48 hgate h30]
    refine ⟨_, _, rfl, ?_⟩
    intro e he
    apply List.mem_append_right
    unfold publishFrame
    simp only [List.append_assoc]
    apply List.mem_append_left
    unfold publishTargetData
    rw [if_pos hpub]
    apply publishTargets_mem _ 0 j t ht
    obtain ⟨ha, hpo, hd⟩ := hattr htv
    unfold publishTarget
    rw [if_pos htv, Nat.zero_add, ha, hpo, hd]
    exact he

end

/-! ## Concrete runs -/


theorem exclusion_zone_geometry :
    (loadZoneEx exclusionConfig 0).x = squareZone.x ∧
    (loadZoneEx exclusionConfig 0).y = squareZone.y ∧
    (loadZoneEx exclusionConfig 0).width = squareZone.width ∧
    (loadZoneEx exclusionConfig 0).height = squareZone.height := by
  decide

theorem exclusionChunk_target :
    (targetAt (F := ℝ) exclusionChunk 0).x = (targetPoint (-500) 500).x ∧
    (targetAt (F := ℝ) exclusionChunk 0).y = (targetPoint (-500) 500).y ∧
    (targetAt (F := ℝ) exclusionChunk 0).valid = (targetPoint (-500) 500).valid ∧
    (targetAt (F := ℝ) exclusionChunk 0).zone_ex_enter = (targetPoint (-500) 500).zone_ex_enter := by
  decide

theorem exclusionChunk_inside :
    check_targets_in_zone (loadZoneEx exclusionConfig 0) (targetAt exclusionChunk 0)
      exclusionConfig.wall_angle = true := by
  obtain ⟨z1, z2, z3, z4⟩ := exclusion_zone_geometry
  obtain ⟨t1, t2, t3, t4⟩ := exclusionChunk_target
  rw [check_zone_congr _ squareZone _ _ z1 z2 z3 z4,
    check_target_congr squareZone _ (targetPoint (-500) 500) _ t1 t2 t3 t4]
  exact square_centre_inside

/-- Witness of C9: the chunk `exclusionChunk` under `exclusionConfig`; target
0 sits at (-500, 500), inside the exclusion zone. -/
theorem exclusion_precedence_witness :
    parseTargets (F := ℝ) exclusionChunk NUM_TARGETS 0 =
      some [targetAt exclusionChunk 0, targetAt exclusionChunk 8, targetAt exclusionChunk 16] ∧
    exclusionConfig.zone_ex_enable 0 = true ∧
    (loadZoneEx exclusionConfig 0).isConfigured = true ∧
    (targetAt (F := ℝ) exclusionChunk 0).valid = true ∧
    check_targets_in_zone (loadZoneEx exclusionConfig 0) (targetAt exclusionChunk 0)
      exclusionConfig.wall_angle = true ∧
    ∃ fr t zx, classifyFrame exclusionConfig exclusionChunk = some fr ∧ fr.p[0]? = some t ∧
      fr.zone_ex = [zx] ∧ t.valid = true ∧ t.zone_ex_enter = true ∧ t.x = -500 ∧ t.y = 500 ∧
      (∀ z ∈ fr.zone,
        (t.valid && !t.zone_ex_enter && check_targets_in_zone z t exclusionConfig.wall_angle) =
          false) ∧
      (t.valid && !t.zone_ex_enter) = false := by
  refine ⟨parseTargets_eq _ (by decide), rfl, by decide, by decide, exclusionChunk_inside, ?_⟩
  obtain ⟨fr, t, zx, h1, h2, h3, ⟨h4, h5, h6, h7, -, -⟩, -, h9, ⟨-, h10⟩, -⟩ :=
    exclusion_precedence exclusionConfig exclusionChunk _ 0 (targetAt exclusionChunk 0)
      (parseTargets_eq _ (by decide)) rfl (by decide) rfl (by decide) exclusionChunk_inside
  exact ⟨fr, t, zx, h1, h2, h3, h4, h5, h6.trans (by decide), h7.trans (by decide),
    fun z hz => (h9 z hz).2, h10⟩

set_option maxRecDepth 100000 in
/-- C1, the code at the failing inputs.  The 48-byte frame `sampleFrame` fed
in one call is decoded (target 0 at x = 782, y = 1713).  Fed as 24 + 24 bytes,
the call that completes the frame takes the packet-error path: the error
counter becomes 1, "Packet Error" is published and no target is.  Fed as
10 + 38 bytes, the completing call decodes its own 38-byte chunk, not the
assembled frame: target 0 is published as invalid (x = 0, y = 0). -/
theorem split_frame_not_decoded :
    sampleFrame.length = 48 ∧
    (process_ld2450_data sampleConfig 2000 sampleFrame initialState).map
        (fun r => (r.1.packet_error_count, r.1.packet_buffer, (calls r.2).take 5)) =
      some (0, [], [Pub.update_rate (1 / 2), Pub.target_x 0 782, Pub.target_y 0 1713,
        Pub.target_speed 0 (-4 / 25), Pub.target_resolution 0 320]) ∧
    ((process_ld2450_data sampleConfig 1000 (sampleFrame.take 24) initialState).bind
        (fun r => process_ld2450_data sampleConfig 2000 (sampleFrame.drop 24) r.1)).map
        (fun r => (r.1.packet_error_count, r.1.packet_buffer, calls r.2)) =
      some (1, [], [Pub.update_rate (1 / 2), Pub.packet_errors 1,
        Pub.radar_status "Packet Error"]) ∧
    ((process_ld2450_data sampleConfig 1000 (sampleFrame.take 10) initialState).bind
        (fun r => process_ld2450_data sampleConfig 2000 (sampleFrame.drop 10) r.1)).map
        (fun r => (r.1.packet_error_count, r.1.packet_buffer, (calls r.2).take 5)) =
      some (0, [], [Pub.update_rate (1 / 2), Pub.target_x 0 0, Pub.target_y 0 0,
        Pub.target_speed 0 0, Pub.target_angle 0 ()]) := by
  refine ⟨by decide, ?_, ?_, ?_⟩ <;> with_unfolding_all decide


/-! ## The publish stages -/

section
variable {F : Type}

/-- The fields of the state that no publish stage writes. -/
theorem publishOverall_core (c : Int) (b : Bool) (s : State) :
    (publishOverall (F := F) c b s).1.last_update = s.last_update ∧
    (publishOverall (F := F) c b s).1.update_counter = s.update_counter ∧
    (publishOverall (F := F) c b s).1.last_rate_calc = s.last_rate_calc ∧
    (publishOverall (F := F) c b s).1.packet_error_count = s.packet_error_count ∧
    (publishOverall (F := F) c b s).1.init_zone_publish = s.init_zone_publish := by
  unfold publishOverall
  split
  · exact ⟨rfl, rfl, rfl, rfl, rfl⟩
  · split <;> exact ⟨rfl, rfl, rfl, rfl, rfl⟩

theorem publishZones_core (i : Nat) (zs : List Zone) (s : State) :
    (publishZones (F := F) i zs s).1.last_update = s.last_update ∧
    (publishZones (F := F) i zs s).1.update_counter = s.update_counter ∧
    (publishZones (F := F) i zs s).1.last_rate_calc = s.last_rate_calc ∧
    (publishZones (F := F) i zs s).1.packet_error_count = s.packet_error_count ∧
    (publishZones (F := F) i zs s).1.init_zone_publish = s.init_zone_publish ∧
    (publishZones (F := F) i zs s).1.all_target_count = s.all_target_count ∧
    (publishZones (F := F) i zs s).1.any_target_exist = s.any_target_exist ∧
    (publishZones (F := F) i zs s).1.zone_ex_target_count = s.zone_ex_target_count ∧
    (publishZones (F := F) i zs s).1.zone_ex_target_exist = s.zone_ex_target_exist := by
  induction zs generalizing i s with
  | nil => exact ⟨rfl, rfl, rfl, rfl, rfl, rfl, rfl, rfl, rfl⟩
  | cons z zs ih =>
    unfold publishZones
    split
    · exact ih _ _
    · exact ih _ _

theorem publishZonesEx_core (i : Nat) (zs : List Zone) (s : State) :
    (publishZonesEx (F := F) i zs s).1.last_update = s.last_update ∧
    (publishZonesEx (F := F) i zs s).1.update_counter = s.update_counter ∧
    (publishZonesEx (F := F) i zs s).1.last_rate_calc = s.last_rate_calc ∧
    (publishZonesEx (F := F) i zs s).1.packet_error_count = s.packet_error_count ∧
    (publishZonesEx (F := F) i zs s).1.init_zone_publish = s.init_zone_publish ∧
    (publishZonesEx (F := F) i zs s).1.all_target_count = s.all_target_count ∧
    (publishZonesEx (F := F) i zs s).1.any_target_exist = s.any_target_exist ∧
    (publishZonesEx (F := F) i zs s).1.zone_target_count = s.zone_target_count ∧
    (publishZonesEx (F := F) i zs s).1.zone_target_exist = s.zone_target_exist := by
  induction zs generalizing i s with
  | nil => exact ⟨rfl, rfl, rfl, rfl, rfl, rfl, rfl, rfl, rfl⟩
  | cons z zs ih =>
    unfold publishZonesEx
    simp only []
    refine ⟨(ih _ _).1.trans ?_, (ih _ _).2.1.trans ?_, (ih _ _).2.2.1.trans ?_,
      (ih _ _).2.2.2.1.trans ?_, (ih _ _).2.2.2.2.1.trans ?_, (ih _ _).2.2.2.2.2.1.trans ?_,
      (ih _ _).2.2.2.2.2.2.1.trans ?_, (ih _ _).2.2.2.2.2.2.2.1.trans ?_,
      (ih _ _).2.2.2.2.2.2.2.2.trans ?_⟩ <;> split_ifs <;> rfl

theorem publishReady_core (s : State) :
    (publishReady (F := F) s).1.last_update = s.last_update ∧
    (publishReady (F := F) s).1.update_counter = s.update_counter ∧
    (publishReady (F := F) s).1.last_rate_calc = s.last_rate_calc ∧
    (publishReady (F := F) s).1.packet_error_count = s.packet_error_count ∧
    (publishReady (F := F) s).1.all_target_count = s.all_target_count ∧
    (publishReady (F := F) s).1.any_target_exist = s.any_target_exist ∧
    (publishReady (F := F) s).1.zone_target_count = s.zone_target_count ∧
    (publishReady (F := F) s).1.zone_target_exist = s.zone_target_exist ∧
    (publishReady (F := F) s).1.zone_ex_target_count = s.zone_ex_target_count ∧
    (publishReady (F := F) s).1.zone_ex_target_exist = s.zone_ex_target_exist := by
  unfold publishReady
  split <;> exact ⟨rfl, rfl, rfl, rfl, rfl, rfl, rfl, rfl, rfl, rfl⟩

theorem rateReporter_core (now : Nat) (s : State) :
    (rateReporter (F := F) now s).1.last_update = s.last_update ∧
    (rateReporter (F := F) now s).1.packet_error_count = s.packet_error_count ∧
    (rateReporter (F := F) now s).1.init_zone_publish = s.init_zone_publish ∧
    (rateReporter (F := F) now s).1.all_target_count = s.all_target_count ∧
    (rateReporter (F := F) now s).1.any_target_exist = s.any_target_exist ∧
    (rateReporter (F := F) now s).1.zone_target_count = s.zone_target_count ∧
    (rateReporter (F := F) now s).1.zone_target_exist = s.zone_target_exist ∧
    (rateReporter (F := F) now s).1.zone_ex_target_count = s.zone_ex_target_count ∧
    (rateReporter (F := F) now s).1.zone_ex_target_exist = s.zone_ex_target_exist := by
  unfold rateReporter
  simp only []
  split <;> exact ⟨rfl, rfl, rfl, rfl, rfl, rfl, rfl, rfl, rfl⟩

end

section
variable {F : Type} [FloatOps F]

/-- The publish stages leave the timers and counters alone. -/
theorem publishFrame_core (cfg : Config F) (fr : Frame F) (s : State) :
    (publishFrame cfg fr s).1.last_update = s.last_update ∧
    (publishFrame cfg fr s).1.update_counter = s.update_counter ∧
    (publishFrame cfg fr s).1.last_rate_calc = s.last_rate_calc ∧
    (publishFrame cfg fr s).1.packet_error_count = s.packet_error_count := by
  unfold publishFrame
  simp only []
  refine ⟨?_, ?_, ?_, ?_⟩
  · rw [(publishReady_core _).1, (publishZonesEx_core _ _ _).1, (publishZones_core _ _ _).1,
      (publishOverall_core _ _ _).1]
  · rw [(publishReady_core _).2.1, (publishZonesEx_core _ _ _).2.1, (publishZones_core _ _ _).2.1,
      (publishOverall_core _ _ _).2.1]
  · rw [(publishReady_core _).2.2.1, (publishZonesEx_core _ _ _).2.2.1,
      (publishZones_core _ _ _).2.2.1, (publishOverall_core _ _ _).2.2.1]
  · rw [(publishReady_core _).2.2.2.1, (publishZonesEx_core _ _ _).2.2.2.1,
      (publishZones_core _ _ _).2.2.2.1, (publishOverall_core _ _ _).2.2.2.1]

end

section
variable {F : Type}

theorem rateReporter_sink (now : Nat) (s : State) (e : Pub F)
    (he : e ∈ (rateReporter (F := F) now s).2) : e.sink = Sink.update_rate := by
  unfold rateReporter at he
  simp only [] at he
  split at he
  · simp only [List.mem_singleton] at he
    subst he
    rfl
  · simp at he

theorem publishOverall_mem (c : Int) (b : Bool) (s : State) (e : Pub F) :
    e ∈ (publishOverall (F := F) c b s).2 ↔
      (e = Pub.all_target_count c ∧ s.all_target_count ≠ (c : ℚ)) ∨
      (e = Pub.any_target_exist b ∧
        (s.all_target_count ≠ (c : ℚ) ∨ s.any_target_exist ≠ b)) := by
  unfold publishOverall
  by_cases h1 : s.all_target_count ≠ (c : ℚ)
  · rw [if_pos h1]
    simp [h1]
  · rw [if_neg h1]
    by_cases h2 : s.any_target_exist ≠ b
    · rw [if_pos h2]
      simp [h1, h2]
    · rw [if_neg h2]
      simp [h1, h2]

/-- After the aggregate stage the two aggregate sinks hold the frame's values. -/
theorem publishOverall_state (c : Int) (b : Bool) (s : State) :
    (publishOverall (F := F) c b s).1.all_target_count = (c : ℚ) ∧
    (publishOverall (F := F) c b s).1.any_target_exist = b := by
  unfold publishOverall
  by_cases h1 : s.all_target_count ≠ (c : ℚ)
  · rw [if_pos h1]
    exact ⟨rfl, rfl⟩
  · rw [if_neg h1]
    by_cases h2 : s.any_target_exist ≠ b
    · rw [if_pos h2]
      exact ⟨not_not.1 h1, rfl⟩
    · rw [if_neg h2]
      exact ⟨not_not.1 h1, not_not.1 h2⟩

theorem publishZones_counts (k : Nat) (zs : List Zone) (s : State) (i : Nat) (hi : i < k) :
    (publishZones (F := F) k zs s).1.zone_target_count i = s.zone_target_count i := by
  induction zs generalizing k s with
  | nil => rfl
  | cons z zs ih =>
    unfold publishZones
    split
    · simp only []
      rw [ih (k + 1) _ (by omega)]
      exact Function.update_noteq (by omega) _ _
    · exact ih (k + 1) _ (by omega)

/-- The calls of the inclusion-zone stage: zone `k + j` has its count and its
presence flag published exactly when the count differs from the sink's. -/
theorem publishZones_mem (k : Nat) (zs : List Zone) (s : State) (e : Pub F) :
    e ∈ (publishZones (F := F) k zs s).2 ↔
      ∃ j z, zs[j]? = some z ∧ s.zone_target_count (k + j) ≠ (z.target_count : ℚ) ∧
        (e = Pub.zone_target_count (k + j) z.target_count ∨
         e = Pub.zone_target_exist (k + j) z.has_target) := by
  induction zs generalizing k s with
  | nil => simp [publishZones]
  | cons z zs ih =>
    have shift : ∀ s' : State, (∀ i, k < i → s'.zone_target_count i = s.zone_target_count i) →
        (e ∈ (publishZones (F := F) (k + 1) zs s').2 ↔
          ∃ j z', (z :: zs)[j + 1]? = some z' ∧
            s.zone_target_count (k + (j + 1)) ≠ (z'.target_count : ℚ) ∧
            (e = Pub.zone_target_count (k + (j + 1)) z'.target_count ∨
             e = Pub.zone_target_exist (k + (j + 1)) z'.has_target)) := by
      intro s' hs'
      rw [ih (k + 1) s']
      constructor
      · rintro ⟨j, z', h1, h2, h3⟩
        refine ⟨j, z', by simpa using h1, ?_, ?_⟩
        · rw [← hs' _ (by omega), show k + (j + 1) = k + 1 + j by omega]
          exact h2
        · rw [show k + (j + 1) = k + 1 + j by omega]
          exact h3
      · rintro ⟨j, z', h1, h2, h3⟩
        refine ⟨j, z', by simpa using h1, ?_, ?_⟩
        · rw [hs' _ (by omega), show k + 1 + j = k + (j + 1) by omega]
          exact h2
        · rw [show k + 1 + j = k + (j + 1) by omega]
          exact h3
    unfold publishZones
    by_cases hc : s.zone_target_count k ≠ (z.target_count : ℚ)
    · rw [if_pos hc]
      simp only [List.mem_append, List.mem_cons, List.mem_singleton, List.not_mem_nil, or_false]
      rw [shift _ (fun i hi => Function.update_noteq (by omega) _ _)]
      constructor
      · rintro (h | ⟨j, z', h1, h2, h3⟩)
        · exact ⟨0, z, List.getElem?_cons_zero, hc, h⟩
        · exact ⟨j + 1, z', h1, h2, h3⟩
      · rintro ⟨j, z', h1, h2, h3⟩
        cases j with
        | zero =>
          simp only [List.getElem?_cons_zero, Option.some.injEq] at h1
          subst h1
          exact Or.inl h3
        | succ j => exact Or.inr ⟨j, z', h1, h2, h3⟩
    · rw [if_neg hc]
      rw [shift _ (fun i _ => rfl)]
      constructor
      · rintro ⟨j, z', h1, h2, h3⟩
        exact ⟨j + 1, z', h1, h2, h3⟩
      · rintro ⟨j, z', h1, h2, h3⟩
        cases j with
        | zero =>
          simp only [List.getElem?_cons_zero, Option.some.injEq] at h1
          subst h1
          exact absurd h2 hc
        | succ j => exact ⟨j, z', h1, h2, h3⟩

theorem exists_cons_index {α : Type} (z : α) (zs : List α) (P : Nat → α → Prop) :
    (∃ j z', (z :: zs)[j]? = some z' ∧ P j z') ↔
      (P 0 z ∨ ∃ j z', (z :: zs)[j + 1]? = some z' ∧ P (j + 1) z') := by
  constructor
  · rintro ⟨j, z', h1, h2⟩
    cases j with
    | zero =>
      simp only [List.getElem?_cons_zero, Option.some.injEq] at h1
      subst h1
      exact Or.inl h2
    | succ j => exact Or.inr ⟨j, z', h1, h2⟩
  · rintro (h | ⟨j, z', h1, h2⟩)
    · exact ⟨0, z, List.getElem?_cons_zero, h⟩
    · exact ⟨j + 1, z', h1, h2⟩

/-- The calls of the exclusion-zone stage: for zone `k + j` the count is
published when it differs from the count sink's state, and the presence flag
when it differs from the flag sink's state. -/
theorem publishZonesEx_mem (k : Nat) (zs : List Zone) (s : State) (e : Pub F) :
    e ∈ (publishZonesEx (F := F) k zs s).2 ↔
      ∃ j z, zs[j]? = some z ∧
        ((s.zone_ex_target_count (k + j) ≠ (z.target_count : ℚ) ∧
            e = Pub.zone_ex_target_count (k + j) z.target_count) ∨
         (s.zone_ex_target_exist (k + j) ≠ z.has_target ∧
            e = Pub.zone_ex_target_exist (k + j) z.has_target)) := by
  induction zs generalizing k s with
  | nil => simp [publishZonesEx]
  | cons z zs ih =>
    have shift : ∀ s' : State,
        (∀ i, k < i → s'.zone_ex_target_count i = s.zone_ex_target_count i) →
        (∀ i, k < i → s'.zone_ex_target_exist i = s.zone_ex_target_exist i) →
        (e ∈ (publishZonesEx (F := F) (k + 1) zs s').2 ↔
          ∃ j z', (z :: zs)[j + 1]? = some z' ∧
            ((s.zone_ex_target_count (k + (j + 1)) ≠ (z'.target_count : ℚ) ∧
                e = Pub.zone_ex_target_count (k + (j + 1)) z'.target_count) ∨
             (s.zone_ex_target_exist (k + (j + 1)) ≠ z'.has_target ∧
                e = Pub.zone_ex_target_exist (k + (j + 1)) z'.has_target))) := by
      intro s' hc' he'
      rw [ih (k + 1) s']
      constructor
      · rintro ⟨j, z', h1, h2⟩
        refine ⟨j, z', by simpa using h1, ?_⟩
        rw [← hc' _ (by omega), ← he' _ (by omega), show k + (j + 1) = k + 1 + j by omega]
        exact h2
      · rintro ⟨j, z', h1, h2⟩
        refine ⟨j, z', by simpa using h1, ?_⟩
        rw [hc' _ (by omega), he' _ (by omega), show k + 1 + j = k + (j + 1) by omega]
        exact h2
    rw [exists_cons_index z zs (fun j z' =>
      (s.zone_ex_target_count (k + j) ≠ (z'.target_count : ℚ) ∧
          e = Pub.zone_ex_target_count (k + j) z'.target_count) ∨
      (s.zone_ex_target_exist (k + j) ≠ z'.has_target ∧
          e = Pub.zone_ex_target_exist (k + j) z'.has_target))]
    have side1 : ∀ (f : Nat → ℚ) (v : ℚ) (i : Nat), k < i → Function.update f k v i = f i :=
      fun f v i hi => Function.update_noteq (by omega) _ _
    have side2 : ∀ (f : Nat → Bool) (v : Bool) (i : Nat), k < i → Function.update f k v i = f i :=
      fun f v i hi => Function.update_noteq (by omega) _ _
    unfold publishZonesEx
    by_cases hc : s.zone_ex_target_count k ≠ (z.target_count : ℚ)
    · by_cases he : s.zone_ex_target_exist k ≠ z.has_target
      · simp only [if_pos hc, if_pos he, List.mem_append, List.mem_singleton, Nat.add_zero]
        rw [shift]
        · simp only [hc, he, not_false_eq_true, true_and, ne_eq]
        · exact side1 _ _
        · exact side2 _ _
      · simp only [if_pos hc, if_neg he, List.mem_append, List.mem_singleton, Nat.add_zero,
          List.not_mem_nil, or_false]
        rw [shift]
        · simp only [hc, he, not_false_eq_true, true_and, ne_eq, false_and, or_false]
        · exact side1 _ _
        · exact fun i hi => rfl
    · by_cases he : s.zone_ex_target_exist k ≠ z.has_target
      · simp only [if_neg hc, if_pos he, List.mem_append, List.mem_singleton, Nat.add_zero,
          List.not_mem_nil, false_or]
        rw [shift]
        · simp only [hc, he, not_false_eq_true, true_and, ne_eq, false_and, false_or]
        · exact fun i hi => rfl
        · exact side2 _ _
      · simp only [if_neg hc, if_neg he, List.mem_append, List.not_mem_nil, false_or]
        rw [shift]
        · simp only [Nat.add_zero, hc, he, false_and, or_self, false_or]
        · exact fun i hi => rfl
        · exact fun i hi => rfl

theorem publishReady_mem (s : State) (e : Pub F) :
    e ∈ (publishReady (F := F) s).2 ↔
      (e = Pub.radar_status "Ready" ∧ s.init_zone_publish = false) := by
  unfold publishReady
  cases h : s.init_zone_publish <;> simp

theorem publishReady_state (s : State) :
    (publishReady (F := F) s).1.init_zone_publish = true := by
  unfold publishReady
  cases h : s.init_zone_publish <;> simp [h]

end


/-! ## Zone tallies -/

section
variable {F : Type} [FloatOps F]

omit [FloatOps F] in
theorem countP_split (q r : Position F → Bool) (l : List (Position F)) :
    l.countP (fun t => q t && r t) + l.countP (fun t => q t && !r t) = l.countP q := by
  induction l with
  | nil => rfl
  | cons t ts ih =>
    simp only [List.countP_cons]
    cases hq : q t <;> cases hr : r t <;> simp <;> omega

/-- The fields of inclusion zone `i` after its pass over the targets `p`. -/
theorem inclusionZone_fields (cfg : Config F) (angle : F) (p : List (Position F)) (i : Nat) :
    (inclusionZone cfg angle p i).x = (loadZone cfg i).x ∧
    (inclusionZone cfg angle p i).y = (loadZone cfg i).y ∧
    (inclusionZone cfg angle p i).width = (loadZone cfg i).width ∧
    (inclusionZone cfg angle p i).height = (loadZone cfg i).height ∧
    (inclusionZone cfg angle p i).target_count =
      (if (loadZone cfg i).isConfigured then
        ((p.countP (fun t => t.valid && !t.zone_ex_enter &&
          check_targets_in_zone (loadZone cfg i) t angle) : Nat) : Int) else 0) ∧
    (inclusionZone cfg angle p i).outside_target_count =
      (if (loadZone cfg i).isConfigured then
        ((p.countP (fun t => t.valid && !t.zone_ex_enter &&
          !check_targets_in_zone (loadZone cfg i) t angle) : Nat) : Int) else 0) ∧
    (inclusionZone cfg angle p i).has_target =
      decide ((inclusionZone cfg angle p i).target_count > 0) ∧
    (inclusionZone cfg angle p i).has_target_outside =
      decide ((inclusionZone cfg angle p i).outside_target_count > 0) := by
  by_cases hc : (loadZone cfg i).isConfigured = true
  · rw [if_pos hc, if_pos hc]
    have e : inclusionZone cfg angle p i =
        { inclusionTargets angle (loadZone cfg i) p with
          has_target := decide ((inclusionTargets angle (loadZone cfg i) p).target_count > 0)
          has_target_outside :=
            decide ((inclusionTargets angle (loadZone cfg i) p).outside_target_count > 0) } := by
      unfold inclusionZone
      simp only [hc, if_true]
    rw [e, inclusionTargets_eq]
    refine ⟨rfl, rfl, rfl, rfl, ?_, ?_, rfl, rfl⟩
    · show (0 : Int) + _ = _
      rw [zero_add]
    · show (0 : Int) + _ = _
      rw [zero_add]
  · rw [if_neg hc, if_neg hc]
    have e : inclusionZone cfg angle p i =
        { loadZone cfg i with
          has_target := decide ((loadZone cfg i).target_count > 0)
          has_target_outside := decide ((loadZone cfg i).outside_target_count > 0) } := by
      unfold inclusionZone
      simp only [hc, Bool.false_eq_true, if_false]
    rw [e]
    exact ⟨rfl, rfl, rfl, rfl, rfl, rfl, rfl, rfl⟩

/-- The inclusion zone at index `i < NUM_ZONES` of the classified frame. -/
theorem classifyTargets_zone_getElem (cfg : Config F) (p : List (Position F)) (i : Nat)
    (hi : i < NUM_ZONES) :
    (classifyTargets cfg p).zone[i]? =
      some (if cfg.zone_fn_enable then
        inclusionZone cfg cfg.wall_angle
          (exclusionZones cfg cfg.wall_angle (List.range NUM_ZONES_EX) p).2 i
        else {}) := by
  show (inclusionZones cfg cfg.wall_angle _)[i]? = _
  unfold inclusionZones
  by_cases h : cfg.zone_fn_enable = true
  · simp only [h, if_true, List.getElem?_map, List.getElem?_range hi, Option.map_some']
  · simp only [h, Bool.false_eq_true, if_false]
    rw [List.getElem?_replicate]
    simp [hi]

theorem classifyTargets_zone_mem (cfg : Config F) (p : List (Position F)) (z : Zone)
    (hz : z ∈ (classifyTargets cfg p).zone) :
    ∃ i, i < NUM_ZONES ∧ (classifyTargets cfg p).zone[i]? = some z := by
  obtain ⟨i, hi⟩ := List.mem_iff_getElem?.1 hz
  refine ⟨i, ?_, hi⟩
  have hlen : (classifyTargets cfg p).zone.length = NUM_ZONES := by
    show (inclusionZones cfg cfg.wall_angle _).length = _
    unfold inclusionZones
    split <;> simp
  by_contra hc
  rw [List.getElem?_eq_none (by omega)] at hi
  cases hi

theorem classifyTargets_count_eq (cfg : Config F) (p : List (Position F)) :
    (classifyTargets cfg p).all_target_counts =
      ((exclusionZones cfg cfg.wall_angle (List.range NUM_ZONES_EX) p).2.countP
        (fun t => t.valid && !t.zone_ex_enter) : Nat) := by
  show countAllTargets _ = _
  rw [countAllTargets_eq]

theorem classifyTargets_count_le (cfg : Config F) (p : List (Position F)) :
    (classifyTargets cfg p).all_target_counts ≤ p.length := by
  rw [classifyTargets_count_eq, exclusionZones_snd]
  have := List.countP_le_length (fun t : Position F => t.valid && !t.zone_ex_enter)
    (l := p.map (fun t => if cfg.zone_ex_enable 0 && (loadZoneEx cfg 0).isConfigured &&
          t.valid && check_targets_in_zone (loadZoneEx cfg 0) t cfg.wall_angle
        then { t with zone_ex_enter := true } else t))
  rw [List.length_map] at this
  exact_mod_cast this

/-- C11: for every classified frame and every inclusion zone `i < 3`: with the
zone function on and the zone configured, `target_count + outside_target_count`
is the aggregate count, so `target_count <= aggregate count <= 3`, and
`has_target = (target_count > 0)`; with the zone function off, `target_count`
is 0 and `has_target` is false, and for every sink state the zone publish
stage publishes on zone `i` exactly the count 0 and the flag false, and
exactly when the count sink's state differs from 0. -/
theorem inclusion_zone_tallies (cfg : Config F) (bytes : List Byte) (h : 30 ≤ bytes.length)
    (i : Nat) (hi : i < 3) :
    ∃ fr z, classifyFrame cfg bytes = some fr ∧ fr.zone[i]? = some z ∧
      (cfg.zone_fn_enable = true → (loadZone cfg i).isConfigured = true →
        z.target_count + z.outside_target_count = fr.all_target_counts ∧
        z.target_count ≤ fr.all_target_counts ∧ fr.all_target_counts ≤ 3 ∧
        z.has_target = decide (z.target_count > 0)) ∧
      (cfg.zone_fn_enable = false →
        z.target_count = 0 ∧ z.has_target = false ∧
        ∀ s : State,
          (∀ v, Pub.zone_target_count i v ∈ (publishZones (F := F) 0 fr.zone s).2 ↔
            (v = 0 ∧ s.zone_target_count i ≠ 0)) ∧
          (∀ b, Pub.zone_target_exist i b ∈ (publishZones (F := F) 0 fr.zone s).2 ↔
            (b = false ∧ s.zone_target_count i ≠ 0))) := by
  have hz := classifyTargets_zone_getElem cfg
    [targetAt (F := F) bytes 0, targetAt bytes 8, targetAt bytes 16] i hi
  refine ⟨_, _, classifyFrame_eq cfg bytes h, hz, ?_, ?_⟩
  · intro hen hconf
    rw [if_pos hen]
    obtain ⟨-, -, -, -, htc, hoc, hht, -⟩ := inclusionZone_fields cfg cfg.wall_angle
      (exclusionZones cfg cfg.wall_angle (List.range NUM_ZONES_EX)
        [targetAt (F := F) bytes 0, targetAt bytes 8, targetAt bytes 16]).2 i
    rw [if_pos hconf] at htc hoc
    have hsum := countP_split (fun t : Position F => t.valid && !t.zone_ex_enter)
      (fun t => check_targets_in_zone (loadZone cfg i) t cfg.wall_angle)
      (exclusionZones cfg cfg.wall_angle (List.range NUM_ZONES_EX)
        [targetAt (F := F) bytes 0, targetAt bytes 8, targetAt bytes 16]).2
    have hle := classifyTargets_count_le cfg
      [targetAt (F := F) bytes 0, targetAt bytes 8, targetAt bytes 16]
    have hcnt := classifyTargets_count_eq cfg
      [targetAt (F := F) bytes 0, targetAt bytes 8, targetAt bytes 16]
    simp only [List.length_cons, List.length_nil] at hle
    refine ⟨?_, ?_, by omega, hht⟩
    · rw [htc, hoc, hcnt]
      exact_mod_cast hsum
    · rw [htc, hcnt]
      have : (0 : Int) ≤ ((List.countP (fun t : Position F => t.valid && !t.zone_ex_enter &&
          !check_targets_in_zone (loadZone cfg i) t cfg.wall_angle)
        (exclusionZones cfg cfg.wall_angle (List.range NUM_ZONES_EX)
          [targetAt (F := F) bytes 0, targetAt bytes 8, targetAt bytes 16]).2 : Nat) : Int) :=
        Int.natCast_nonneg _
      have hsum' : ((List.countP (fun t : Position F => t.valid && !t.zone_ex_enter &&
          check_targets_in_zone (loadZone cfg i) t cfg.wall_angle)
        (exclusionZones cfg cfg.wall_angle (List.range NUM_ZONES_EX)
          [targetAt (F := F) bytes 0, targetAt bytes 8, targetAt bytes 16]).2 : Nat) : Int) +
        ((List.countP (fun t : Position F => t.valid && !t.zone_ex_enter &&
          !check_targets_in_zone (loadZone cfg i) t cfg.wall_angle)
        (exclusionZones cfg cfg.wall_angle (List.range NUM_ZONES_EX)
          [targetAt (F := F) bytes 0, targetAt bytes 8, targetAt bytes 16]).2 : Nat) : Int) =
        ((List.countP (fun t : Position F => t.valid && !t.zone_ex_enter)
        (exclusionZones cfg cfg.wall_angle (List.range NUM_ZONES_EX)
          [targetAt (F := F) bytes 0, targetAt bytes 8, targetAt bytes 16]).2 : Nat) : Int) := by
        exact_mod_cast hsum
      omega
  · intro hoff
    have hzone : (classifyTargets cfg
        [targetAt (F := F) bytes 0, targetAt bytes 8, targetAt bytes 16]).zone =
        List.replicate NUM_ZONES {} := by
      show inclusionZones cfg cfg.wall_angle _ = _
      unfold inclusionZones
      rw [if_neg (by simp [hoff])]
    rw [if_neg (by simp [hoff])]
    refine ⟨rfl, rfl, fun s => ⟨fun v => ?_, fun b => ?_⟩⟩
    · rw [publishZones_mem, hzone]
      constructor
      · rintro ⟨j, z', h1, h2, h3⟩
        rw [List.getElem?_replicate] at h1
        split at h1
        · cases h1
          rcases h3 with h3 | h3
          · simp only [Pub.zone_target_count.injEq, Nat.zero_add] at h3
            obtain ⟨rfl, rfl⟩ := h3
            exact ⟨rfl, by simpa using h2⟩
          · cases h3
        · cases h1
      · rintro ⟨rfl, h2⟩
        refine ⟨i, {}, ?_, ?_, Or.inl (by simp)⟩
        · rw [List.getElem?_replicate, if_pos (show i < NUM_ZONES from hi)]
        · simpa using h2
    · rw [publishZones_mem, hzone]
      constructor
      · rintro ⟨j, z', h1, h2, h3⟩
        rw [List.getElem?_replicate] at h1
        split at h1
        · cases h1
          rcases h3 with h3 | h3
          · cases h3
          · simp only [Pub.zone_target_exist.injEq, Nat.zero_add] at h3
            obtain ⟨rfl, rfl⟩ := h3
            exact ⟨rfl, by simpa using h2⟩
        · cases h1
      · rintro ⟨rfl, h2⟩
        refine ⟨i, {}, ?_, ?_, Or.inr (by simp)⟩
        · rw [List.getElem?_replicate, if_pos (show i < NUM_ZONES from hi)]
        · simpa using h2

end

/-- Witness of C11: zone 0 of `exclusionConfig` (zone function on, zone
configured) on `exclusionChunk`, and zone 1 of `sampleConfig` (zone function
off) on `sampleChunk`. -/
theorem inclusion_zone_tallies_witness :
    30 ≤ exclusionChunk.length ∧ 0 < 3 ∧ exclusionConfig.zone_fn_enable = true ∧
    (loadZone exclusionConfig 0).isConfigured = true ∧
    (∃ fr z, classifyFrame exclusionConfig exclusionChunk = some fr ∧ fr.zone[0]? = some z ∧
      z.target_count + z.outside_target_count = fr.all_target_counts ∧
      z.target_count ≤ fr.all_target_counts ∧ fr.all_target_counts ≤ 3 ∧
      z.has_target = decide (z.target_count > 0)) ∧
    30 ≤ sampleChunk.length ∧ 1 < 3 ∧ sampleConfig.zone_fn_enable = false ∧
    (∃ fr z, classifyFrame sampleConfig sampleChunk = some fr ∧ fr.zone[1]? = some z ∧
      z.target_count = 0 ∧ z.has_target = false) := by
  refine ⟨by decide, by decide, rfl, by decide, ?_, by decide, by decide, rfl, ?_⟩
  · obtain ⟨fr, z, h1, h2, h3, -⟩ :=
      inclusion_zone_tallies exclusionConfig exclusionChunk (by decide) 0 (by decide)
    exact ⟨fr, z, h1, h2, h3 rfl (by decide)⟩
  · obtain ⟨fr, z, h1, h2, -, h4⟩ :=
      inclusion_zone_tallies sampleConfig sampleChunk (by decide) 1 (by decide)
    exact ⟨fr, z, h1, h2, (h4 rfl).1, (h4 rfl).2.1⟩

/-- C12, as stated, fails: under `misconfiguredConfig` every zone has
`isValid` false (height 0), yet on `sampleChunk`, which holds one valid
target, every inclusion zone and the exclusion zone end with
`outside_target_count = 1` and `has_target_outside = true`. -/
theorem invalid_zone_counts_outside :
    (classifyFrame misconfiguredConfig sampleChunk).map (fun fr =>
      (fr.zone ++ fr.zone_ex).map (fun z => (z.isValid, z.isConfigured, z.has_target_outside))) =
      some [(false, true, true), (false, true, true), (false, true, true),
        (false, true, true)] ∧
    (classifyFrame misconfiguredConfig sampleChunk).map (fun fr =>
      (fr.zone ++ fr.zone_ex).map (fun z => (z.target_count, z.outside_target_count))) =
      some [(0, 1), (0, 1), (0, 1), (0, 1)] := by
  refine ⟨by decide, by decide⟩

section
variable {F : Type} [FloatOps F]

/-- The exclusion zone of the classified frame and its fields. -/
theorem classifyTargets_zone_ex_fields (cfg : Config F) (p : List (Position F)) :
    ∃ zx, (classifyTargets cfg p).zone_ex = [zx] ∧
      zx.x = (loadZoneEx cfg 0).x ∧ zx.y = (loadZoneEx cfg 0).y ∧
      zx.width = (loadZoneEx cfg 0).width ∧ zx.height = (loadZoneEx cfg 0).height ∧
      zx.target_count =
        (if cfg.zone_ex_enable 0 && (loadZoneEx cfg 0).isConfigured then
          ((p.countP (fun t => t.valid &&
            check_targets_in_zone (loadZoneEx cfg 0) t cfg.wall_angle) : Nat) : Int) else 0) ∧
      zx.outside_target_count =
        (if cfg.zone_ex_enable 0 && (loadZoneEx cfg 0).isConfigured then
          ((p.countP (fun t => t.valid &&
            !check_targets_in_zone (loadZoneEx cfg 0) t cfg.wall_angle) : Nat) : Int) else 0) ∧
      zx.has_target = decide (zx.target_count > 0) ∧
      zx.has_target_outside = decide (zx.outside_target_count > 0) := by
  have h : (classifyTargets cfg p).zone_ex =
      (exclusionZones cfg cfg.wall_angle (List.range NUM_ZONES_EX) p).1 := rfl
  rw [h, exclusionZones_range]
  by_cases hc : (cfg.zone_ex_enable 0 && (loadZoneEx cfg 0).isConfigured) = true
  · simp only [hc, if_true, exclusionTargets_fst]
    refine ⟨_, rfl, rfl, rfl, rfl, rfl, ?_, ?_, rfl, rfl⟩
    · show (0 : Int) + _ = _
      rw [zero_add]
    · show (0 : Int) + _ = _
      rw [zero_add]
  · simp only [hc, Bool.false_eq_true, if_false]
    exact ⟨_, rfl, rfl, rfl, rfl, rfl, rfl, rfl, rfl, rfl⟩

omit [FloatOps F] in
theorem isValid_congr (z z' : Zone) (hx : z.x = z'.x) (hy : z.y = z'.y)
    (hw : z.width = z'.width) (hh : z.height = z'.height) : z.isValid = z'.isValid := by
  simp only [Zone.isValid, hx, hy, hw, hh]

omit [FloatOps F] in
theorem isConfigured_congr (z z' : Zone) (hw : z.width = z'.width) (hh : z.height = z'.height) :
    z.isConfigured = z'.isConfigured := by
  simp only [Zone.isConfigured, hw, hh]

theorem countP_check_invalid (z : Zone) (hz : z.isValid = false) (angle : F)
    (q : Position F → Bool) (p : List (Position F)) :
    p.countP (fun t => q t && check_targets_in_zone z t angle) = 0 := by
  rw [List.countP_eq_zero]
  intro t _
  rw [check_false_of_not_valid z hz]
  simp

theorem countP_not_check_invalid (z : Zone) (hz : z.isValid = false) (angle : F)
    (q : Position F → Bool) (p : List (Position F)) :
    p.countP (fun t => q t && !check_targets_in_zone z t angle) = p.countP q := by
  apply List.countP_congr
  intro t _
  rw [check_false_of_not_valid z hz]
  simp

/-- C12, amended: in every classified frame, a zone whose `isValid` is false
(inclusion or exclusion, configured or not) has `target_count = 0` and
`has_target = false`, and an invalid exclusion zone marks no target excluded.
Its `outside_target_count` is 0 and its `has_target_outside` false when it is
unconfigured (or, for the exclusion zone, switched off); when it is configured
and switched on, its `outside_target_count` equals the aggregate count. -/
theorem invalid_zone_tallies (cfg : Config F) (bytes : List Byte) (h : 30 ≤ bytes.length) :
    ∃ fr, classifyFrame cfg bytes = some fr ∧
      (∀ z ∈ fr.zone, z.isValid = false →
        z.target_count = 0 ∧ z.has_target = false ∧
        (z.isConfigured = false → z.outside_target_count = 0 ∧ z.has_target_outside = false) ∧
        (z.isConfigured = true → z.outside_target_count = fr.all_target_counts)) ∧
      (∀ z ∈ fr.zone_ex, z.isValid = false →
        z.target_count = 0 ∧ z.has_target = false ∧
        ((z.isConfigured = false ∨ cfg.zone_ex_enable 0 = false) →
          z.outside_target_count = 0 ∧ z.has_target_outside = false) ∧
        (z.isConfigured = true → cfg.zone_ex_enable 0 = true →
          z.outside_target_count = fr.all_target_counts) ∧
        ∀ t ∈ fr.p, t.zone_ex_enter = false) := by
  refine ⟨_, classifyFrame_eq cfg bytes h, ?_, ?_⟩
  · intro z hz hinv
    obtain ⟨i, hi, hzi⟩ := classifyTargets_zone_mem cfg _ z hz
    rw [classifyTargets_zone_getElem cfg _ i hi] at hzi
    simp only [Option.some.injEq] at hzi
    by_cases hen : cfg.zone_fn_enable = true
    · rw [if_pos hen] at hzi
      obtain ⟨fx, fy, fw, fh, htc, hoc, hht, hho⟩ := inclusionZone_fields cfg cfg.wall_angle
        (exclusionZones cfg cfg.wall_angle (List.range NUM_ZONES_EX)
          [targetAt (F := F) bytes 0, targetAt bytes 8, targetAt bytes 16]).2 i
      rw [hzi] at fx fy fw fh htc hoc hht hho
      have hinv0 : (loadZone cfg i).isValid = false := by
        rw [← isValid_congr z (loadZone cfg i) fx fy fw fh]
        exact hinv
      have hconf : z.isConfigured = (loadZone cfg i).isConfigured :=
        isConfigured_congr z (loadZone cfg i) fw fh
      have htc0 : z.target_count = 0 := by
        rw [htc]
        split
        · rw [countP_check_invalid _ hinv0]
          rfl
        · rfl
      refine ⟨htc0, by rw [hht, htc0]; rfl, ?_, ?_⟩
      · intro hnc
        rw [hconf] at hnc
        have hoc0 : z.outside_target_count = 0 := by
          rw [hoc, if_neg (by simp [hnc])]
        exact ⟨hoc0, by rw [hho, hoc0]; rfl⟩
      · intro hc
        rw [hconf] at hc
        rw [hoc, if_pos hc, countP_not_check_invalid _ hinv0, classifyTargets_count_eq]
    · rw [if_neg hen] at hzi
      subst hzi
      refine ⟨rfl, rfl, fun _ => ⟨rfl, rfl⟩, fun hc => ?_⟩
      exact absurd hc (by decide)
  · intro z hz hinv
    obtain ⟨zx, hzx, fx, fy, fw, fh, htc, hoc, hht, hho⟩ := classifyTargets_zone_ex_fields cfg
      [targetAt (F := F) bytes 0, targetAt bytes 8, targetAt bytes 16]
    rw [hzx, List.mem_singleton] at hz
    subst hz
    have hinv0 : (loadZoneEx cfg 0).isValid = false := by
      rw [← isValid_congr z (loadZoneEx cfg 0) fx fy fw fh]
      exact hinv
    have hconf : z.isConfigured = (loadZoneEx cfg 0).isConfigured :=
      isConfigured_congr z (loadZoneEx cfg 0) fw fh
    have htc0 : z.target_count = 0 := by
      rw [htc]
      split
      · rw [countP_check_invalid _ hinv0]
        rfl
      · rfl
    have hex : ∀ t ∈ (classifyTargets cfg
        [targetAt (F := F) bytes 0, targetAt bytes 8, targetAt bytes 16]).p,
        t.zone_ex_enter = false := by
      intro t ht
      obtain ⟨t0, ht0, -, -, -, he⟩ := classify_mem cfg _ t ht
      rw [he, check_false_of_not_valid _ hinv0]
      simp only [List.mem_cons, List.mem_singleton, List.not_mem_nil, or_false] at ht0
      rcases ht0 with rfl | rfl | rfl <;> simp [targetAt]
    refine ⟨htc0, by rw [hht, htc0]; rfl, ?_, ?_, hex⟩
    · intro hoff
      have hoc0 : z.outside_target_count = 0 := by
        rw [hoc, if_neg]
        rw [← hconf]
        rcases hoff with h1 | h1 <;> simp [h1]
      exact ⟨hoc0, by rw [hho, hoc0]; rfl⟩
    · intro hc hen
      rw [hconf] at hc
      rw [hoc, if_pos (by simp [hc, hen]), countP_not_check_invalid _ hinv0,
        classifyTargets_count]
      congr 1
      rw [classifyTargets_p, exclusionZones_snd]
      unfold targetAttributes
      rw [List.map_map, List.countP_map]
      apply List.countP_congr
      intro t ht
      simp only [List.mem_cons, List.mem_singleton, List.not_mem_nil, or_false] at ht
      have hte : t.zone_ex_enter = false := by
        rcases ht with rfl | rfl | rfl <;> rfl
      obtain ⟨-, -, -, -, a5, a6, -⟩ := targetAttribute_fields cfg.speed_threshold
        (if (cfg.zone_ex_enable 0 && (loadZoneEx cfg 0).isConfigured && t.valid &&
          check_targets_in_zone (loadZoneEx cfg 0) t cfg.wall_angle) = true
          then { t with zone_ex_enter := true } else t)
      simp only [Function.comp, a5, a6]
      rw [check_false_of_not_valid _ hinv0]
      simp [hte]

end

/-- Witness of the amended C12: inclusion zone 0 of `misconfiguredConfig`
(width 1000, height 0) on `sampleChunk`. -/
theorem invalid_zone_tallies_witness :
    30 ≤ sampleChunk.length ∧
    ∃ fr z, classifyFrame misconfiguredConfig sampleChunk = some fr ∧ z ∈ fr.zone ∧
      z.isValid = false ∧ z.isConfigured = true ∧ z.target_count = 0 ∧ z.has_target = false ∧
      z.outside_target_count = fr.all_target_counts := by
  refine ⟨by decide, ?_⟩
  obtain ⟨fr, h1, h2, -⟩ := invalid_zone_tallies misconfiguredConfig sampleChunk (by decide)
  have e := classifyFrame_eq misconfiguredConfig sampleChunk (by decide)
  rw [h1] at e
  simp only [Option.some.injEq] at e
  have hz := classifyTargets_zone_getElem misconfiguredConfig
    [targetAt (F := ℝ) sampleChunk 0, targetAt sampleChunk 8, targetAt sampleChunk 16] 0
    (by decide)
  rw [← e, if_pos (show misconfiguredConfig.zone_fn_enable = true from rfl)] at hz
  obtain ⟨fx, fy, fw, fh, -⟩ := inclusionZone_fields misconfiguredConfig
    misconfiguredConfig.wall_angle
    (exclusionZones misconfiguredConfig misconfiguredConfig.wall_angle (List.range NUM_ZONES_EX)
      [targetAt (F := ℝ) sampleChunk 0, targetAt sampleChunk 8, targetAt sampleChunk 16]).2 0
  have hmem := List.mem_iff_getElem?.2 ⟨0, hz⟩
  have hinv := (isValid_congr _ (loadZone misconfiguredConfig 0) fx fy fw fh).trans
    (show (loadZone misconfiguredConfig 0).isValid = false by decide)
  have hconf := (isConfigured_congr _ (loadZone misconfiguredConfig 0) fw fh).trans
    (show (loadZone misconfiguredConfig 0).isConfigured = true by decide)
  obtain ⟨a, b, -, d⟩ := h2 _ hmem hinv
  exact ⟨fr, _, h1, hmem, hinv, hconf, a, b, d hconf⟩


/-! ## The paths of one invocation -/

section
variable {F : Type} [FloatOps F]

/-- The buffering path: fewer than 48 bytes after the append. -/
theorem process_buffering (cfg : Config F) (now : Nat) (bytes : List Byte) (s : State)
    (h : (s.packet_buffer ++ bytes).length < FULL_PACKET_SIZE) :
    process_ld2450_data cfg now bytes s =
      some ({ s with packet_buffer := s.packet_buffer ++ bytes }, []) := by
  unfold process_ld2450_data
  simp only [if_pos h]

/-- The rejected path: a frame is extracted and the interval gate is closed. -/
theorem process_rejected (cfg : Config F) (now : Nat) (bytes : List Byte) (s : State)
    (h48 : FULL_PACKET_SIZE ≤ (s.packet_buffer ++ bytes).length)
    (hgate : (usub now s.last_update : ℚ) ≤ cfg.update_interval_ms) :
    process_ld2450_data cfg now bytes s =
      some ({ s with packet_buffer := (s.packet_buffer ++ bytes).drop FULL_PACKET_SIZE }, []) := by
  unfold process_ld2450_data
  simp only [if_neg (Nat.not_lt.2 h48), if_pos hgate]

/-- The packet-error path: the gate is open and the chunk is undersized. -/
theorem process_error (cfg : Config F) (now : Nat) (bytes : List Byte) (s : State)
    (h48 : FULL_PACKET_SIZE ≤ (s.packet_buffer ++ bytes).length)
    (hgate : ¬ ((usub now s.last_update : ℚ) ≤ cfg.update_interval_ms))
    (h30 : bytes.length < MIN_PACKET_SIZE) :
    process_ld2450_data cfg now bytes s =
      some ({ (rateReporter (F := F) now
                { s with packet_buffer := (s.packet_buffer ++ bytes).drop FULL_PACKET_SIZE
                         last_update := now }).1 with
              packet_error_count := uadd (rateReporter (F := F) now
                { s with packet_buffer := (s.packet_buffer ++ bytes).drop FULL_PACKET_SIZE
                         last_update := now }).1.packet_error_count 1 },
            (rateReporter (F := F) now
                { s with packet_buffer := (s.packet_buffer ++ bytes).drop FULL_PACKET_SIZE
                         last_update := now }).2 ++
            [Pub.packet_errors (uadd (rateReporter (F := F) now
                { s with packet_buffer := (s.packet_buffer ++ bytes).drop FULL_PACKET_SIZE
                         last_update := now }).1.packet_error_count 1),
             Pub.radar_status "Packet Error"]) := by
  unfold process_ld2450_data
  simp only [if_neg (Nat.not_lt.2 h48), if_neg hgate, if_pos h30]

/-- Every invocation returns. -/
theorem process_total (cfg : Config F) (now : Nat) (bytes : List Byte) (s : State) :
    ∃ r, process_ld2450_data cfg now bytes s = some r := by
  by_cases h48 : (s.packet_buffer ++ bytes).length < FULL_PACKET_SIZE
  · exact ⟨_, process_buffering cfg now bytes s h48⟩
  · by_cases hgate : (usub now s.last_update : ℚ) ≤ cfg.update_interval_ms
    · exact ⟨_, process_rejected cfg now bytes s (Nat.not_lt.1 h48) hgate⟩
    · by_cases h30 : bytes.length < MIN_PACKET_SIZE
      · exact ⟨_, process_error cfg now bytes s (Nat.not_lt.1 h48) hgate h30⟩
      · exact ⟨_, process_accepted cfg now bytes s (Nat.not_lt.1 h48) hgate (Nat.not_lt.1 h30)⟩

omit [FloatOps F] in
theorem uadd_one_eq (c : Nat) (h : c + 1 < ULONG_MOD) : uadd c 1 = c + 1 := by
  unfold uadd
  exact Nat.mod_eq_of_lt h

omit [FloatOps F] in
/-- The rate reporter either publishes nothing and keeps the incremented
counter, or publishes one rate and resets the counter. -/
theorem rateReporter_cases (now : Nat) (s : State) :
    (usub now s.last_rate_calc < 1000 ∧
      (rateReporter (F := F) now s).2 = [] ∧
      (rateReporter (F := F) now s).1.update_counter = uadd s.update_counter 1 ∧
      (rateReporter (F := F) now s).1.last_rate_calc = s.last_rate_calc) ∨
    (1000 ≤ usub now s.last_rate_calc ∧
      (rateReporter (F := F) now s).2 =
        [Pub.update_rate (((uadd s.update_counter 1 : Nat) : ℚ) * 1000 /
          ((usub now s.last_rate_calc : Nat) : ℚ))] ∧
      (rateReporter (F := F) now s).1.update_counter = 0 ∧
      (rateReporter (F := F) now s).1.last_rate_calc = now) := by
  unfold rateReporter
  simp only []
  by_cases h : usub now s.last_rate_calc ≥ 1000
  · right
    rw [if_pos h]
    exact ⟨h, rfl, rfl, rfl⟩
  · left
    rw [if_neg h]
    exact ⟨Nat.not_le.1 h, rfl, rfl, rfl⟩

end

section
variable {F : Type} [FloatOps F]

omit [FloatOps F] in
theorem publishOverall_zones (c : Int) (b : Bool) (s : State) :
    (publishOverall (F := F) c b s).1.zone_target_count = s.zone_target_count ∧
    (publishOverall (F := F) c b s).1.zone_target_exist = s.zone_target_exist ∧
    (publishOverall (F := F) c b s).1.zone_ex_target_count = s.zone_ex_target_count ∧
    (publishOverall (F := F) c b s).1.zone_ex_target_exist = s.zone_ex_target_exist := by
  unfold publishOverall
  split
  · exact ⟨rfl, rfl, rfl, rfl⟩
  · split <;> exact ⟨rfl, rfl, rfl, rfl⟩

/-- The target stage publishes to the seven target sinks only. -/
theorem publishTargets_sink (i : Nat) (p : List (Position F)) (e : Pub F)
    (he : e ∈ publishTargets i p) :
    e.sink = Sink.target_x ∨ e.sink = Sink.target_y ∨ e.sink = Sink.target_speed ∨
    e.sink = Sink.target_resolution ∨ e.sink = Sink.target_angle ∨
    e.sink = Sink.target_position ∨ e.sink = Sink.target_direction := by
  induction p generalizing i with
  | nil => simp [publishTargets] at he
  | cons t ts ih =>
    unfold publishTargets at he
    rcases List.mem_append.1 he with h | h
    · unfold publishTarget at h
      split at h
      · simp only [List.mem_cons, List.mem_singleton, List.not_mem_nil, or_false] at h
        rcases h with rfl | rfl | rfl | rfl | rfl | rfl | rfl <;> simp [Pub.sink]
      · simp only [List.mem_cons, List.mem_singleton, List.not_mem_nil, or_false] at h
        rcases h with rfl | rfl | rfl | rfl <;> simp [Pub.sink]
    · exact ih _ h

theorem publishTargetData_sink (cfg : Config F) (p : List (Position F)) (e : Pub F)
    (he : e ∈ publishTargetData cfg p) :
    e.sink = Sink.target_x ∨ e.sink = Sink.target_y ∨ e.sink = Sink.target_speed ∨
    e.sink = Sink.target_resolution ∨ e.sink = Sink.target_angle ∨
    e.sink = Sink.target_position ∨ e.sink = Sink.target_direction := by
  unfold publishTargetData at he
  split at he
  · exact publishTargets_sink _ _ _ he
  · simp at he

/-- Every publish call of a classified frame: a target call, the aggregate
count or flag, a zone count or flag, an exclusion-zone count or flag, or the
ready status, each with the condition under which it is made. -/
theorem publishFrame_mem (cfg : Config F) (fr : Frame F) (s : State) (e : Pub F) :
    e ∈ (publishFrame cfg fr s).2 ↔
      e ∈ publishTargetData cfg fr.p ∨
      (e = Pub.all_target_count fr.all_target_counts ∧
        s.all_target_count ≠ (fr.all_target_counts : ℚ)) ∨
      (e = Pub.any_target_exist fr.has_target_in_zone_all ∧
        (s.all_target_count ≠ (fr.all_target_counts : ℚ) ∨
          s.any_target_exist ≠ fr.has_target_in_zone_all)) ∨
      (∃ j z, fr.zone[j]? = some z ∧ s.zone_target_count j ≠ (z.target_count : ℚ) ∧
        (e = Pub.zone_target_count j z.target_count ∨
         e = Pub.zone_target_exist j z.has_target)) ∨
      (∃ j z, fr.zone_ex[j]? = some z ∧
        ((s.zone_ex_target_count j ≠ (z.target_count : ℚ) ∧
            e = Pub.zone_ex_target_count j z.target_count) ∨
         (s.zone_ex_target_exist j ≠ z.has_target ∧
            e = Pub.zone_ex_target_exist j z.has_target))) ∨
      (e = Pub.radar_status "Ready" ∧ s.init_zone_publish = false) := by
  have ho := publishOverall_core (F := F) fr.all_target_counts fr.has_target_in_zone_all s
  have hoz := publishOverall_zones (F := F) fr.all_target_counts fr.has_target_in_zone_all s
  have hz := publishZones_core (F := F) 0 fr.zone
    (publishOverall (F := F) fr.all_target_counts fr.has_target_in_zone_all s).1
  have hx := publishZonesEx_core (F := F) 0 fr.zone_ex
    (publishZones (F := F) 0 fr.zone
      (publishOverall (F := F) fr.all_target_counts fr.has_target_in_zone_all s).1).1
  have e1 : (publishFrame cfg fr s).2 =
      publishTargetData cfg fr.p ++
      (publishOverall (F := F) fr.all_target_counts fr.has_target_in_zone_all s).2 ++
      (publishZones (F := F) 0 fr.zone
        (publishOverall (F := F) fr.all_target_counts fr.has_target_in_zone_all s).1).2 ++
      (publishZonesEx (F := F) 0 fr.zone_ex
        (publishZones (F := F) 0 fr.zone
          (publishOverall (F := F) fr.all_target_counts fr.has_target_in_zone_all s).1).1).2 ++
      (publishReady (F := F) (publishZonesEx (F := F) 0 fr.zone_ex
        (publishZones (F := F) 0 fr.zone
          (publishOverall (F := F) fr.all_target_counts
            fr.has_target_in_zone_all s).1).1).1).2 := rfl
  rw [e1]
  simp only [List.mem_append, publishOverall_mem, publishZones_mem, publishZonesEx_mem,
    publishReady_mem, Nat.zero_add]
  rw [hx.2.2.2.2.1, hz.2.2.2.2.1, ho.2.2.2.2, hz.2.2.2.2.2.2.2.1, hz.2.2.2.2.2.2.2.2,
    hoz.1, hoz.2.2.1, hoz.2.2.2]
  simp only [or_assoc]

/-- The state after a classified frame: the ready flag is set and the
aggregate sinks hold the frame's values. -/
theorem publishFrame_state (cfg : Config F) (fr : Frame F) (s : State) :
    (publishFrame cfg fr s).1.init_zone_publish = true ∧
    (publishFrame cfg fr s).1.all_target_count = (fr.all_target_counts : ℚ) ∧
    (publishFrame cfg fr s).1.any_target_exist = fr.has_target_in_zone_all := by
  have ho := publishOverall_state (F := F) fr.all_target_counts fr.has_target_in_zone_all s
  have hz := publishZones_core (F := F) 0 fr.zone
    (publishOverall (F := F) fr.all_target_counts fr.has_target_in_zone_all s).1
  have hx := publishZonesEx_core (F := F) 0 fr.zone_ex
    (publishZones (F := F) 0 fr.zone
      (publishOverall (F := F) fr.all_target_counts fr.has_target_in_zone_all s).1).1
  have hr := publishReady_core (F := F) (publishZonesEx (F := F) 0 fr.zone_ex
    (publishZones (F := F) 0 fr.zone
      (publishOverall (F := F) fr.all_target_counts fr.has_target_in_zone_all s).1).1).1
  have e1 : (publishFrame cfg fr s).1 =
      (publishReady (F := F) (publishZonesEx (F := F) 0 fr.zone_ex
        (publishZones (F := F) 0 fr.zone
          (publishOverall (F := F) fr.all_target_counts
            fr.has_target_in_zone_all s).1).1).1).1 := rfl
  rw [e1]
  refine ⟨publishReady_state _, ?_, ?_⟩
  · rw [hr.2.2.2.2.1, hx.2.2.2.2.2.1, hz.2.2.2.2.2.1]
    exact ho.1
  · rw [hr.2.2.2.2.2.1, hx.2.2.2.2.2.2.1, hz.2.2.2.2.2.2.1]
    exact ho.2

end


/-! ## The packet-error path -/

section
variable {F : Type} [FloatOps F]

end

section
variable {F : Type} [FloatOps F]

/-- A classified frame publishes neither to the rate sink nor to the error
sink, and its only status text is "Ready", published when the ready flag is
still false. -/
theorem publishFrame_sink (cfg : Config F) (fr : Frame F) (s : State) (e : Pub F)
    (he : e ∈ (publishFrame cfg fr s).2) :
    e.sink ≠ Sink.update_rate ∧ e.sink ≠ Sink.packet_errors ∧
    (e.sink = Sink.radar_status → e = Pub.radar_status "Ready" ∧ s.init_zone_publish = false) := by
  rcases (publishFrame_mem cfg fr s e).1 he with h | ⟨rfl, -⟩ | ⟨rfl, -⟩ | ⟨j, z, -, -, rfl | rfl⟩ |
    ⟨j, z, -, ⟨-, rfl⟩ | ⟨-, rfl⟩⟩ | ⟨rfl, h⟩
  · have := publishTargetData_sink cfg fr.p e h
    rcases this with h | h | h | h | h | h | h <;> simp [h]
  all_goals simp [Pub.sink]
  exact h

omit [FloatOps F] in
theorem filter_sink_nil (k : Sink) (l : List (Pub F)) (h : ∀ e ∈ l, e.sink ≠ k) :
    l.filter (fun e => decide (e.sink = k)) = [] := by
  induction l with
  | nil => rfl
  | cons a l ih =>
    rw [List.filter_cons_of_neg (by simpa using h a (List.mem_cons_self _ _))]
    exact ih (fun e he => h e (List.mem_cons_of_mem _ he))

omit [FloatOps F] in
theorem publishCount_append (k : Sink) (l1 l2 : List (Pub F)) :
    publishCount k (l1 ++ l2) = publishCount k l1 + publishCount k l2 := by
  unfold publishCount
  exact List.countP_append _ _ _

omit [FloatOps F] in
theorem publishCount_zero (k : Sink) (l : List (Pub F)) (h : ∀ e ∈ l, e.sink ≠ k) :
    publishCount k l = 0 := by
  unfold publishCount
  rw [List.countP_eq_length_filter, filter_sink_nil k l h]
  rfl

/-- C18: every accepted invocation (whether it then takes the packet-error
path or classifies the frame) returns; `update_counter` is first incremented
by one in `unsigned long` arithmetic, which is plus one whenever that is below
2^32.  If the unsigned difference `now - last_rate_calc` is at least 1000, the
only publish call to the rate sink is the rational
`(update_counter * 1000) / (now - last_rate_calc)` with the incremented
counter, and afterwards `update_counter = 0` and `last_rate_calc = now`; the
divisor is not zero.  Otherwise nothing is published to the rate sink,
`last_rate_calc` is unchanged and `update_counter` holds the incremented
value. -/
theorem rate_reporter (cfg : Config F) (now : Nat) (bytes : List Byte) (s : State)
    (h48 : 48 ≤ (s.packet_buffer ++ bytes).length)
    (hgate : ¬ ((usub now s.last_update : ℚ) ≤ cfg.update_interval_ms)) :
    ∃ s' out, process_ld2450_data cfg now bytes s = some (s', out) ∧
      (1000 ≤ usub now s.last_rate_calc →
        out.filter (fun e => decide (e.sink = Sink.update_rate)) =
          [Pub.update_rate (((uadd s.update_counter 1 : Nat) : ℚ) * 1000 /
            ((usub now s.last_rate_calc : Nat) : ℚ))] ∧
        s'.update_counter = 0 ∧ s'.last_rate_calc = now ∧
        ((usub now s.last_rate_calc : Nat) : ℚ) ≠ 0) ∧
      (usub now s.last_rate_calc < 1000 →
        publishCount Sink.update_rate out = 0 ∧
        s'.last_rate_calc = s.last_rate_calc ∧
        s'.update_counter = uadd s.update_counter 1) ∧
      (s.update_counter + 1 < 2 ^ 32 → uadd s.update_counter 1 = s.update_counter + 1) := by
  have hr := rateReporter_cases (F := F) now
    { s with packet_buffer := (s.packet_buffer ++ bytes).drop FULL_PACKET_SIZE
             last_update := now }
  have hne : 1000 ≤ usub now s.last_rate_calc → ((usub now s.last_rate_calc : Nat) : ℚ) ≠ 0 := by
    intro h
    have : (0 : ℚ) < ((usub now s.last_rate_calc : Nat) : ℚ) := by
      exact_mod_cast (by omega : 0 < usub now s.last_rate_calc)
    exact ne_of_gt this
  by_cases h30 : bytes.length < MIN_PACKET_SIZE
  · rw [process_error cfg now bytes s h48 hgate h30]
    refine ⟨_, _, rfl, ?_, ?_, fun h => uadd_one_eq _ h⟩
    · intro h
      rcases hr with ⟨h1, -⟩ | ⟨-, h2, h3, h4⟩
      · exact absurd h (Nat.not_le.2 h1)
      · refine ⟨?_, h3, h4, hne h⟩
        rw [h2]
        rfl
    · intro h
      rcases hr with ⟨-, h2, h3, h4⟩ | ⟨h1, -⟩
      · refine ⟨?_, h4, h3⟩
        rw [h2]
        rfl
      · exact absurd h1 (Nat.not_le.2 h)
  · rw [process_accepted cfg now bytes s h48 hgate (Nat.not_lt.1 h30)]
    refine ⟨_, _, rfl, ?_, ?_, fun h => uadd_one_eq _ h⟩
    · intro h
      rcases hr with ⟨h1, -⟩ | ⟨-, h2, h3, h4⟩
      · exact absurd h (Nat.not_le.2 h1)
      · refine ⟨?_, ?_, ?_, hne h⟩
        · rw [List.filter_append,
            filter_sink_nil Sink.update_rate _ (fun e he => (publishFrame_sink _ _ _ e he).1), h2]
          rfl
        · rw [(publishFrame_core _ _ _).2.1]
          exact h3
        · rw [(publishFrame_core _ _ _).2.2.1]
          exact h4
    · intro h
      rcases hr with ⟨-, h2, h3, h4⟩ | ⟨h1, -⟩
      · refine ⟨?_, ?_, ?_⟩
        · rw [publishCount_append,
            publishCount_zero Sink.update_rate _ (fun e he => (publishFrame_sink _ _ _ e he).1), h2]
          rfl
        · rw [(publishFrame_core _ _ _).2.2.1]
          exact h4
        · rw [(publishFrame_core _ _ _).2.1]
          exact h3
      · exact absurd h1 (Nat.not_le.2 h)

/-- One invocation and the ready flag: a classified invocation sets the flag
and publishes "Ready" exactly when the flag was false; any other invocation
leaves the flag alone and publishes no status text but "Packet Error". -/
theorem process_status (cfg : Config F) (now : Nat) (bytes : List Byte) (s : State) :
    ∃ s' out, process_ld2450_data cfg now bytes s = some (s', out) ∧
      ((48 ≤ (s.packet_buffer ++ bytes).length ∧
          ¬ ((usub now s.last_update : ℚ) ≤ cfg.update_interval_ms) ∧ 30 ≤ bytes.length) →
        s'.init_zone_publish = true ∧
        ∀ v, Pub.radar_status v ∈ out ↔ (v = "Ready" ∧ s.init_zone_publish = false)) ∧
      (¬ (48 ≤ (s.packet_buffer ++ bytes).length ∧
          ¬ ((usub now s.last_update : ℚ) ≤ cfg.update_interval_ms) ∧ 30 ≤ bytes.length) →
        s'.init_zone_publish = s.init_zone_publish ∧
        ∀ v, Pub.radar_status v ∈ out → v = "Packet Error") := by
  by_cases h48 : (s.packet_buffer ++ bytes).length < FULL_PACKET_SIZE
  · refine ⟨_, _, process_buffering cfg now bytes s h48, fun h => ?_, fun _ => ⟨rfl, ?_⟩⟩
    · exact absurd h.1 (Nat.not_le.2 h48)
    · intro v hv
      simp at hv
  · by_cases hgate : (usub now s.last_update : ℚ) ≤ cfg.update_interval_ms
    · refine ⟨_, _, process_rejected cfg now bytes s (Nat.not_lt.1 h48) hgate,
        fun h => absurd hgate h.2.1, fun _ => ⟨rfl, ?_⟩⟩
      intro v hv
      simp at hv
    · by_cases h30 : bytes.length < MIN_PACKET_SIZE
      · refine ⟨_, _, process_error cfg now bytes s (Nat.not_lt.1 h48) hgate h30,
          fun h => absurd h.2.2 (Nat.not_le.2 h30), fun _ => ⟨(rateReporter_core _ _).2.2.1, ?_⟩⟩
        intro v hv
        rcases List.mem_append.1 hv with h | h
        · have := rateReporter_sink _ _ _ h
          simp [Pub.sink] at this
        · simpa using h
      · refine ⟨_, _, process_accepted cfg now bytes s (Nat.not_lt.1 h48) hgate (Nat.not_lt.1 h30),
          fun _ => ⟨(publishFrame_state _ _ _).1, ?_⟩,
          fun h => absurd ⟨Nat.not_lt.1 h48, hgate, Nat.not_lt.1 h30⟩ h⟩
        intro v
        constructor
        · intro hv
          rcases List.mem_append.1 hv with h | h
          · have := rateReporter_sink _ _ _ h
            simp [Pub.sink] at this
          · have := (publishFrame_sink _ _ _ _ h).2.2 rfl
            rw [(rateReporter_core _ _).2.2.1] at this
            exact ⟨by simpa using this.1, this.2⟩
        · rintro ⟨rfl, hf⟩
          apply List.mem_append_right
          rw [publishFrame_mem]
          refine Or.inr (Or.inr (Or.inr (Or.inr (Or.inr ⟨rfl, ?_⟩))))
          rw [(rateReporter_core _ _).2.2.1]
          exact hf

/-- Once the ready flag is true, every run of invocations returns with the
flag true and publishes no status text but "Packet Error". -/
theorem run_after_ready (cs : List (Call F)) (s : State) (h : s.init_zone_publish = true) :
    ∃ s' out, runCalls cs s = some (s', out) ∧ s'.init_zone_publish = true ∧
      ∀ v, Pub.radar_status v ∈ out → v = "Packet Error" := by
  induction cs generalizing s with
  | nil => exact ⟨s, [], rfl, h, fun v hv => by simp at hv⟩
  | cons c cs ih =>
    obtain ⟨s1, o1, h1, ha, hb⟩ := process_status c.cfg c.current_time c.bytes s
    have hs1 : s1.init_zone_publish = true := by
      by_cases hc : (48 ≤ (s.packet_buffer ++ c.bytes).length ∧
          ¬ ((usub c.current_time s.last_update : ℚ) ≤ c.cfg.update_interval_ms) ∧
          30 ≤ c.bytes.length)
      · exact (ha hc).1
      · rw [(hb hc).1]
        exact h
    have ho1 : ∀ v, Pub.radar_status v ∈ o1 → v = "Packet Error" := by
      intro v hv
      by_cases hc : (48 ≤ (s.packet_buffer ++ c.bytes).length ∧
          ¬ ((usub c.current_time s.last_update : ℚ) ≤ c.cfg.update_interval_ms) ∧
          30 ≤ c.bytes.length)
      · have := (((ha hc).2 v).1 hv).2
        rw [h] at this
        cases this
      · exact (hb hc).2 v hv
    obtain ⟨s2, o2, h2, hs2, ho2⟩ := ih s1 hs1
    refine ⟨s2, o1 ++ o2, ?_, hs2, ?_⟩
    · unfold runCalls
      rw [h1]
      simp only [h2]
    · intro v hv
      rcases List.mem_append.1 hv with h | h
      · exact ho1 v h
      · exact ho2 v h

/-- C17: every invocation returns.  While the ready flag is false, an
invocation sets the flag, and publishes the status text "Ready", exactly when
it extracts a frame, is accepted by the interval gate and passes the size
check.  From every state where the flag is true, every run of later
invocations returns with the flag true, does not publish "Ready", and
publishes no status text other than "Packet Error". -/
theorem ready_latch (cfg : Config F) (now : Nat) (bytes : List Byte) (s : State) :
    (∃ s' out, process_ld2450_data cfg now bytes s = some (s', out) ∧
      (s.init_zone_publish = false →
        ((s'.init_zone_publish = true ↔
            (48 ≤ (s.packet_buffer ++ bytes).length ∧
              ¬ ((usub now s.last_update : ℚ) ≤ cfg.update_interval_ms) ∧
              30 ≤ bytes.length)) ∧
          (Pub.radar_status "Ready" ∈ out ↔
            (48 ≤ (s.packet_buffer ++ bytes).length ∧
              ¬ ((usub now s.last_update : ℚ) ≤ cfg.update_interval_ms) ∧
              30 ≤ bytes.length))))) ∧
    (s.init_zone_publish = true →
      ∀ cs : List (Call F), ∃ s' out, runCalls cs s = some (s', out) ∧
        s'.init_zone_publish = true ∧ Pub.radar_status "Ready" ∉ out ∧
        ∀ v, Pub.radar_status v ∈ out → v = "Packet Error") := by
  constructor
  · obtain ⟨s', out, h1, ha, hb⟩ := process_status cfg now bytes s
    refine ⟨s', out, h1, fun hf => ⟨⟨fun ht => ?_, fun hc => (ha hc).1⟩,
      ⟨fun hm => ?_, fun hc => ((ha hc).2 _).2 ⟨rfl, hf⟩⟩⟩⟩
    · by_contra hc
      rw [(hb hc).1, hf] at ht
      cases ht
    · by_contra hc
      have := (hb hc).2 _ hm
      exact absurd this (by decide)
  · intro ht cs
    obtain ⟨s', out, h1, h2, h3⟩ := run_after_ready cs s ht
    refine ⟨s', out, h1, h2, fun hm => ?_, h3⟩
    exact absurd (h3 _ hm) (by decide)

/-- C19: replacing the value of `position_threshold` changes neither the
returned state nor the sequence of publish calls of an invocation; and in
every classified frame each valid target's direction is
`calculate_target_direction x y 100` and its movement state is
`calculate_target_position speed speed_threshold`. -/
theorem position_threshold_unused (cfg : Config F) (q : ℚ) (now : Nat) (bytes : List Byte)
    (s : State) :
    process_ld2450_data { cfg with position_threshold := q } now bytes s =
      process_ld2450_data cfg now bytes s ∧
    ∀ fr, classifyFrame cfg bytes = some fr → ∀ t ∈ fr.p, t.valid = true →
      t.direction = calculate_target_direction t.x t.y 100 ∧
      t.position = calculate_target_position t.speed cfg.speed_threshold := by
  refine ⟨rfl, ?_⟩
  intro fr hfr t ht hv
  unfold classifyFrame at hfr
  cases hp : parseTargets (F := F) bytes NUM_TARGETS 0 with
  | none => simp [hp] at hfr
  | some p =>
    simp only [hp, Option.bind_eq_bind, Option.some_bind, Option.pure_def, Option.some.injEq] at hfr
    subst hfr
    rw [classifyTargets_p] at ht
    unfold targetAttributes at ht
    obtain ⟨t0, -, rfl⟩ := List.mem_map.1 ht
    have hf := targetAttribute_fields cfg.speed_threshold t0
    have hv0 : t0.valid = true := by rw [← hf.2.2.2.2.1]; exact hv
    obtain ⟨-, h2, h3⟩ := hf.2.2.2.2.2.2 hv0
    rw [h2, h3, hf.1, hf.2.1, hf.2.2.1]
    exact ⟨rfl, rfl⟩

end

set_option maxRecDepth 100000 in
/-- C18 at a concrete input: a 30-byte chunk completing a frame at time 2000
with `last_rate_calc = 0`: the rate window is over, the counter is reset and
the window restarts at 2000. -/
theorem rate_reporter_witness :
    ∃ s' out, process_ld2450_data sampleConfig 2000 sampleChunk
        { initialState with packet_buffer := List.replicate 18 0 } = some (s', out) ∧
      s'.update_counter = 0 ∧ s'.last_rate_calc = 2000 :=
  match rate_reporter sampleConfig 2000 sampleChunk
      { initialState with packet_buffer := List.replicate 18 0 } (by decide) (by decide) with
  | ⟨s', out, h1, h2, _, _⟩ =>
    ⟨s', out, h1, (h2 (by decide)).2.1, (h2 (by decide)).2.2.1⟩


/-! ## Publishing on change -/

set_option maxRecDepth 100000 in
/-- C16 fails on the presence flags.  With the aggregate sinks holding count 2
and flag true, a classified frame with one valid target publishes the count 1
and publishes the unchanged flag true again; and with zone 0's sinks holding
count 1 and flag true, the zone stage for a zone with count 2 publishes the
count 2 and publishes the unchanged flag true again. -/
theorem unchanged_flag_republished :
    (process_ld2450_data sampleConfig 2000 sampleChunk
        { initialState with packet_buffer := List.replicate 18 0
                            all_target_count := 2
                            any_target_exist := true }).map
      (fun r => (calls r.2).filter (fun e =>
        decide (e.sink = Sink.all_target_count) || decide (e.sink = Sink.any_target_exist))) =
      some [Pub.all_target_count 1, Pub.any_target_exist true] ∧
    (publishZones (F := ℝ) 0 [{ target_count := 2, has_target := true }]
        { initialState with zone_target_count := fun _ => 1
                            zone_target_exist := fun _ => true }).2 =
      [Pub.zone_target_count 0 2, Pub.zone_target_exist 0 true] := by
  refine ⟨?_, ?_⟩ <;> with_unfolding_all decide

section
variable {F : Type} [FloatOps F]

omit [FloatOps F] in
theorem publishOverall_count (c : Int) (b : Bool) (s : State) :
    publishCount Sink.all_target_count (publishOverall (F := F) c b s).2 =
      if s.all_target_count ≠ (c : ℚ) then 1 else 0 := by
  unfold publishOverall
  by_cases h1 : s.all_target_count ≠ (c : ℚ)
  · rw [if_pos h1, if_pos h1]
    rfl
  · rw [if_neg h1, if_neg h1]
    by_cases h2 : s.any_target_exist ≠ b
    · rw [if_pos h2]
      rfl
    · rw [if_neg h2]
      rfl

/-- The number of publish calls a classified frame makes to the aggregate
count sink: one if the value held differs from the frame's count, else none. -/
theorem publishFrame_count (cfg : Config F) (fr : Frame F) (s : State) :
    publishCount Sink.all_target_count (publishFrame cfg fr s).2 =
      if s.all_target_count ≠ (fr.all_target_counts : ℚ) then 1 else 0 := by
  have e1 : (publishFrame cfg fr s).2 =
      publishTargetData cfg fr.p ++
      (publishOverall (F := F) fr.all_target_counts fr.has_target_in_zone_all s).2 ++
      (publishZones (F := F) 0 fr.zone
        (publishOverall (F := F) fr.all_target_counts fr.has_target_in_zone_all s).1).2 ++
      (publishZonesEx (F := F) 0 fr.zone_ex
        (publishZones (F := F) 0 fr.zone
          (publishOverall (F := F) fr.all_target_counts fr.has_target_in_zone_all s).1).1).2 ++
      (publishReady (F := F) (publishZonesEx (F := F) 0 fr.zone_ex
        (publishZones (F := F) 0 fr.zone
          (publishOverall (F := F) fr.all_target_counts
            fr.has_target_in_zone_all s).1).1).1).2 := rfl
  rw [e1, publishCount_append, publishCount_append, publishCount_append, publishCount_append,
    publishOverall_count]
  rw [publishCount_zero Sink.all_target_count (publishTargetData cfg fr.p),
    publishCount_zero Sink.all_target_count (publishZones (F := F) 0 fr.zone _).2,
    publishCount_zero Sink.all_target_count (publishZonesEx (F := F) 0 fr.zone_ex _).2,
    publishCount_zero Sink.all_target_count (publishReady (F := F) _).2]
  · simp
  · intro e he
    obtain ⟨rfl, -⟩ := (publishReady_mem _ e).1 he
    simp [Pub.sink]
  · intro e he
    obtain ⟨j, z, -, ⟨-, rfl⟩ | ⟨-, rfl⟩⟩ := (publishZonesEx_mem _ _ _ e).1 he <;> simp [Pub.sink]
  · intro e he
    obtain ⟨j, z, -, -, rfl | rfl⟩ := (publishZones_mem _ _ _ e).1 he <;> simp [Pub.sink]
  · intro e he
    rcases publishTargetData_sink cfg fr.p e he with h | h | h | h | h | h | h <;> simp [h]

/-- A classified invocation: it returns, makes one publish call to the
aggregate count sink if the value held differs from the frame's count and
none otherwise, and leaves the frame's count in that sink. -/
theorem process_count (cfg : Config F) (now : Nat) (bytes : List Byte) (s : State)
    (fr : Frame F)
    (h48 : 48 ≤ (s.packet_buffer ++ bytes).length)
    (hgate : ¬ ((usub now s.last_update : ℚ) ≤ cfg.update_interval_ms))
    (h30 : 30 ≤ bytes.length)
    (hfr : classifyFrame cfg bytes = some fr) :
    ∃ t o, process_ld2450_data cfg now bytes s = some (t, o) ∧
      publishCount Sink.all_target_count o =
        (if s.all_target_count ≠ (fr.all_target_counts : ℚ) then 1 else 0) ∧
      t.all_target_count = (fr.all_target_counts : ℚ) := by
  rw [classifyFrame_eq cfg bytes h30] at hfr
  simp only [Option.some.injEq] at hfr
  subst hfr
  refine ⟨_, _, process_accepted cfg now bytes s h48 hgate h30, ?_, (publishFrame_state _ _ _).2.1⟩
  rw [publishCount_append, publishFrame_count,
    publishCount_zero Sink.all_target_count _ (fun e he => by
      rw [rateReporter_sink _ _ e he]
      decide),
    (rateReporter_core _ _).2.2.2.1, Nat.zero_add]

/-- C15: three classified invocations whose frames have the aggregate counts
`c`, `c`, `d` with `d ≠ c`, each finding in the aggregate count sink the value
the previous one left there, the first finding a value different from `c`:
all three return, the first two together make exactly one publish call to the
aggregate count sink, and the third makes exactly one. -/
theorem aggregate_count_published_once (k1 k2 k3 : Call F) (s1 s2 s3 : State)
    (fr1 fr2 fr3 : Frame F) (c d : Int)
    (a1 : 48 ≤ (s1.packet_buffer ++ k1.bytes).length ∧
      ¬ ((usub k1.current_time s1.last_update : ℚ) ≤ k1.cfg.update_interval_ms) ∧
      30 ≤ k1.bytes.length)
    (a2 : 48 ≤ (s2.packet_buffer ++ k2.bytes).length ∧
      ¬ ((usub k2.current_time s2.last_update : ℚ) ≤ k2.cfg.update_interval_ms) ∧
      30 ≤ k2.bytes.length)
    (a3 : 48 ≤ (s3.packet_buffer ++ k3.bytes).length ∧
      ¬ ((usub k3.current_time s3.last_update : ℚ) ≤ k3.cfg.update_interval_ms) ∧
      30 ≤ k3.bytes.length)
    (f1 : classifyFrame k1.cfg k1.bytes = some fr1 ∧ fr1.all_target_counts = c)
    (f2 : classifyFrame k2.cfg k2.bytes = some fr2 ∧ fr2.all_target_counts = c)
    (f3 : classifyFrame k3.cfg k3.bytes = some fr3 ∧ fr3.all_target_counts = d)
    (hd : d ≠ c) (h0 : s1.all_target_count ≠ (c : ℚ))
    (h12 : ∀ t o, process_ld2450_data k1.cfg k1.current_time k1.bytes s1 = some (t, o) →
      s2.all_target_count = t.all_target_count)
    (h23 : ∀ t o, process_ld2450_data k2.cfg k2.current_time k2.bytes s2 = some (t, o) →
      s3.all_target_count = t.all_target_count) :
    ∃ t1 o1 t2 o2 t3 o3,
      process_ld2450_data k1.cfg k1.current_time k1.bytes s1 = some (t1, o1) ∧
      process_ld2450_data k2.cfg k2.current_time k2.bytes s2 = some (t2, o2) ∧
      process_ld2450_data k3.cfg k3.current_time k3.bytes s3 = some (t3, o3) ∧
      publishCount Sink.all_target_count (o1 ++ o2) = 1 ∧
      publishCount Sink.all_target_count o3 = 1 := by
  obtain ⟨t1, o1, r1, c1, e1⟩ := process_count k1.cfg k1.current_time k1.bytes s1 fr1
    a1.1 a1.2.1 a1.2.2 f1.1
  obtain ⟨t2, o2, r2, c2, e2⟩ := process_count k2.cfg k2.current_time k2.bytes s2 fr2
    a2.1 a2.2.1 a2.2.2 f2.1
  obtain ⟨t3, o3, r3, c3, -⟩ := process_count k3.cfg k3.current_time k3.bytes s3 fr3
    a3.1 a3.2.1 a3.2.2 f3.1
  have g2 : s2.all_target_count = (c : ℚ) := by rw [h12 t1 o1 r1, e1, f1.2]
  have g3 : s3.all_target_count = (c : ℚ) := by rw [h23 t2 o2 r2, e2, f2.2]
  refine ⟨t1, o1, t2, o2, t3, o3, r1, r2, r3, ?_, ?_⟩
  · rw [publishCount_append, c1, c2, f1.2, f2.2, if_pos h0, if_neg (not_not.2 g2)]
  · rw [c3, f3.2, g3, if_pos]
    exact fun h => hd (by exact_mod_cast h.symm)

/-- C16 (amended): a classified invocation returns, and of its publish calls
to the aggregate and zone sinks: a value goes to the aggregate count sink, to
an inclusion zone's count sink, to an exclusion zone's count sink or to an
exclusion zone's presence sink only if it differs from the value that sink
held; the aggregate presence flag is published exactly when the aggregate
count is published or the flag differs from the value held; and the presence
flag of inclusion zone `j` is published exactly when that zone's count is
published, whether the flag differs from the value held or not. -/
theorem publish_on_change (cfg : Config F) (now : Nat) (bytes : List Byte) (s : State)
    (h48 : 48 ≤ (s.packet_buffer ++ bytes).length)
    (hgate : ¬ ((usub now s.last_update : ℚ) ≤ cfg.update_interval_ms))
    (h30 : 30 ≤ bytes.length) :
    ∃ fr s' out, classifyFrame cfg bytes = some fr ∧
      process_ld2450_data cfg now bytes s = some (s', out) ∧
      (∀ v, Pub.all_target_count v ∈ out →
        v = fr.all_target_counts ∧ s.all_target_count ≠ (v : ℚ)) ∧
      (∀ b, Pub.any_target_exist b ∈ out ↔
        (b = fr.has_target_in_zone_all ∧
          (Pub.all_target_count fr.all_target_counts ∈ out ∨ s.any_target_exist ≠ b))) ∧
      (∀ j v, Pub.zone_target_count j v ∈ out →
        (∃ z, fr.zone[j]? = some z ∧ v = z.target_count) ∧ s.zone_target_count j ≠ (v : ℚ)) ∧
      (∀ j b, Pub.zone_target_exist j b ∈ out ↔
        ∃ z, fr.zone[j]? = some z ∧ b = z.has_target ∧
          Pub.zone_target_count j z.target_count ∈ out) ∧
      (∀ j v, Pub.zone_ex_target_count j v ∈ out →
        (∃ z, fr.zone_ex[j]? = some z ∧ v = z.target_count) ∧
          s.zone_ex_target_count j ≠ (v : ℚ)) ∧
      (∀ j b, Pub.zone_ex_target_exist j b ∈ out →
        (∃ z, fr.zone_ex[j]? = some z ∧ b = z.has_target) ∧ s.zone_ex_target_exist j ≠ b) := by
  have hm : ∀ e : Pub F, e.sink ≠ Sink.update_rate →
      (e ∈ (rateReporter (F := F) now
          { s with packet_buffer := (s.packet_buffer ++ bytes).drop FULL_PACKET_SIZE
                   last_update := now }).2 ++
        (publishFrame cfg
          (classifyTargets cfg [targetAt bytes 0, targetAt bytes 8, targetAt bytes 16])
          (rateReporter (F := F) now
            { s with packet_buffer := (s.packet_buffer ++ bytes).drop FULL_PACKET_SIZE
                     last_update := now }).1).2 ↔
       e ∈ (publishFrame cfg
          (classifyTargets cfg [targetAt bytes 0, targetAt bytes 8, targetAt bytes 16])
          (rateReporter (F := F) now
            { s with packet_buffer := (s.packet_buffer ++ bytes).drop FULL_PACKET_SIZE
                     last_update := now }).1).2) := by
    intro e he
    rw [List.mem_append]
    constructor
    · rintro (h | h)
      · exact absurd (rateReporter_sink _ _ _ h) he
      · exact h
    · exact Or.inr
  have hr := rateReporter_core (F := F) now
    { s with packet_buffer := (s.packet_buffer ++ bytes).drop FULL_PACKET_SIZE
             last_update := now }
  refine ⟨_, _, _, classifyFrame_eq cfg bytes h30, process_accepted cfg now bytes s h48 hgate h30,
    ?_, ?_, ?_, ?_, ?_, ?_⟩
  · intro v hv
    rw [hm _ (by simp [Pub.sink]), publishFrame_mem, hr.2.2.2.1] at hv
    rcases hv with h | ⟨h, h'⟩ | ⟨h, -⟩ | ⟨j, z, -, -, h | h⟩ | ⟨j, z, -, ⟨-, h⟩ | ⟨-, h⟩⟩ | ⟨h, -⟩
    · have := publishTargetData_sink _ _ _ h
      simp [Pub.sink] at this
    · simp only [Pub.all_target_count.injEq] at h
      subst h
      exact ⟨rfl, h'⟩
    all_goals cases h
  · intro b
    rw [hm _ (by simp [Pub.sink]), hm _ (by simp [Pub.sink]), publishFrame_mem, publishFrame_mem,
      hr.2.2.2.1, hr.2.2.2.2.1]
    constructor
    · rintro (h | ⟨h, -⟩ | ⟨h, h'⟩ | ⟨j, z, -, -, h | h⟩ | ⟨j, z, -, ⟨-, h⟩ | ⟨-, h⟩⟩ | ⟨h, -⟩)
      · have := publishTargetData_sink _ _ _ h
        simp [Pub.sink] at this
      · cases h
      · simp only [Pub.any_target_exist.injEq] at h
        subst h
        refine ⟨rfl, ?_⟩
        rcases h' with h' | h'
        · exact Or.inl (Or.inr (Or.inl ⟨rfl, h'⟩))
        · exact Or.inr h'
      all_goals cases h
    · rintro ⟨rfl, h | h⟩
      · rcases h with h | ⟨-, h'⟩ | ⟨h, -⟩ | ⟨j, z, -, -, h | h⟩ |
          ⟨j, z, -, ⟨-, h⟩ | ⟨-, h⟩⟩ | ⟨h, -⟩
        · have := publishTargetData_sink _ _ _ h
          simp [Pub.sink] at this
        · exact Or.inr (Or.inr (Or.inl ⟨rfl, Or.inl h'⟩))
        all_goals cases h
      · exact Or.inr (Or.inr (Or.inl ⟨rfl, Or.inr h⟩))
  · intro j v hv
    rw [hm _ (by simp [Pub.sink]), publishFrame_mem, hr.2.2.2.2.2.1] at hv
    rcases hv with h | ⟨h, -⟩ | ⟨h, -⟩ | ⟨i, z, hz, hc, h | h⟩ | ⟨i, z, -, ⟨-, h⟩ | ⟨-, h⟩⟩ | ⟨h, -⟩
    · have := publishTargetData_sink _ _ _ h
      simp [Pub.sink] at this
    · cases h
    · cases h
    · simp only [Pub.zone_target_count.injEq] at h
      obtain ⟨rfl, rfl⟩ := h
      exact ⟨⟨z, hz, rfl⟩, hc⟩
    all_goals cases h
  · intro j b
    rw [hm _ (by simp [Pub.sink]), publishFrame_mem, hr.2.2.2.2.2.1]
    constructor
    · rintro (h | ⟨h, -⟩ | ⟨h, -⟩ | ⟨i, z, hz, hc, h | h⟩ | ⟨i, z, -, ⟨-, h⟩ | ⟨-, h⟩⟩ | ⟨h, -⟩)
      · have := publishTargetData_sink _ _ _ h
        simp [Pub.sink] at this
      · cases h
      · cases h
      · cases h
      · simp only [Pub.zone_target_exist.injEq] at h
        obtain ⟨rfl, rfl⟩ := h
        refine ⟨z, hz, rfl, ?_⟩
        rw [hm _ (by simp [Pub.sink]), publishFrame_mem, hr.2.2.2.2.2.1]
        exact Or.inr (Or.inr (Or.inr (Or.inl ⟨j, z, hz, hc, Or.inl rfl⟩)))
      all_goals cases h
    · rintro ⟨z, hz, rfl, h⟩
      rw [hm _ (by simp [Pub.sink]), publishFrame_mem, hr.2.2.2.2.2.1] at h
      rcases h with h | ⟨h, -⟩ | ⟨h, -⟩ | ⟨i, z', hz', hc, h | h⟩ | ⟨i, z', -, ⟨-, h⟩ | ⟨-, h⟩⟩ |
        ⟨h, -⟩
      · have := publishTargetData_sink _ _ _ h
        simp [Pub.sink] at this
      · cases h
      · cases h
      · simp only [Pub.zone_target_count.injEq] at h
        obtain ⟨rfl, h2⟩ := h
        rw [hz] at hz'
        simp only [Option.some.injEq] at hz'
        subst hz'
        exact Or.inr (Or.inr (Or.inr (Or.inl ⟨j, z, hz, hc, Or.inr rfl⟩)))
      all_goals cases h
  · intro j v hv
    rw [hm _ (by simp [Pub.sink]), publishFrame_mem, hr.2.2.2.2.2.2.2.1] at hv
    rcases hv with h | ⟨h, -⟩ | ⟨h, -⟩ | ⟨i, z, -, -, h | h⟩ | ⟨i, z, hz, ⟨hc, h⟩ | ⟨-, h⟩⟩ | ⟨h, -⟩
    · have := publishTargetData_sink _ _ _ h
      simp [Pub.sink] at this
    · cases h
    · cases h
    · cases h
    · cases h
    · simp only [Pub.zone_ex_target_count.injEq] at h
      obtain ⟨rfl, rfl⟩ := h
      exact ⟨⟨z, hz, rfl⟩, hc⟩
    all_goals cases h
  · intro j b hv
    rw [hm _ (by simp [Pub.sink]), publishFrame_mem, hr.2.2.2.2.2.2.2.2] at hv
    rcases hv with h | ⟨h, -⟩ | ⟨h, -⟩ | ⟨i, z, -, -, h | h⟩ | ⟨i, z, hz, ⟨-, h⟩ | ⟨hc, h⟩⟩ | ⟨h, -⟩
    · have := publishTargetData_sink _ _ _ h
      simp [Pub.sink] at this
    · cases h
    · cases h
    · cases h
    · cases h
    · cases h
    · simp only [Pub.zone_ex_target_exist.injEq] at h
      obtain ⟨rfl, rfl⟩ := h
      exact ⟨⟨z, hz, rfl⟩, hc⟩
    · cases h

end

set_option maxRecDepth 100000 in
/-- C15 at a concrete input: two frames with one valid target and then a
frame with none, fed at times 2000, 3000 and 4000, the aggregate count sink
starting at -1. -/
theorem aggregate_count_published_once_witness :
    ∃ t1 o1 t2 o2 t3 o3,
      process_ld2450_data sampleConfig 2000 sampleFrame initialState = some (t1, o1) ∧
      process_ld2450_data sampleConfig 3000 sampleFrame
        { initialState with last_update := 2000, all_target_count := 1 } = some (t2, o2) ∧
      process_ld2450_data sampleConfig 4000 (List.replicate 48 0)
        { initialState with last_update := 3000, all_target_count := 1 } = some (t3, o3) ∧
      publishCount Sink.all_target_count (o1 ++ o2) = 1 ∧
      publishCount Sink.all_target_count o3 = 1 :=
  aggregate_count_published_once
    ⟨sampleConfig, 2000, sampleFrame⟩ ⟨sampleConfig, 3000, sampleFrame⟩
    ⟨sampleConfig, 4000, List.replicate 48 0⟩
    initialState
    { initialState with last_update := 2000, all_target_count := 1 }
    { initialState with last_update := 3000, all_target_count := 1 }
    (classifyTargets sampleConfig
      [targetAt sampleFrame 0, targetAt sampleFrame 8, targetAt sampleFrame 16])
    (classifyTargets sampleConfig
      [targetAt sampleFrame 0, targetAt sampleFrame 8, targetAt sampleFrame 16])
    (classifyTargets sampleConfig
      [targetAt (List.replicate 48 0) 0, targetAt (List.replicate 48 0) 8,
        targetAt (List.replicate 48 0) 16])
    1 0
    ⟨by decide, by decide, by decide⟩ ⟨by decide, by decide, by decide⟩
    ⟨by decide, by decide, by decide⟩
    ⟨classifyFrame_eq _ _ (by decide), by decide⟩
    ⟨classifyFrame_eq _ _ (by decide), by decide⟩
    ⟨classifyFrame_eq _ _ (by decide), by decide⟩
    (by decide) (by decide)
    (by
      intro t o h
      have e : (process_ld2450_data sampleConfig 2000 sampleFrame initialState).map
          (fun r => r.1.all_target_count) = some 1 := by decide
      show (1 : ℚ) = t.all_target_count
      rw [show process_ld2450_data sampleConfig 2000 sampleFrame initialState = some (t, o)
        from h] at e
      simp only [Option.map_some', Option.some.injEq] at e
      exact e.symm)
    (by
      intro t o h
      have e : (process_ld2450_data sampleConfig 3000 sampleFrame
          { initialState with last_update := 2000, all_target_count := 1 }).map
          (fun r => r.1.all_target_count) = some 1 := by decide
      show (1 : ℚ) = t.all_target_count
      rw [show process_ld2450_data sampleConfig 3000 sampleFrame
          { initialState with last_update := 2000, all_target_count := 1 } = some (t, o)
        from h] at e
      simp only [Option.map_some', Option.some.injEq] at e
      exact e.symm)

set_option maxRecDepth 100000 in
/-- C16 (amended) at a concrete input: a 30-byte chunk completing a frame at
time 2000, the gate open. -/
theorem publish_on_change_witness :
    ∃ fr s' out, classifyFrame sampleConfig sampleChunk = some fr ∧
      process_ld2450_data sampleConfig 2000 sampleChunk
        { initialState with packet_buffer := List.replicate 18 0 } = some (s', out) ∧
      (∀ v, Pub.all_target_count v ∈ out → v = fr.all_target_counts ∧
        ({ initialState with packet_buffer := List.replicate 18 0 } : State).all_target_count ≠
          (v : ℚ)) :=
  match publish_on_change sampleConfig 2000 sampleChunk
      { initialState with packet_buffer := List.replicate 18 0 }
      (by decide) (by decide) (by decide) with
  | ⟨fr, s', out, h1, h2, h3, _⟩ => ⟨fr, s', out, h1, h2, h3⟩



/-! ## The rectangular check and the angle-sum check -/

/-- Over the reals `safeAcos` is the arc cosine, which is already clamped. -/
theorem safeAcos_eq_arccos (v : ℝ) : safeAcos v = Real.arccos v := by
  rw [safeAcos_real]
  split_ifs with h1 h2
  · exact (Real.arccos_eq_zero.2 (le_of_lt h1)).symm
  · exact (Real.arccos_eq_pi.2 (le_of_lt h2)).symm
  · rfl

/-- The angle between the vector `(p, r)` and the axis `(0, 1)`, for
`p, r >= 0`: its sine. -/
theorem sin_arccos_div (p r : ℝ) (hp : 0 ≤ p) (h : 0 < p ^ 2 + r ^ 2) :
    Real.sin (Real.arccos (r / Real.sqrt (p ^ 2 + r ^ 2))) = p / Real.sqrt (p ^ 2 + r ^ 2) := by
  have hs : 0 < Real.sqrt (p ^ 2 + r ^ 2) := Real.sqrt_pos.2 h
  rw [Real.sin_arccos]
  have e : 1 - (r / Real.sqrt (p ^ 2 + r ^ 2)) ^ 2 = (p / Real.sqrt (p ^ 2 + r ^ 2)) ^ 2 := by
    rw [div_pow, div_pow, Real.sq_sqrt h.le]
    field_simp
  rw [e, Real.sqrt_sq (div_nonneg hp hs.le)]

theorem cos_arccos_div (p r : ℝ) (h : 0 < p ^ 2 + r ^ 2) :
    Real.cos (Real.arccos (r / Real.sqrt (p ^ 2 + r ^ 2))) = r / Real.sqrt (p ^ 2 + r ^ 2) := by
  have hs : 0 < Real.sqrt (p ^ 2 + r ^ 2) := Real.sqrt_pos.2 h
  have h1 : |r| ≤ Real.sqrt (p ^ 2 + r ^ 2) := by
    apply Real.abs_le_sqrt
    nlinarith [sq_nonneg p]
  have h2 := abs_le.1 h1
  apply Real.cos_arccos
  · rw [le_div_iff₀ hs]
    linarith [h2.1]
  · rw [div_le_iff₀ hs]
    linarith [h2.2]

/-- Two vectors on either side of an axis: the angle between `(p, r)` and
`(-q, r)` is the sum of their angles with the axis. -/
theorem arccos_add (p q r : ℝ) (hp : 0 ≤ p) (hq : 0 ≤ q) (hr : 0 ≤ r)
    (h1 : 0 < p ^ 2 + r ^ 2) (h2 : 0 < q ^ 2 + r ^ 2) :
    Real.arccos ((r ^ 2 - p * q) / (Real.sqrt (p ^ 2 + r ^ 2) * Real.sqrt (q ^ 2 + r ^ 2))) =
      Real.arccos (r / Real.sqrt (p ^ 2 + r ^ 2)) +
      Real.arccos (r / Real.sqrt (q ^ 2 + r ^ 2)) := by
  have hs1 : 0 < Real.sqrt (p ^ 2 + r ^ 2) := Real.sqrt_pos.2 h1
  have hs2 : 0 < Real.sqrt (q ^ 2 + r ^ 2) := Real.sqrt_pos.2 h2
  have e : (r ^ 2 - p * q) / (Real.sqrt (p ^ 2 + r ^ 2) * Real.sqrt (q ^ 2 + r ^ 2)) =
      Real.cos (Real.arccos (r / Real.sqrt (p ^ 2 + r ^ 2)) +
        Real.arccos (r / Real.sqrt (q ^ 2 + r ^ 2))) := by
    rw [Real.cos_add, cos_arccos_div p r h1, cos_arccos_div q r h2, sin_arccos_div p r hp h1,
      sin_arccos_div q r hq h2]
    field_simp
    ring
  rw [e]
  apply Real.arccos_cos
  · exact add_nonneg (Real.arccos_nonneg _) (Real.arccos_nonneg _)
  · have a1 := Real.arccos_le_pi_div_two.2 (div_nonneg hr hs1.le)
    have a2 := Real.arccos_le_pi_div_two.2 (div_nonneg hr hs2.le)
    linarith

/-- The angles of `(p, r)` with the two axes add up to a right angle. -/
theorem arccos_compl (p r : ℝ) (hp : 0 ≤ p) (hr : 0 ≤ r) (h : 0 < p ^ 2 + r ^ 2) :
    Real.arccos (r / Real.sqrt (p ^ 2 + r ^ 2)) + Real.arccos (p / Real.sqrt (r ^ 2 + p ^ 2)) =
      Real.pi / 2 := by
  have hs : 0 < Real.sqrt (p ^ 2 + r ^ 2) := Real.sqrt_pos.2 h
  rw [add_comm (r ^ 2) (p ^ 2)]
  have e2 : 1 - (r / Real.sqrt (p ^ 2 + r ^ 2)) ^ 2 = (p / Real.sqrt (p ^ 2 + r ^ 2)) ^ 2 := by
    rw [div_pow, div_pow, Real.sq_sqrt h.le]
    field_simp
  rw [Real.arccos_eq_arcsin (div_nonneg hr hs.le), e2, Real.sqrt_sq (div_nonneg hp hs.le),
    Real.arccos_eq_pi_div_two_sub_arcsin]
  ring

/-- The four angles subtended at a point of the rectangle that is not a
corner add up to a full turn (`a`, `b` the distances to the right and left
edges, `c`, `d` those to the bottom and top edges). -/
theorem angle_sum_inside (a b c d : ℝ) (ha : 0 ≤ a) (hb : 0 ≤ b) (hc : 0 ≤ c) (hd : 0 ≤ d)
    (h1 : 0 < a ^ 2 + c ^ 2) (h2 : 0 < b ^ 2 + c ^ 2) (h3 : 0 < b ^ 2 + d ^ 2)
    (h4 : 0 < a ^ 2 + d ^ 2) :
    Real.arccos ((c ^ 2 - a * b) / (Real.sqrt (a ^ 2 + c ^ 2) * Real.sqrt (b ^ 2 + c ^ 2))) +
      Real.arccos ((a ^ 2 - c * d) / (Real.sqrt (a ^ 2 + c ^ 2) * Real.sqrt (a ^ 2 + d ^ 2))) +
      Real.arccos ((b ^ 2 - c * d) / (Real.sqrt (b ^ 2 + c ^ 2) * Real.sqrt (b ^ 2 + d ^ 2))) +
      Real.arccos ((d ^ 2 - a * b) / (Real.sqrt (b ^ 2 + d ^ 2) * Real.sqrt (a ^ 2 + d ^ 2))) =
      2 * Real.pi := by
  have k1 : c ^ 2 + a ^ 2 = a ^ 2 + c ^ 2 := add_comm _ _
  have k2 : d ^ 2 + a ^ 2 = a ^ 2 + d ^ 2 := add_comm _ _
  have k3 : c ^ 2 + b ^ 2 = b ^ 2 + c ^ 2 := add_comm _ _
  have k4 : d ^ 2 + b ^ 2 = b ^ 2 + d ^ 2 := add_comm _ _
  have h152 := arccos_add a b c ha hb hc h1 h2
  have h154 := arccos_add c d a hc hd ha (by rw [k1]; exact h1) (by rw [k2]; exact h4)
  have h253 := arccos_add c d b hc hd hb (by rw [k3]; exact h2) (by rw [k4]; exact h3)
  have h354 := arccos_add b a d hb ha hd h3 h4
  have p1 := arccos_compl a c ha hc h1
  have p2 := arccos_compl b c hb hc h2
  have p3 := arccos_compl a d ha hd h4
  have p4 := arccos_compl b d hb hd h3
  rw [k1, k2] at h154
  rw [k3, k4] at h253
  rw [mul_comm b a] at h354
  rw [k1] at p1
  rw [k3] at p2
  rw [k2] at p3
  rw [k4] at p4
  rw [h152, h154, h253, h354]
  linarith

theorem law_of_cosines (u v w n : ℝ) (hu : 0 ≤ u) (hv : 0 ≤ v) (h : u + v - w * w = 2 * n) :
    (Real.sqrt u * Real.sqrt u + Real.sqrt v * Real.sqrt v - w * w) /
      (2 * Real.sqrt u * Real.sqrt v) = n / (Real.sqrt u * Real.sqrt v) := by
  rw [Real.mul_self_sqrt hu, Real.mul_self_sqrt hv, h, mul_assoc,
    mul_div_mul_left _ _ (two_ne_zero (α := ℝ))]

theorem check_zero_iff (z : Zone) (t : Position ℝ) (hz : z.isValid = true) (hv : t.valid = true)
    (he : t.zone_ex_enter = false) (a b c d : ℝ)
    (ha : a = z.x - t.x) (hb : b = t.x - (z.x - z.width))
    (hc : c = t.y - z.y) (hd : d = z.y + z.height - t.y) :
    check_targets_in_zone z t (0 : ℝ) = true ↔
      ¬ (Real.sqrt ((z.width * z.width + z.height * z.height : Int) : ℝ) <
            Real.sqrt (a ^ 2 + c ^ 2) ∧
          Real.sqrt ((z.width * z.width + z.height * z.height : Int) : ℝ) <
            Real.sqrt (b ^ 2 + c ^ 2) ∧
          Real.sqrt ((z.width * z.width + z.height * z.height : Int) : ℝ) <
            Real.sqrt (b ^ 2 + d ^ 2) ∧
          Real.sqrt ((z.width * z.width + z.height * z.height : Int) : ℝ) <
            Real.sqrt (a ^ 2 + d ^ 2)) ∧
      (Real.sqrt (a ^ 2 + c ^ 2) < 1 / 1000000 ∨ Real.sqrt (b ^ 2 + c ^ 2) < 1 / 1000000 ∨
        Real.sqrt (b ^ 2 + d ^ 2) < 1 / 1000000 ∨ Real.sqrt (a ^ 2 + d ^ 2) < 1 / 1000000 ∨
        2 * Real.pi - 1 / 100 ≤
          Real.arccos ((c ^ 2 - a * b) / (Real.sqrt (a ^ 2 + c ^ 2) * Real.sqrt (b ^ 2 + c ^ 2))) +
          Real.arccos ((a ^ 2 - c * d) / (Real.sqrt (a ^ 2 + c ^ 2) * Real.sqrt (a ^ 2 + d ^ 2))) +
          Real.arccos ((b ^ 2 - c * d) / (Real.sqrt (b ^ 2 + c ^ 2) * Real.sqrt (b ^ 2 + d ^ 2))) +
          Real.arccos ((d ^ 2 - a * b) /
            (Real.sqrt (b ^ 2 + d ^ 2) * Real.sqrt (a ^ 2 + d ^ 2)))) := by
  obtain ⟨hw, hh, -⟩ := (isValid_iff z).1 hz
  have hw' : (0 : ℝ) < z.width := by exact_mod_cast hw
  have hh' : (0 : ℝ) < z.height := by exact_mod_cast hh
  have e15 : Real.sqrt (((z.x : ℝ) - t.x) * (z.x - t.x) + ((z.y : ℝ) - t.y) * (z.y - t.y)) =
      Real.sqrt (a ^ 2 + c ^ 2) := by rw [ha, hc]; congr 1; ring
  have e25 : Real.sqrt (((z.x : ℝ) - z.width - t.x) * (z.x - z.width - t.x) +
      ((z.y : ℝ) - t.y) * (z.y - t.y)) = Real.sqrt (b ^ 2 + c ^ 2) := by
    rw [hb, hc]; congr 1; ring
  have e35 : Real.sqrt (((z.x : ℝ) - z.width - t.x) * (z.x - z.width - t.x) +
      ((z.y : ℝ) + z.height - t.y) * (z.y + z.height - t.y)) = Real.sqrt (b ^ 2 + d ^ 2) := by
    rw [hb, hd]; congr 1; ring
  have e45 : Real.sqrt (((z.x : ℝ) - t.x) * (z.x - t.x) +
      ((z.y : ℝ) + z.height - t.y) * (z.y + z.height - t.y)) = Real.sqrt (a ^ 2 + d ^ 2) := by
    rw [ha, hd]; congr 1; ring
  have e12 : Real.sqrt (((z.x : ℝ) - (z.x - z.width)) * (z.x - (z.x - z.width)) +
      ((z.y : ℝ) - z.y) * (z.y - z.y)) = z.width := by
    rw [show ((z.x : ℝ) - (z.x - z.width)) * (z.x - (z.x - z.width)) +
      ((z.y : ℝ) - z.y) * (z.y - z.y) = (z.width : ℝ) ^ 2 by ring]
    exact Real.sqrt_sq hw'.le
  have e14 : Real.sqrt (((z.x : ℝ) - z.x) * (z.x - z.x) +
      ((z.y : ℝ) - (z.y + z.height)) * (z.y - (z.y + z.height))) = z.height := by
    rw [show ((z.x : ℝ) - z.x) * (z.x - z.x) +
      ((z.y : ℝ) - (z.y + z.height)) * (z.y - (z.y + z.height)) = (z.height : ℝ) ^ 2 by ring]
    exact Real.sqrt_sq hh'.le
  have e23 : Real.sqrt (((z.x : ℝ) - z.width - (z.x - z.width)) * (z.x - z.width - (z.x - z.width)) +
      ((z.y : ℝ) - (z.y + z.height)) * (z.y - (z.y + z.height))) = z.height := by
    rw [show ((z.x : ℝ) - z.width - (z.x - z.width)) * (z.x - z.width - (z.x - z.width)) +
      ((z.y : ℝ) - (z.y + z.height)) * (z.y - (z.y + z.height)) = (z.height : ℝ) ^ 2 by ring]
    exact Real.sqrt_sq hh'.le
  have e34 : Real.sqrt (((z.x : ℝ) - z.width - z.x) * (z.x - z.width - z.x) +
      ((z.y : ℝ) + z.height - (z.y + z.height)) * (z.y + z.height - (z.y + z.height))) =
      z.width := by
    rw [show ((z.x : ℝ) - z.width - z.x) * (z.x - z.width - z.x) +
      ((z.y : ℝ) + z.height - (z.y + z.height)) * (z.y + z.height - (z.y + z.height)) =
      (z.width : ℝ) ^ 2 by ring]
    exact Real.sqrt_sq hw'.le
  have two : ((2 : ℚ) : ℝ) = 2 := by norm_num
  have c152 := law_of_cosines (a ^ 2 + c ^ 2) (b ^ 2 + c ^ 2) z.width (c ^ 2 - a * b)
    (by positivity) (by positivity) (by rw [ha, hb]; ring)
  have c154 := law_of_cosines (a ^ 2 + c ^ 2) (a ^ 2 + d ^ 2) z.height (a ^ 2 - c * d)
    (by positivity) (by positivity) (by rw [hc, hd]; ring)
  have c253 := law_of_cosines (b ^ 2 + c ^ 2) (b ^ 2 + d ^ 2) z.height (b ^ 2 - c * d)
    (by positivity) (by positivity) (by rw [hc, hd]; ring)
  have c354 := law_of_cosines (b ^ 2 + d ^ 2) (a ^ 2 + d ^ 2) z.width (d ^ 2 - a * b)
    (by positivity) (by positivity) (by rw [ha, hb]; ring)
  unfold check_targets_in_zone
  rw [corners_zero]
  simp only [hz, hv, he, distanceTo_real, real_lt, real_le, real_ofInt, real_sqrt,
    real_add, real_sub, real_mul, real_div, safeAcos_eq_arccos, TAU, real_ofRat, real_pi, EPSILON,
    Bool.not_true, Bool.or_self, Bool.false_eq_true, if_false]
  rw [e15, e25, e35, e45, e12, e14, e23, e34, two, c152, c154, c253, c354]
  have e6 : ((1 / 1000000 : ℚ) : ℝ) = 1 / 1000000 := by norm_num
  have e2 : ((1 / 100 : ℚ) : ℝ) = 1 / 100 := by norm_num
  rw [e6, e2]
  simp only [Bool.and_eq_true, Bool.or_eq_true, decide_eq_true_eq, and_assoc, or_assoc]
  split_ifs with h1 h2
  · simp only [Bool.false_eq_true, false_iff]
    exact fun h => h.1 h1
  · simp only [true_iff]
    exact ⟨h1, by tauto⟩
  · simp only [decide_eq_true_eq]
    constructor
    · intro h
      exact ⟨h1, by tauto⟩
    · rintro ⟨-, h⟩
      tauto

theorem toInt16_of_range (v : Int) (h1 : -32768 ≤ v) (h2 : v ≤ 32767) : toInt16 v = v := by
  unfold toInt16
  omega

/-- With every floating-point operation read as the exact real operation: when
the `int16_t` casts of the rectangular check do not wrap, a target accepted by
`check_targets_in_rect_zone` is accepted by `check_targets_in_zone` at rotation
angle 0.  This is a fact of the exact reading only; it says nothing about the
rounded arithmetic of the code. -/
theorem rect_inside_angle_sum_exact (z : Zone) (t : Position ℝ)
    (hx : -32768 ≤ z.x - z.width) (hy : z.y + z.height ≤ 32767)
    (hr : check_targets_in_rect_zone z t = true) :
    check_targets_in_zone z t (0 : ℝ) = true := by
  unfold check_targets_in_rect_zone at hr
  by_cases hg : (!z.isValid || !t.valid || t.zone_ex_enter) = true
  · rw [if_pos hg] at hr
    cases hr
  rw [if_neg hg] at hr
  simp only [Bool.or_eq_true, Bool.not_eq_true', not_or, Bool.not_eq_false] at hg
  obtain ⟨⟨hz, hv⟩, he⟩ := hg
  have he' : t.zone_ex_enter = false := by simpa using he
  obtain ⟨hw, hh, hx1, hx2, hy1, hy2⟩ := (isValid_iff z).1 hz
  rw [toInt16_of_range _ hx (by omega), toInt16_of_range _ (by omega) hy] at hr
  simp only [Bool.and_eq_true, decide_eq_true_eq, ge_iff_le] at hr
  obtain ⟨⟨⟨h1, h2⟩, h3⟩, h4⟩ := hr
  rw [min_eq_right (by omega)] at h1
  rw [max_eq_left (by omega)] at h2
  have ha : (0 : ℝ) ≤ (z.x : ℝ) - t.x := by
    have : (0 : Int) ≤ z.x - t.x := by omega
    exact_mod_cast this
  have hb : (0 : ℝ) ≤ (t.x : ℝ) - (z.x - z.width) := by
    have : (0 : Int) ≤ t.x - (z.x - z.width) := by omega
    exact_mod_cast this
  have hc : (0 : ℝ) ≤ (t.y : ℝ) - z.y := by
    have : (0 : Int) ≤ t.y - z.y := by omega
    exact_mod_cast this
  have hd : (0 : ℝ) ≤ (z.y : ℝ) + z.height - t.y := by
    have : (0 : Int) ≤ z.y + z.height - t.y := by omega
    exact_mod_cast this
  have hw' : (0 : ℝ) < z.width := by exact_mod_cast hw
  have hh' : (0 : ℝ) < z.height := by exact_mod_cast hh
  rw [check_zero_iff z t hz hv he' _ _ _ _ rfl rfl rfl rfl]
  constructor
  · intro h
    have := h.1
    rw [Real.sqrt_lt_sqrt_iff (by positivity)] at this
    push_cast at this
    nlinarith
  · have n1 := add_nonneg (sq_nonneg ((z.x : ℝ) - t.x)) (sq_nonneg ((t.y : ℝ) - z.y))
    have n2 := add_nonneg (sq_nonneg ((t.x : ℝ) - (z.x - z.width))) (sq_nonneg ((t.y : ℝ) - z.y))
    have n3 := add_nonneg (sq_nonneg ((t.x : ℝ) - (z.x - z.width)))
      (sq_nonneg ((z.y : ℝ) + z.height - t.y))
    have n4 := add_nonneg (sq_nonneg ((z.x : ℝ) - t.x))
      (sq_nonneg ((z.y : ℝ) + z.height - t.y))
    rcases eq_or_lt_of_le n1 with e1 | p1
    · left
      rw [← e1, Real.sqrt_zero]
      norm_num
    rcases eq_or_lt_of_le n2 with e2 | p2
    · right; left
      rw [← e2, Real.sqrt_zero]
      norm_num
    rcases eq_or_lt_of_le n3 with e3 | p3
    · right; right; left
      rw [← e3, Real.sqrt_zero]
      norm_num
    rcases eq_or_lt_of_le n4 with e4 | p4
    · right; right; right; left
      rw [← e4, Real.sqrt_zero]
      norm_num
    right; right; right; right
    rw [angle_sum_inside _ _ _ _ ha hb hc hd p1 p2 p3 p4]
    linarith

section
variable {F : Type} [FloatOps F]

end

section
variable {F : Type} [FloatOps F]

/-- C21: every invocation returns a result, so the out-of-range branch of the
byte reads is never taken.  When the input chunk has at least 30 bytes, every
index the parse loop reads (`b + k` for `b` in 0, 8, 16 and `k` from 4 to 11)
is below 30 and in range, each of the three blocks is parsed and the loop
yields three targets.  When the chunk has fewer than 30 bytes the invocation
still returns, and it publishes nothing to a target sink: the parse loop is
not reached. -/
theorem decoder_reads_in_range (cfg : Config F) (now : Nat) (bytes : List Byte) (s : State) :
    (∃ r, process_ld2450_data cfg now bytes s = some r) ∧
    (30 ≤ bytes.length →
      (∀ b ∈ [0, 8, 16], ∀ k, 4 ≤ k → k ≤ 11 →
        b + k < 30 ∧ b + k < bytes.length ∧ ∃ v, bytes[b + k]? = some v) ∧
      (∀ b ∈ [0, 8, 16], ∃ t, parseTarget (F := F) bytes b = some t) ∧
      (∃ p, parseTargets (F := F) bytes NUM_TARGETS 0 = some p ∧ p.length = 3) ∧
      ∃ fr, classifyFrame cfg bytes = some fr) ∧
    (bytes.length < 30 →
      ∃ s' out, process_ld2450_data cfg now bytes s = some (s', out) ∧
        ∀ e ∈ out, e.sink = Sink.update_rate ∨ e.sink = Sink.packet_errors ∨
          e.sink = Sink.radar_status) := by
  refine ⟨process_total cfg now bytes s, ?_, ?_⟩
  · intro h30
    refine ⟨?_, ?_, ⟨_, parseTargets_eq bytes h30, rfl⟩, ⟨_, classifyFrame_eq cfg bytes h30⟩⟩
    · intro b hb k h4 h11
      simp only [List.mem_cons, List.mem_singleton, List.not_mem_nil, or_false] at hb
      have h1 : b + k < 30 := by rcases hb with rfl | rfl | rfl <;> omega
      exact ⟨h1, by omega, _, getElem?_getD bytes (b + k) (by omega)⟩
    · intro b hb
      simp only [List.mem_cons, List.mem_singleton, List.not_mem_nil, or_false] at hb
      exact ⟨_, parseTarget_eq bytes b (by rcases hb with rfl | rfl | rfl <;> omega)⟩
  · intro h30
    by_cases h48 : (s.packet_buffer ++ bytes).length < FULL_PACKET_SIZE
    · exact ⟨_, _, process_buffering cfg now bytes s h48, fun e he => by simp at he⟩
    · by_cases hgate : (usub now s.last_update : ℚ) ≤ cfg.update_interval_ms
      · exact ⟨_, _, process_rejected cfg now bytes s (Nat.not_lt.1 h48) hgate,
          fun e he => by simp at he⟩
      · refine ⟨_, _, process_error cfg now bytes s (Nat.not_lt.1 h48) hgate h30, ?_⟩
        intro e he
        rcases List.mem_append.1 he with h | h
        · exact Or.inl (rateReporter_sink _ _ _ h)
        · simp only [List.mem_cons, List.mem_singleton, List.not_mem_nil, or_false] at h
          rcases h with rfl | rfl
          · exact Or.inr (Or.inl rfl)
          · exact Or.inr (Or.inr rfl)

end

/-- C21 at a concrete input: the 30-byte chunk `sampleChunk`; the last index
read, 16 + 11 = 27, is in range. -/
theorem decoder_reads_in_range_witness :
    30 ≤ sampleChunk.length ∧
    (16 + 11 < 30 ∧ 16 + 11 < sampleChunk.length ∧ ∃ v, sampleChunk[16 + 11]? = some v) ∧
    ∃ fr, classifyFrame sampleConfig sampleChunk = some fr :=
  have h := (decoder_reads_in_range sampleConfig 2000 sampleChunk initialState).2.1 (by decide)
  ⟨by decide, h.1 16 (by decide) 11 (by decide) (by decide), h.2.2.2⟩

/-! ## The corners of a rotated zone -/

/-- C22: over the reals, for every zone and every rotation angle the corners
built by `ZoneCorners` form a rectangle: `P2 - P1` is orthogonal to `P4 - P1`,
the distance from `P1` to `P2` is `|width|`, the distance from `P1` to `P4` is
`|height|`, and `P3 = P2 + (P4 - P1)`. -/
theorem corners_form_rectangle (z : Zone) (theta : ℝ) :
    ((ZoneCorners.build z theta).p2.x - (ZoneCorners.build z theta).p1.x) *
        ((ZoneCorners.build z theta).p4.x - (ZoneCorners.build z theta).p1.x) +
      ((ZoneCorners.build z theta).p2.y - (ZoneCorners.build z theta).p1.y) *
        ((ZoneCorners.build z theta).p4.y - (ZoneCorners.build z theta).p1.y) = (0 : ℝ) ∧
    (ZoneCorners.build z theta).p1.distanceTo (ZoneCorners.build z theta).p2 =
      |(z.width : ℝ)| ∧
    (ZoneCorners.build z theta).p1.distanceTo (ZoneCorners.build z theta).p4 =
      |(z.height : ℝ)| ∧
    (ZoneCorners.build z theta).p3.x =
      (ZoneCorners.build z theta).p2.x +
        ((ZoneCorners.build z theta).p4.x - (ZoneCorners.build z theta).p1.x) ∧
    (ZoneCorners.build z theta).p3.y =
      (ZoneCorners.build z theta).p2.y +
        ((ZoneCorners.build z theta).p4.y - (ZoneCorners.build z theta).p1.y) := by
  have e1 : Real.cos ((theta - 90) * Real.pi / 180) = Real.sin (theta * Real.pi / 180) := by
    rw [show (theta - 90) * Real.pi / 180 = theta * Real.pi / 180 - Real.pi / 2 by ring]
    exact Real.cos_sub_pi_div_two _
  have e2 : Real.sin ((theta + 90) * Real.pi / 180) = Real.cos (theta * Real.pi / 180) := by
    rw [show (theta + 90) * Real.pi / 180 = theta * Real.pi / 180 + Real.pi / 2 by ring]
    exact Real.sin_add_pi_div_two _
  have k90 : ((90 : ℚ) : ℝ) = 90 := by norm_num
  have k180 : ((180 : ℚ) : ℝ) = 180 := by norm_num
  have hcs := Real.sin_sq_add_cos_sq (theta * Real.pi / 180)
  simp only [ZoneCorners.build, Pxy.distanceTo, toRadians, real_add, real_sub, real_mul, real_div,
    real_ofInt, real_ofRat, real_cos, real_sin, real_pi, real_sqrt, k90, k180, e1, e2]
  refine ⟨by ring, ?_, ?_, by ring, by ring⟩
  · rw [← Real.sqrt_sq_eq_abs]
    congr 1
    linear_combination ((z.width : ℝ)) ^ 2 * hcs
  · rw [← Real.sqrt_sq_eq_abs]
    congr 1
    linear_combination ((z.height : ℝ)) ^ 2 * hcs

end LD2450
